import Mathlib

/-!
# GoToSocial cache layer, keyset pagination and request contexts

A shallow embedding of `internal/cache/slice.go`, `internal/cache/gts.go`,
the vendored `go-pctx/context.go`, `internal/middleware/persistctx.go` and
`requestid.go`, and `internal/federation/federatingdb/update.go`.

Go slices are modelled as headers into a heap of backing arrays, so that
aliasing between a cached slice and a slice handed to a caller can be
stated. The vendored `ttl.Cache` and `result.Cache` and the list accounts
endpoint, of which only the test is present, are modelled from the
specification.
-/

namespace GoToSocial

/-! ## Go memory: slices over backing arrays -/

/-- A Go slice value: the nil slice, or a header naming a backing array,
an offset into it and a length. -/
inductive Slice where
  | nil : Slice
  | hdr (arr off len : Nat) : Slice
  deriving DecidableEq, Repr

/-- Allocated backing arrays, addressed by their position. -/
abbrev Heap (T : Type) := List (List T)

/-- The elements a slice denotes in a heap. -/
def Slice.read {T : Type} (h : Heap T) : Slice → List T
  | .nil => []
  | .hdr a o n => ((h.getD a []).drop o).take n

/-- Go `s[i] = v`: writes through the header into the backing array;
`none` is the index-out-of-range panic. -/
def Slice.store {T : Type} (h : Heap T) (s : Slice) (i : Nat) (v : T) : Option (Heap T) :=
  match s with
  | .nil => none
  | .hdr a o n =>
    if i < n then some (h.set a ((h.getD a []).set (o + i) v)) else none

/-- Two slices share backing storage. -/
def Slice.aliases : Slice → Slice → Bool
  | .hdr a _ _, .hdr b _ _ => a == b
  | _, _ => false

/-- A slice header points at allocated memory. -/
def Slice.Valid {T : Type} (h : Heap T) : Slice → Prop
  | .nil => True
  | .hdr a _ _ => a < h.length

instance {T : Type} (h : Heap T) (s : Slice) : Decidable (s.Valid h) := by
  cases s <;> unfold Slice.Valid <;> infer_instance

/-- `slices.Clone` of golang.org/x/exp/slices: nil is preserved, otherwise
`append(S([]E{}), s...)`, a freshly allocated array holding the elements. -/
def slicesClone {T : Type} (h : Heap T) (s : Slice) : Heap T × Slice :=
  match s with
  | .nil => (h, .nil)
  | .hdr a o n =>
    (h ++ [(Slice.hdr a o n).read h], .hdr h.length 0 ((Slice.hdr a o n).read h).length)

/-! ## ttl.Cache -/

/-- One cached pair with its expiry time. -/
structure TTLEntry (V : Type) where
  key : String
  value : V
  expiry : Int
  deriving DecidableEq, Repr

/-- Modelled from the spec: `ttl.Cache` of the vendored
codeberg.org/gruf/go-cache/v3/ttl, which is not under src/. A mapping from
string keys to values "with its own TTL"; "each entry's expiry is
insertion_time + TTL"; a lookup returns the value "if present and
unexpired", an entry being expired "when now >= expiry". The configured
maximum size is recorded; eviction on overflow and the sweep loop are not
part of this model. Times and durations are integers, as `time.Duration`. -/
structure TTLCache (V : Type) where
  entries : List (TTLEntry V)
  Cap : Int
  TTL : Int
  /-- The frequency of the running sweep loop, `none` when none runs. -/
  sweeping : Option Int := none
  deriving DecidableEq, Repr

/-- Modelled from the spec: `ttl.New(len, cap, ttl)`, an empty cache with the
given maximum size and TTL. -/
def TTLCache.New {V : Type} (_len cap ttl : Int) : TTLCache V :=
  { entries := [], Cap := cap, TTL := ttl }

/-- Modelled from the spec: `ttl.Cache.Get`, the value under `key` when
present and unexpired at time `now`. -/
def TTLCache.Get {V : Type} (c : TTLCache V) (now : Int) (key : String) : Option V :=
  match c.entries.find? (fun e => e.key == key) with
  | some e => if now < e.expiry then some e.value else none
  | none => none

/-- Modelled from the spec: `ttl.Cache.Set`, stores `value` under `key`
with expiry `now + TTL`, replacing any previous entry of that key. -/
def TTLCache.Set {V : Type} (c : TTLCache V) (now : Int) (key : String) (value : V) :
    TTLCache V :=
  { c with entries := ⟨key, value, now + c.TTL⟩ :: c.entries.filter (fun e => e.key != key) }

/-! ## SliceCache -/

/-- The machine state a `SliceCache[T]` method runs in: the wrapped
`*ttl.Cache[string, []T]`, the heap of backing arrays, the clock, and two
counters recording how often the `load` and `reslice` callbacks were
invoked. -/
structure State (T : Type) where
  cache : TTLCache Slice
  heap : Heap T
  now : Int
  loaderCalls : Nat
  resliceCalls : Nat

/-- A `load func() ([]T, error)` callback: it may allocate and returns a
slice together with a Go error (`none` is the nil error). -/
abbrev Loader (T ε : Type) := Heap T → Heap T × Slice × Option ε

/-- A `reslice func([]T) []T` callback. -/
abbrev Reslice (T : Type) := Heap T → Slice → Slice

/-- Calling `load()`. -/
def State.callLoad {T ε : Type} (s : State T) (load : Loader T ε) :
    State T × Slice × Option ε :=
  let r := load s.heap
  ({ s with heap := r.1, loaderCalls := s.loaderCalls + 1 }, r.2.1, r.2.2)

/-- Calling `reslice(data)`. -/
def State.callReslice {T : Type} (s : State T) (reslice : Reslice T) (data : Slice) :
    State T × Slice :=
  ({ s with resliceCalls := s.resliceCalls + 1 }, reslice s.heap data)

/-- Returning `slices.Clone(data), nil`. -/
def State.returnClone {T ε : Type} (s : State T) (data : Slice) :
    State T × Slice × Option ε :=
  let r := slicesClone s.heap data
  ({ s with heap := r.1 }, r.2, none)

/-- `SliceCache.Load`: look the key up; when not cached call `load`, return
`nil, err` on error, otherwise store the data; return a clone. -/
def SliceCache.Load {T ε : Type} (s : State T) (key : String) (load : Loader T ε) :
    State T × Slice × Option ε :=
  match s.cache.Get s.now key with
  | some data => s.returnClone data
  | none =>
    match s.callLoad load with
    | (s1, _, some err) => (s1, Slice.nil, some err)
    | (s1, data, none) =>
      let s2 := { s1 with cache := s1.cache.Set s1.now key data }
      s2.returnClone data

/-- `SliceCache.LoadRange`: as `Load`, but the data is passed through
`reslice` before the clone is taken. -/
def SliceCache.LoadRange {T ε : Type} (s : State T) (key : String) (load : Loader T ε)
    (reslice : Reslice T) : State T × Slice × Option ε :=
  match s.cache.Get s.now key with
  | some data =>
    let r := s.callReslice reslice data
    r.1.returnClone r.2
  | none =>
    match s.callLoad load with
    | (s1, _, some err) => (s1, Slice.nil, some err)
    | (s1, data, none) =>
      let s2 := { s1 with cache := s1.cache.Set s1.now key data }
      let r := s2.callReslice reslice data
      r.1.returnClone r.2

/-- A reslice callback is pure: the elements of its result are a function
`f` of the elements of its argument. -/
def Reslice.Pure {T : Type} (w : Reslice T) (f : List T → List T) : Prop :=
  ∀ h s, (w h s).read h = f (s.read h)

/-- Go `data[lo:]`, a reslice that shares the backing array. -/
def Slice.sliceFrom (lo : Nat) : Slice → Slice
  | .nil => .nil
  | .hdr a o n => .hdr a (o + lo) (n - lo)

/-- Every cached slice points at allocated memory. -/
def State.WF {T : Type} (s : State T) : Prop :=
  ∀ e ∈ s.cache.entries, e.value.Valid s.heap

/-- Go memory safety for a loader: it never frees a backing array and the
slice it returns points at allocated memory. -/
def Loader.Safe {T ε : Type} (load : Loader T ε) : Prop :=
  ∀ h, h.length ≤ (load h).1.length ∧ (load h).2.1.Valid (load h).1

/-- No cached slice shares backing storage with `out`. -/
def State.Isolated {T : Type} (s : State T) (out : Slice) : Prop :=
  ∀ e ∈ s.cache.entries, e.value.aliases out = false

/-! ## Example states and callbacks -/

/-- A state caching `[1, 2]` under `"a"` until time 10. -/
def exState : State Nat :=
  { cache := { entries := [⟨"a", Slice.hdr 0 0 2, 10⟩], Cap := 100, TTL := 5 }
    heap := [[1, 2]], now := 0, loaderCalls := 0, resliceCalls := 0 }

/-- A loader that allocates and returns `[7, 8, 9]`. -/
def exLoader : Loader Nat String :=
  fun h => (h ++ [[7, 8, 9]], Slice.hdr h.length 0 3, none)

/-- A loader that always fails. -/
def failLoader : Loader Nat String :=
  fun h => (h, Slice.nil, some "db closed")

/-- A loader that fails while at most one array is allocated, as on its first
call from `exState`, and returns `[7]` afterwards. -/
def flakyLoader : Loader Nat String :=
  fun h => if h.length ≤ 1 then (h ++ [[]], Slice.nil, some "timeout")
           else (h ++ [[7]], Slice.hdr h.length 0 1, none)

/-- The reslice `data[1:]`. -/
def exReslice : Reslice Nat := fun _ d => d.sliceFrom 1

/-- A loader that returns the slice on backing array 1, which a caller holds
from an earlier `Load`, once that array is allocated. -/
def aliasLoader : Loader Nat String :=
  fun h => if 1 < h.length then (h, Slice.hdr 1 0 2, none) else (h, Slice.nil, none)

/-- The state after `out, _ := Load("a", exLoader)` from `exState`, which
returns the slice on array 1, followed by `Load("b", aliasLoader)`. -/
def exAliased : State Nat :=
  (SliceCache.Load (SliceCache.Load exState "a" exLoader).1 "b" aliasLoader).1

/-- `SliceCache[T]`: a wrapper of a `*ttl.Cache[string, []T]`; its methods
`Load` and `LoadRange` above run on the wrapped cache held in `State.cache`. -/
structure SliceCache (T : Type) where
  Cache : TTLCache Slice
  deriving DecidableEq, Repr

/-! ## Go memory: pointers to objects -/

/-- A Go pointer: nil or the address of an allocated object. -/
abbrev Ptr := Option Nat

/-- Allocated objects of one type, addressed by their position. -/
abbrev Objects (T : Type) := List T

/-- Go `new(T)`: allocates a zero value and returns its address. -/
def Objects.new {T : Type} [Inhabited T] (h : Objects T) : Objects T × Ptr :=
  (h ++ [default], some h.length)

/-- Go `*p`; `none` is the nil-pointer panic. -/
def Objects.deref {T : Type} (h : Objects T) (p : Ptr) : Option T :=
  p.bind (fun a => h[a]?)

/-- Go `*dst = *src`, a copy of the pointed-to struct value. -/
def Objects.assign {T : Type} (h : Objects T) (dst src : Ptr) : Option (Objects T) := do
  let v ← h.deref src
  let a ← dst
  if a < h.length then some (h.set a v) else none

/-- Go `*p = v`; `none` is the nil-pointer panic. -/
def Objects.store {T : Type} (h : Objects T) (p : Ptr) (v : T) : Option (Objects T) := do
  let a ← p
  if a < h.length then some (h.set a v) else none

/-! ## gtsmodel -/

/-- `gtsmodel.AccountNote`; `Account` and `TargetAccount` are `*Account`
pointers, times are instants. -/
structure AccountNote where
  ID : String
  CreatedAt : Int
  UpdatedAt : Int
  AccountID : String
  Account : Ptr
  TargetAccountID : String
  TargetAccount : Ptr
  Comment : String
  deriving DecidableEq, Repr

/-- The Go zero value of `AccountNote`. -/
instance : Inhabited AccountNote :=
  ⟨{ ID := "", CreatedAt := 0, UpdatedAt := 0, AccountID := "", Account := none,
     TargetAccountID := "", TargetAccount := none, Comment := "" }⟩

/-! ## result.Cache -/

/-- A `result.Lookup`: a field path and the multi flag. -/
structure Lookup where
  Name : String
  Multi : Bool := false
  deriving DecidableEq, Repr

/-- Modelled from the spec: `result.Cache` of the vendored
codeberg.org/gruf/go-cache/v3/result, which is not under src/: the
configuration a result cache owns, "the set of IndexDescriptors, a
maximum-size bound, … a TTL", the copy function applied to values, and the
"configurable predicate" that "decides which loader errors are eligible" for
negative caching. `ttl` and `ignore` are `none` until set. -/
structure ResultCache (T P : Type) where
  lookups : List Lookup
  copy : Objects T → Ptr → Option (Objects T × Ptr)
  cap : Int
  ttl : Option Int
  ignore : Option P
  /-- The frequency of the running sweep loop, `none` when none runs. -/
  sweeping : Option Int := none

/-- Modelled from the spec: `result.New(lookups, copy, cap)`. -/
def ResultCache.New {T P : Type} (lookups : List Lookup)
    (copy : Objects T → Ptr → Option (Objects T × Ptr)) (cap : Int) : ResultCache T P :=
  { lookups := lookups, copy := copy, cap := cap, ttl := none, ignore := none }

/-- Modelled from the spec: `Cache.SetTTL(ttl, update)`. -/
def ResultCache.SetTTL {T P : Type} (c : ResultCache T P) (ttl : Int) (_update : Bool) :
    ResultCache T P :=
  { c with ttl := some ttl }

/-- Modelled from the spec: `Cache.IgnoreErrors(ignore)`. -/
def ResultCache.IgnoreErrors {T P : Type} (c : ResultCache T P) (ignore : P) :
    ResultCache T P :=
  { c with ignore := some ignore }

/-- Modelled from the spec: `domain.BlockCache` (not under src/), allocated
by `new`; its contents are not modelled. -/
structure BlockCache where
  deriving DecidableEq, Repr

/-! ## GTSCaches -/

/-- The entity types that have a result cache. -/
inductive Entity where
  | account
  | accountNote
  | block
  | emoji
  | emojiCategory
  | follow
  | followRequest
  | instance_
  | list
  | listEntry
  | marker
  | media
  | mention
  | notification
  | report
  | status
  | statusFave
  | tag
  | tombstone
  | user
  deriving DecidableEq, Repr
/-- Modelled from the spec: the configuration surface (package config is not
under src/), "per entity type and per ID-list relation kind, three knobs —
maximum entry count, time-to-live, sweep frequency". -/
structure CacheConfig where
  MaxSize : Int
  TTL : Int
  SweepFreq : Int
  deriving DecidableEq, Repr
/-- The `config.GetCacheGTS…` getters, one group of three per cache. -/
structure Config where
  Account : CacheConfig
  AccountNote : CacheConfig
  Block : CacheConfig
  BlockIDs : CacheConfig
  Emoji : CacheConfig
  EmojiCategory : CacheConfig
  Follow : CacheConfig
  FollowIDs : CacheConfig
  FollowRequest : CacheConfig
  FollowRequestIDs : CacheConfig
  Instance : CacheConfig
  List : CacheConfig
  ListEntry : CacheConfig
  Marker : CacheConfig
  Media : CacheConfig
  Mention : CacheConfig
  Notification : CacheConfig
  Report : CacheConfig
  Status : CacheConfig
  StatusFave : CacheConfig
  Tag : CacheConfig
  Tombstone : CacheConfig
  User : CacheConfig
  Webfinger : CacheConfig
  deriving DecidableEq, Repr
/-- `GTSCaches`: every field is a pointer, `none` being nil. -/
structure GTSCaches (E : Entity → Type) (P : Type) where
  account : Option (ResultCache (E Entity.account) P) := none
  accountNote : Option (ResultCache (E Entity.accountNote) P) := none
  block : Option (ResultCache (E Entity.block) P) := none
  blockIDs : Option (SliceCache String) := none
  domainBlock : Option BlockCache := none
  emoji : Option (ResultCache (E Entity.emoji) P) := none
  emojiCategory : Option (ResultCache (E Entity.emojiCategory) P) := none
  follow : Option (ResultCache (E Entity.follow) P) := none
  followIDs : Option (SliceCache String) := none
  followRequest : Option (ResultCache (E Entity.followRequest) P) := none
  followRequestIDs : Option (SliceCache String) := none
  instance_ : Option (ResultCache (E Entity.instance_) P) := none
  list : Option (ResultCache (E Entity.list) P) := none
  listEntry : Option (ResultCache (E Entity.listEntry) P) := none
  marker : Option (ResultCache (E Entity.marker) P) := none
  media : Option (ResultCache (E Entity.media) P) := none
  mention : Option (ResultCache (E Entity.mention) P) := none
  notification : Option (ResultCache (E Entity.notification) P) := none
  report : Option (ResultCache (E Entity.report) P) := none
  status : Option (ResultCache (E Entity.status) P) := none
  statusFave : Option (ResultCache (E Entity.statusFave) P) := none
  tag : Option (ResultCache (E Entity.tag) P) := none
  tombstone : Option (ResultCache (E Entity.tombstone) P) := none
  user : Option (ResultCache (E Entity.user) P) := none
  webfinger : Option (TTLCache String) := none

/-- `GTSCaches.initAccount`. -/
def GTSCaches.initAccount {E : Entity → Type} {P : Type} [∀ e, Inhabited (E e)]
    (cfg : Config) (ignoreErrors : P) (c : GTSCaches E P) : Option (GTSCaches E P) := do
  let c := { c with account := some (ResultCache.New [
      { Name := "ID" },
      { Name := "URI" },
      { Name := "URL" },
      { Name := "Username.Domain" },
      { Name := "PublicKeyURI" },
      { Name := "InboxURI" },
      { Name := "OutboxURI" },
      { Name := "FollowersURI" },
      { Name := "FollowingURI" }
    ] (fun (h : Objects (E Entity.account)) a1 => do
      let (h, a2) := Objects.new h
      let h ← h.assign a2 a1
      pure (h, a2)) cfg.Account.MaxSize) }
  let c := { c with account := some ((← c.account).SetTTL cfg.Account.TTL true) }
  let c := { c with account := some ((← c.account).IgnoreErrors ignoreErrors) }
  pure c

/-- `GTSCaches.initAccountNote`. -/
def GTSCaches.initAccountNote {E : Entity → Type} {P : Type} [∀ e, Inhabited (E e)]
    (cfg : Config) (ignoreErrors : P) (c : GTSCaches E P) : Option (GTSCaches E P) := do
  let c := { c with accountNote := some (ResultCache.New [
      { Name := "ID" },
      { Name := "AccountID.TargetAccountID" }
    ] (fun (h : Objects (E Entity.accountNote)) n1 => do
      let (h, n2) := Objects.new h
      let h ← h.assign n2 n1
      pure (h, n2)) cfg.AccountNote.MaxSize) }
  let c := { c with accountNote := some ((← c.accountNote).SetTTL cfg.AccountNote.TTL true) }
  let c := { c with accountNote := some ((← c.accountNote).IgnoreErrors ignoreErrors) }
  pure c

/-- `GTSCaches.initBlock`. -/
def GTSCaches.initBlock {E : Entity → Type} {P : Type} [∀ e, Inhabited (E e)]
    (cfg : Config) (ignoreErrors : P) (c : GTSCaches E P) : Option (GTSCaches E P) := do
  let c := { c with block := some (ResultCache.New [
      { Name := "ID" },
      { Name := "URI" },
      { Name := "AccountID.TargetAccountID" },
      { Name := "AccountID", Multi := true },
      { Name := "TargetAccountID", Multi := true }
    ] (fun (h : Objects (E Entity.block)) b1 => do
      let (h, b2) := Objects.new h
      let h ← h.assign b2 b1
      pure (h, b2)) cfg.Block.MaxSize) }
  let c := { c with block := some ((← c.block).SetTTL cfg.Block.TTL true) }
  let c := { c with block := some ((← c.block).IgnoreErrors ignoreErrors) }
  pure c

/-- `GTSCaches.initEmoji`. -/
def GTSCaches.initEmoji {E : Entity → Type} {P : Type} [∀ e, Inhabited (E e)]
    (cfg : Config) (ignoreErrors : P) (c : GTSCaches E P) : Option (GTSCaches E P) := do
  let c := { c with emoji := some (ResultCache.New [
      { Name := "ID" },
      { Name := "URI" },
      { Name := "Shortcode.Domain" },
      { Name := "ImageStaticURL" },
      { Name := "CategoryID", Multi := true }
    ] (fun (h : Objects (E Entity.emoji)) e1 => do
      let (h, e2) := Objects.new h
      let h ← h.assign e2 e1
      pure (h, e2)) cfg.Emoji.MaxSize) }
  let c := { c with emoji := some ((← c.emoji).SetTTL cfg.Emoji.TTL true) }
  let c := { c with emoji := some ((← c.emoji).IgnoreErrors ignoreErrors) }
  pure c

/-- `GTSCaches.initEmojiCategory`. -/
def GTSCaches.initEmojiCategory {E : Entity → Type} {P : Type} [∀ e, Inhabited (E e)]
    (cfg : Config) (ignoreErrors : P) (c : GTSCaches E P) : Option (GTSCaches E P) := do
  let c := { c with emojiCategory := some (ResultCache.New [
      { Name := "ID" },
      { Name := "Name" }
    ] (fun (h : Objects (E Entity.emojiCategory)) c1 => do
      let (h, c2) := Objects.new h
      let h ← h.assign c2 c1
      pure (h, c2)) cfg.EmojiCategory.MaxSize) }
  let c := { c with emojiCategory := some ((← c.emojiCategory).SetTTL cfg.EmojiCategory.TTL true) }
  let c := { c with emojiCategory := some ((← c.emojiCategory).IgnoreErrors ignoreErrors) }
  pure c

/-- `GTSCaches.initFollow`. -/
def GTSCaches.initFollow {E : Entity → Type} {P : Type} [∀ e, Inhabited (E e)]
    (cfg : Config) (c : GTSCaches E P) : Option (GTSCaches E P) := do
  let c := { c with follow := some (ResultCache.New [
      { Name := "ID" },
      { Name := "URI" },
      { Name := "AccountID.TargetAccountID" },
      { Name := "AccountID", Multi := true },
      { Name := "TargetAccountID", Multi := true }
    ] (fun (h : Objects (E Entity.follow)) f1 => do
      let (h, f2) := Objects.new h
      let h ← h.assign f2 f1
      pure (h, f2)) cfg.Follow.MaxSize) }
  let c := { c with follow := some ((← c.follow).SetTTL cfg.Follow.TTL true) }
  pure c

/-- `GTSCaches.initFollowRequest`. -/
def GTSCaches.initFollowRequest {E : Entity → Type} {P : Type} [∀ e, Inhabited (E e)]
    (cfg : Config) (c : GTSCaches E P) : Option (GTSCaches E P) := do
  let c := { c with followRequest := some (ResultCache.New [
      { Name := "ID" },
      { Name := "URI" },
      { Name := "AccountID.TargetAccountID" },
      { Name := "AccountID", Multi := true },
      { Name := "TargetAccountID", Multi := true }
    ] (fun (h : Objects (E Entity.followRequest)) f1 => do
      let (h, f2) := Objects.new h
      let h ← h.assign f2 f1
      pure (h, f2)) cfg.FollowRequest.MaxSize) }
  let c := { c with followRequest := some ((← c.followRequest).SetTTL cfg.FollowRequest.TTL true) }
  pure c

/-- `GTSCaches.initInstance`. -/
def GTSCaches.initInstance {E : Entity → Type} {P : Type} [∀ e, Inhabited (E e)]
    (cfg : Config) (ignoreErrors : P) (c : GTSCaches E P) : Option (GTSCaches E P) := do
  let c := { c with instance_ := some (ResultCache.New [
      { Name := "ID" },
      { Name := "Domain" }
    ] (fun (h : Objects (E Entity.instance_)) i1 => do
      let (h, i2) := Objects.new h
      let h ← h.assign i2 i1
      pure (h, i1)) cfg.Instance.MaxSize) }
  let c := { c with instance_ := some ((← c.instance_).SetTTL cfg.Instance.TTL true) }
  let c := { c with emojiCategory := some ((← c.emojiCategory).IgnoreErrors ignoreErrors) }
  pure c

/-- `GTSCaches.initList`. -/
def GTSCaches.initList {E : Entity → Type} {P : Type} [∀ e, Inhabited (E e)]
    (cfg : Config) (ignoreErrors : P) (c : GTSCaches E P) : Option (GTSCaches E P) := do
  let c := { c with list := some (ResultCache.New [
      { Name := "ID" }
    ] (fun (h : Objects (E Entity.list)) l1 => do
      let (h, l2) := Objects.new h
      let h ← h.assign l2 l1
      pure (h, l2)) cfg.List.MaxSize) }
  let c := { c with list := some ((← c.list).SetTTL cfg.List.TTL true) }
  let c := { c with list := some ((← c.list).IgnoreErrors ignoreErrors) }
  pure c

/-- `GTSCaches.initListEntry`. -/
def GTSCaches.initListEntry {E : Entity → Type} {P : Type} [∀ e, Inhabited (E e)]
    (cfg : Config) (ignoreErrors : P) (c : GTSCaches E P) : Option (GTSCaches E P) := do
  let c := { c with listEntry := some (ResultCache.New [
      { Name := "ID" },
      { Name := "ListID", Multi := true },
      { Name := "FollowID", Multi := true }
    ] (fun (h : Objects (E Entity.listEntry)) l1 => do
      let (h, l2) := Objects.new h
      let h ← h.assign l2 l1
      pure (h, l2)) cfg.ListEntry.MaxSize) }
  let c := { c with list := some ((← c.list).SetTTL cfg.ListEntry.TTL true) }
  let c := { c with list := some ((← c.list).IgnoreErrors ignoreErrors) }
  pure c

/-- `GTSCaches.initMarker`. -/
def GTSCaches.initMarker {E : Entity → Type} {P : Type} [∀ e, Inhabited (E e)]
    (cfg : Config) (ignoreErrors : P) (c : GTSCaches E P) : Option (GTSCaches E P) := do
  let c := { c with marker := some (ResultCache.New [
      { Name := "AccountID.Name" }
    ] (fun (h : Objects (E Entity.marker)) m1 => do
      let (h, m2) := Objects.new h
      let h ← h.assign m2 m1
      pure (h, m2)) cfg.Marker.MaxSize) }
  let c := { c with marker := some ((← c.marker).SetTTL cfg.Marker.TTL true) }
  let c := { c with marker := some ((← c.marker).IgnoreErrors ignoreErrors) }
  pure c

/-- `GTSCaches.initMedia`. -/
def GTSCaches.initMedia {E : Entity → Type} {P : Type} [∀ e, Inhabited (E e)]
    (cfg : Config) (ignoreErrors : P) (c : GTSCaches E P) : Option (GTSCaches E P) := do
  let c := { c with media := some (ResultCache.New [
      { Name := "ID" }
    ] (fun (h : Objects (E Entity.media)) m1 => do
      let (h, m2) := Objects.new h
      let h ← h.assign m2 m1
      pure (h, m2)) cfg.Media.MaxSize) }
  let c := { c with media := some ((← c.media).SetTTL cfg.Media.TTL true) }
  let c := { c with media := some ((← c.media).IgnoreErrors ignoreErrors) }
  pure c

/-- `GTSCaches.initMention`. -/
def GTSCaches.initMention {E : Entity → Type} {P : Type} [∀ e, Inhabited (E e)]
    (cfg : Config) (ignoreErrors : P) (c : GTSCaches E P) : Option (GTSCaches E P) := do
  let c := { c with mention := some (ResultCache.New [
      { Name := "ID" }
    ] (fun (h : Objects (E Entity.mention)) m1 => do
      let (h, m2) := Objects.new h
      let h ← h.assign m2 m1
      pure (h, m2)) cfg.Mention.MaxSize) }
  let c := { c with mention := some ((← c.mention).SetTTL cfg.Mention.TTL true) }
  let c := { c with mention := some ((← c.mention).IgnoreErrors ignoreErrors) }
  pure c

/-- `GTSCaches.initNotification`. -/
def GTSCaches.initNotification {E : Entity → Type} {P : Type} [∀ e, Inhabited (E e)]
    (cfg : Config) (ignoreErrors : P) (c : GTSCaches E P) : Option (GTSCaches E P) := do
  let c := { c with notification := some (ResultCache.New [
      { Name := "ID" },
      { Name := "NotificationType.TargetAccountID.OriginAccountID.StatusID" }
    ] (fun (h : Objects (E Entity.notification)) n1 => do
      let (h, n2) := Objects.new h
      let h ← h.assign n2 n1
      pure (h, n2)) cfg.Notification.MaxSize) }
  let c := { c with notification := some ((← c.notification).SetTTL cfg.Notification.TTL true) }
  let c := { c with notification := some ((← c.notification).IgnoreErrors ignoreErrors) }
  pure c

/-- `GTSCaches.initReport`. -/
def GTSCaches.initReport {E : Entity → Type} {P : Type} [∀ e, Inhabited (E e)]
    (cfg : Config) (ignoreErrors : P) (c : GTSCaches E P) : Option (GTSCaches E P) := do
  let c := { c with report := some (ResultCache.New [
      { Name := "ID" }
    ] (fun (h : Objects (E Entity.report)) r1 => do
      let (h, r2) := Objects.new h
      let h ← h.assign r2 r1
      pure (h, r2)) cfg.Report.MaxSize) }
  let c := { c with report := some ((← c.report).SetTTL cfg.Report.TTL true) }
  let c := { c with report := some ((← c.report).IgnoreErrors ignoreErrors) }
  pure c

/-- `GTSCaches.initStatus`. -/
def GTSCaches.initStatus {E : Entity → Type} {P : Type} [∀ e, Inhabited (E e)]
    (cfg : Config) (ignoreErrors : P) (c : GTSCaches E P) : Option (GTSCaches E P) := do
  let c := { c with status := some (ResultCache.New [
      { Name := "ID" },
      { Name := "URI" },
      { Name := "URL" }
    ] (fun (h : Objects (E Entity.status)) s1 => do
      let (h, s2) := Objects.new h
      let h ← h.assign s2 s1
      pure (h, s2)) cfg.Status.MaxSize) }
  let c := { c with status := some ((← c.status).SetTTL cfg.Status.TTL true) }
  let c := { c with status := some ((← c.status).IgnoreErrors ignoreErrors) }
  pure c

/-- `GTSCaches.initStatusFave`. -/
def GTSCaches.initStatusFave {E : Entity → Type} {P : Type} [∀ e, Inhabited (E e)]
    (cfg : Config) (ignoreErrors : P) (c : GTSCaches E P) : Option (GTSCaches E P) := do
  let c := { c with statusFave := some (ResultCache.New [
      { Name := "ID" },
      { Name := "AccountID.StatusID" }
    ] (fun (h : Objects (E Entity.statusFave)) f1 => do
      let (h, f2) := Objects.new h
      let h ← h.assign f2 f1
      pure (h, f2)) cfg.StatusFave.MaxSize) }
  let c := { c with status := some ((← c.status).SetTTL cfg.StatusFave.TTL true) }
  let c := { c with status := some ((← c.status).IgnoreErrors ignoreErrors) }
  pure c

/-- `GTSCaches.initTag`. -/
def GTSCaches.initTag {E : Entity → Type} {P : Type} [∀ e, Inhabited (E e)]
    (cfg : Config) (ignoreErrors : P) (c : GTSCaches E P) : Option (GTSCaches E P) := do
  let c := { c with tag := some (ResultCache.New [
      { Name := "ID" },
      { Name := "Name" }
    ] (fun (h : Objects (E Entity.tag)) m1 => do
      let (h, m2) := Objects.new h
      let h ← h.assign m2 m1
      pure (h, m2)) cfg.Tag.MaxSize) }
  let c := { c with tag := some ((← c.tag).SetTTL cfg.Tag.TTL true) }
  let c := { c with tag := some ((← c.tag).IgnoreErrors ignoreErrors) }
  pure c

/-- `GTSCaches.initTombstone`. -/
def GTSCaches.initTombstone {E : Entity → Type} {P : Type} [∀ e, Inhabited (E e)]
    (cfg : Config) (ignoreErrors : P) (c : GTSCaches E P) : Option (GTSCaches E P) := do
  let c := { c with tombstone := some (ResultCache.New [
      { Name := "ID" },
      { Name := "URI" }
    ] (fun (h : Objects (E Entity.tombstone)) t1 => do
      let (h, t2) := Objects.new h
      let h ← h.assign t2 t1
      pure (h, t2)) cfg.Tombstone.MaxSize) }
  let c := { c with tombstone := some ((← c.tombstone).SetTTL cfg.Tombstone.TTL true) }
  let c := { c with tombstone := some ((← c.tombstone).IgnoreErrors ignoreErrors) }
  pure c

/-- `GTSCaches.initUser`. -/
def GTSCaches.initUser {E : Entity → Type} {P : Type} [∀ e, Inhabited (E e)]
    (cfg : Config) (ignoreErrors : P) (c : GTSCaches E P) : Option (GTSCaches E P) := do
  let c := { c with user := some (ResultCache.New [
      { Name := "ID" },
      { Name := "AccountID" },
      { Name := "Email" },
      { Name := "ConfirmationToken" },
      { Name := "ExternalID" }
    ] (fun (h : Objects (E Entity.user)) u1 => do
      let (h, u2) := Objects.new h
      let h ← h.assign u2 u1
      pure (h, u2)) cfg.User.MaxSize) }
  let c := { c with user := some ((← c.user).SetTTL cfg.User.TTL true) }
  let c := { c with user := some ((← c.user).IgnoreErrors ignoreErrors) }
  pure c

/-- `GTSCaches.initBlockIDs`. -/
def GTSCaches.initBlockIDs {E : Entity → Type} {P : Type}
    (cfg : Config) (c : GTSCaches E P) : Option (GTSCaches E P) :=
  pure { c with blockIDs := some { Cache := TTLCache.New 0 cfg.BlockIDs.MaxSize cfg.BlockIDs.TTL } }

/-- `GTSCaches.initFollowIDs`. -/
def GTSCaches.initFollowIDs {E : Entity → Type} {P : Type}
    (cfg : Config) (c : GTSCaches E P) : Option (GTSCaches E P) :=
  pure { c with followIDs := some { Cache := TTLCache.New 0 cfg.FollowIDs.MaxSize cfg.FollowIDs.TTL } }

/-- `GTSCaches.initFollowRequestIDs`. -/
def GTSCaches.initFollowRequestIDs {E : Entity → Type} {P : Type}
    (cfg : Config) (c : GTSCaches E P) : Option (GTSCaches E P) :=
  pure { c with followRequestIDs := some { Cache := TTLCache.New 0 cfg.FollowRequestIDs.MaxSize cfg.FollowRequestIDs.TTL } }

/-- `GTSCaches.initDomainBlock`. -/
def GTSCaches.initDomainBlock {E : Entity → Type} {P : Type}
    (c : GTSCaches E P) : Option (GTSCaches E P) :=
  pure { c with domainBlock := some BlockCache.mk }

/-- `GTSCaches.initWebfinger`. -/
def GTSCaches.initWebfinger {E : Entity → Type} {P : Type}
    (cfg : Config) (c : GTSCaches E P) : Option (GTSCaches E P) :=
  pure { c with webfinger := some (TTLCache.New 0 cfg.Webfinger.MaxSize cfg.Webfinger.TTL) }

/-- `GTSCaches.Init`: runs every initializer in the order of the source;
`none` is a nil-pointer panic. -/
def GTSCaches.Init {E : Entity → Type} {P : Type} [∀ e, Inhabited (E e)]
    (cfg : Config) (ignoreErrors : P) (c : GTSCaches E P) : Option (GTSCaches E P) :=
  (some c)
    |>.bind (GTSCaches.initAccount cfg ignoreErrors)
    |>.bind (GTSCaches.initAccountNote cfg ignoreErrors)
    |>.bind (GTSCaches.initBlock cfg ignoreErrors)
    |>.bind (GTSCaches.initBlockIDs cfg)
    |>.bind GTSCaches.initDomainBlock
    |>.bind (GTSCaches.initEmoji cfg ignoreErrors)
    |>.bind (GTSCaches.initEmojiCategory cfg ignoreErrors)
    |>.bind (GTSCaches.initFollow cfg)
    |>.bind (GTSCaches.initFollowIDs cfg)
    |>.bind (GTSCaches.initFollowRequest cfg)
    |>.bind (GTSCaches.initFollowRequestIDs cfg)
    |>.bind (GTSCaches.initInstance cfg ignoreErrors)
    |>.bind (GTSCaches.initList cfg ignoreErrors)
    |>.bind (GTSCaches.initListEntry cfg ignoreErrors)
    |>.bind (GTSCaches.initMarker cfg ignoreErrors)
    |>.bind (GTSCaches.initMedia cfg ignoreErrors)
    |>.bind (GTSCaches.initMention cfg ignoreErrors)
    |>.bind (GTSCaches.initNotification cfg ignoreErrors)
    |>.bind (GTSCaches.initReport cfg ignoreErrors)
    |>.bind (GTSCaches.initStatus cfg ignoreErrors)
    |>.bind (GTSCaches.initStatusFave cfg ignoreErrors)
    |>.bind (GTSCaches.initTag cfg ignoreErrors)
    |>.bind (GTSCaches.initTombstone cfg ignoreErrors)
    |>.bind (GTSCaches.initUser cfg ignoreErrors)
    |>.bind (GTSCaches.initWebfinger cfg)

/-- The result cache held for an entity type. -/
def GTSCaches.resultCache {E : Entity → Type} {P : Type} (c : GTSCaches E P) :
    (e : Entity) → Option (ResultCache (E e) P)
  | Entity.account => c.account
  | Entity.accountNote => c.accountNote
  | Entity.block => c.block
  | Entity.emoji => c.emoji
  | Entity.emojiCategory => c.emojiCategory
  | Entity.follow => c.follow
  | Entity.followRequest => c.followRequest
  | Entity.instance_ => c.instance_
  | Entity.list => c.list
  | Entity.listEntry => c.listEntry
  | Entity.marker => c.marker
  | Entity.media => c.media
  | Entity.mention => c.mention
  | Entity.notification => c.notification
  | Entity.report => c.report
  | Entity.status => c.status
  | Entity.statusFave => c.statusFave
  | Entity.tag => c.tag
  | Entity.tombstone => c.tombstone
  | Entity.user => c.user

/-- The TTL getter belonging to an entity type. -/
def Config.ttlOf (cfg : Config) : Entity → Int
  | Entity.account => cfg.Account.TTL
  | Entity.accountNote => cfg.AccountNote.TTL
  | Entity.block => cfg.Block.TTL
  | Entity.emoji => cfg.Emoji.TTL
  | Entity.emojiCategory => cfg.EmojiCategory.TTL
  | Entity.follow => cfg.Follow.TTL
  | Entity.followRequest => cfg.FollowRequest.TTL
  | Entity.instance_ => cfg.Instance.TTL
  | Entity.list => cfg.List.TTL
  | Entity.listEntry => cfg.ListEntry.TTL
  | Entity.marker => cfg.Marker.TTL
  | Entity.media => cfg.Media.TTL
  | Entity.mention => cfg.Mention.TTL
  | Entity.notification => cfg.Notification.TTL
  | Entity.report => cfg.Report.TTL
  | Entity.status => cfg.Status.TTL
  | Entity.statusFave => cfg.StatusFave.TTL
  | Entity.tag => cfg.Tag.TTL
  | Entity.tombstone => cfg.Tombstone.TTL
  | Entity.user => cfg.User.TTL

/-- The entity types of package gtsmodel: `AccountNote` as in the source, the
structs that are not under src/ as a parameter. -/
def gtsmodel (X : Type) : Entity → Type
  | Entity.accountNote => AccountNote
  | _ => X

instance {X : Type} [Inhabited X] (e : Entity) : Inhabited (gtsmodel X e) := by
  cases e <;> first | exact (inferInstance : Inhabited AccountNote) | exact (inferInstance : Inhabited X)

/-- A configuration giving every cache its own TTL. -/
def exConfig : Config :=
  { Account := ⟨100, 1, 10⟩, AccountNote := ⟨100, 2, 10⟩, Block := ⟨100, 3, 10⟩,
    BlockIDs := ⟨100, 4, 10⟩, Emoji := ⟨100, 5, 10⟩, EmojiCategory := ⟨100, 6, 10⟩,
    Follow := ⟨100, 7, 10⟩, FollowIDs := ⟨100, 8, 10⟩, FollowRequest := ⟨100, 9, 10⟩,
    FollowRequestIDs := ⟨100, 10, 10⟩, Instance := ⟨100, 11, 10⟩, List := ⟨100, 12, 10⟩,
    ListEntry := ⟨100, 13, 10⟩, Marker := ⟨100, 14, 10⟩, Media := ⟨100, 15, 10⟩,
    Mention := ⟨100, 16, 10⟩, Notification := ⟨100, 17, 10⟩, Report := ⟨100, 18, 10⟩,
    Status := ⟨100, 19, 10⟩, StatusFave := ⟨100, 20, 10⟩, Tag := ⟨100, 21, 10⟩,
    Tombstone := ⟨100, 22, 10⟩, User := ⟨100, 23, 10⟩, Webfinger := ⟨100, 24, 10⟩ }

/-- A note whose `Account` and `TargetAccount` pointers are set. -/
def exNote : AccountNote :=
  { ID := "01N", CreatedAt := 5, UpdatedAt := 6, AccountID := "01A", Account := some 3,
    TargetAccountID := "01B", TargetAccount := some 4, Comment := "hello" }


/-! ## GTSCaches: Start, Stop and the accessors -/

/-- Modelled from the spec: `Cache.Start(freq)` of the vendored result cache:
"background sweeping toggled by Start/Stop"; it reports false on "starting
an already-started sweep loop". -/
def ResultCache.Start {T P : Type} (c : ResultCache T P) (freq : Int) :
    ResultCache T P × Bool :=
  match c.sweeping with
  | some _ => (c, false)
  | none => ({ c with sweeping := some freq }, true)

/-- Modelled from the spec: `Cache.Stop()` of the vendored result cache; it
reports false on "stopping one not started". -/
def ResultCache.Stop {T P : Type} (c : ResultCache T P) : ResultCache T P × Bool :=
  match c.sweeping with
  | some _ => ({ c with sweeping := none }, true)
  | none => (c, false)

/-- Modelled from the spec: `ttl.Cache.Start(freq)`, as `ResultCache.Start`. -/
def TTLCache.Start {V : Type} (c : TTLCache V) (freq : Int) : TTLCache V × Bool :=
  match c.sweeping with
  | some _ => (c, false)
  | none => ({ c with sweeping := some freq }, true)

/-- Modelled from the spec: `ttl.Cache.Stop()`, as `ResultCache.Stop`. -/
def TTLCache.Stop {V : Type} (c : TTLCache V) : TTLCache V × Bool :=
  match c.sweeping with
  | some _ => ({ c with sweeping := none }, true)
  | none => (c, false)

/-- The promoted `Start` of the `*ttl.Cache` embedded in a `SliceCache`. -/
def SliceCache.Start {T : Type} (c : SliceCache T) (freq : Int) : SliceCache T × Bool :=
  ({ c with Cache := (c.Cache.Start freq).1 }, (c.Cache.Start freq).2)

/-- The promoted `Stop` of the `*ttl.Cache` embedded in a `SliceCache`. -/
def SliceCache.Stop {T : Type} (c : SliceCache T) : SliceCache T × Bool :=
  ({ c with Cache := c.Cache.Stop.1 }, c.Cache.Stop.2)

/-- A method call through a pointer that reports success: a nil receiver
panics (`none`). -/
def viaPtr {α : Type} (f : α → α × Bool) (p : Option α) : Option (Option α × Bool) :=
  p.map (fun a => (some (f a).1, (f a).2))

/-- Modelled from the spec: `tryUntil(msg, count, do)` of package cache (not
under src/): `do` is attempted up to `count` times and the first success
returns; a start or stop that keeps failing "must fail fatally (not
silently)", here the panic `none`. -/
def tryUntil {σ : Type} (msg : String) (count : Nat) (f : σ → Option (σ × Bool)) (s : σ) :
    Option σ :=
  match count with
  | 0 => none
  | n + 1 =>
    match f s with
    | none => none
    | some (s1, true) => some s1
    | some (s1, false) => tryUntil msg n f s1

/-- Modelled from the spec: `tryStart(cache, sweep)` of package cache (not
under src/): "begins the sweep loop for every cache whose configured
frequency is non-zero", failing fatally "if any individual cache's start
fails". The guard is the `sweep > 0` that `Start` spells out inline for the
slice caches, the retry count the 5 used there. -/
def tryStart {T P : Type} (cache : Option (ResultCache T P)) (sweep : Int) :
    Option (Option (ResultCache T P)) :=
  if sweep > 0 then
    tryUntil "starting cache" 5 (viaPtr (fun rc => rc.Start sweep)) cache
  else
    some cache

/-- Modelled from the spec: `tryStop(cache, sweep)` of package cache (not
under src/): "stops every sweep loop" that the sweep frequency it is given
says was started, with the guard and retry count of `tryStart`. -/
def tryStop {T P : Type} (cache : Option (ResultCache T P)) (sweep : Int) :
    Option (Option (ResultCache T P)) :=
  if sweep > 0 then
    tryUntil "stopping cache" 5 (viaPtr (fun rc => rc.Stop)) cache
  else
    some cache

/-- `GTSCaches.Start`: every line of the source in its order; `none` is a
panic. -/
def GTSCaches.Start {E : Entity → Type} {P : Type}
    (cfg : Config) (c : GTSCaches E P) : Option (GTSCaches E P) :=
  (some c)
    |>.bind (fun (c : GTSCaches E P) =>
      (tryStart c.account cfg.Account.SweepFreq).map (fun x => { c with account := x }))
    |>.bind (fun (c : GTSCaches E P) =>
      (tryStart c.accountNote cfg.AccountNote.SweepFreq).map (fun x => { c with accountNote := x }))
    |>.bind (fun (c : GTSCaches E P) =>
      (tryStart c.block cfg.Block.SweepFreq).map (fun x => { c with block := x }))
    |>.bind (fun (c : GTSCaches E P) =>
      (tryUntil "starting block IDs cache" 5 (fun (p : Option (SliceCache String)) =>
        if cfg.BlockIDs.SweepFreq > 0 then viaPtr (fun x => x.Start cfg.BlockIDs.SweepFreq) p
        else some (p, true)) c.blockIDs).map (fun x => { c with blockIDs := x }))
    |>.bind (fun (c : GTSCaches E P) =>
      (tryStart c.emoji cfg.Emoji.SweepFreq).map (fun x => { c with emoji := x }))
    |>.bind (fun (c : GTSCaches E P) =>
      (tryStart c.emojiCategory cfg.EmojiCategory.SweepFreq).map (fun x => { c with emojiCategory := x }))
    |>.bind (fun (c : GTSCaches E P) =>
      (tryStart c.follow cfg.Follow.SweepFreq).map (fun x => { c with follow := x }))
    |>.bind (fun (c : GTSCaches E P) =>
      (tryUntil "starting follow IDs cache" 5 (fun (p : Option (SliceCache String)) =>
        if cfg.FollowIDs.SweepFreq > 0 then viaPtr (fun x => x.Start cfg.FollowIDs.SweepFreq) p
        else some (p, true)) c.followIDs).map (fun x => { c with followIDs := x }))
    |>.bind (fun (c : GTSCaches E P) =>
      (tryStart c.followRequest cfg.FollowRequest.SweepFreq).map (fun x => { c with followRequest := x }))
    |>.bind (fun (c : GTSCaches E P) =>
      (tryUntil "starting follow request IDs cache" 5 (fun (p : Option (SliceCache String)) =>
        if cfg.FollowRequestIDs.SweepFreq > 0 then viaPtr (fun x => x.Start cfg.FollowRequestIDs.SweepFreq) p
        else some (p, true)) c.followRequestIDs).map (fun x => { c with followRequestIDs := x }))
    |>.bind (fun (c : GTSCaches E P) =>
      (tryStart c.instance_ cfg.Instance.SweepFreq).map (fun x => { c with instance_ := x }))
    |>.bind (fun (c : GTSCaches E P) =>
      (tryStart c.list cfg.List.SweepFreq).map (fun x => { c with list := x }))
    |>.bind (fun (c : GTSCaches E P) =>
      (tryStart c.listEntry cfg.ListEntry.SweepFreq).map (fun x => { c with listEntry := x }))
    |>.bind (fun (c : GTSCaches E P) =>
      (tryStart c.marker cfg.Marker.SweepFreq).map (fun x => { c with marker := x }))
    |>.bind (fun (c : GTSCaches E P) =>
      (tryStart c.media cfg.Media.SweepFreq).map (fun x => { c with media := x }))
    |>.bind (fun (c : GTSCaches E P) =>
      (tryStart c.mention cfg.Mention.SweepFreq).map (fun x => { c with mention := x }))
    |>.bind (fun (c : GTSCaches E P) =>
      (tryStart c.notification cfg.Notification.SweepFreq).map (fun x => { c with notification := x }))
    |>.bind (fun (c : GTSCaches E P) =>
      (tryStart c.report cfg.Report.SweepFreq).map (fun x => { c with report := x }))
    |>.bind (fun (c : GTSCaches E P) =>
      (tryStart c.status cfg.Status.SweepFreq).map (fun x => { c with status := x }))
    |>.bind (fun (c : GTSCaches E P) =>
      (tryStart c.statusFave cfg.StatusFave.SweepFreq).map (fun x => { c with statusFave := x }))
    |>.bind (fun (c : GTSCaches E P) =>
      (tryStart c.tag cfg.Tag.SweepFreq).map (fun x => { c with tag := x }))
    |>.bind (fun (c : GTSCaches E P) =>
      (tryStart c.tombstone cfg.Tombstone.SweepFreq).map (fun x => { c with tombstone := x }))
    |>.bind (fun (c : GTSCaches E P) =>
      (tryStart c.user cfg.User.SweepFreq).map (fun x => { c with user := x }))
    |>.bind (fun (c : GTSCaches E P) =>
      (tryUntil "starting *gtsmodel.Webfinger cache" 5 (fun (p : Option (TTLCache String)) =>
        if cfg.Webfinger.SweepFreq > 0 then viaPtr (fun x => x.Start cfg.Webfinger.SweepFreq) p
        else some (p, true)) c.webfinger).map (fun x => { c with webfinger := x }))

/-- `GTSCaches.Stop`: every line of the source in its order; `none` is a
panic. -/
def GTSCaches.Stop {E : Entity → Type} {P : Type}
    (cfg : Config) (c : GTSCaches E P) : Option (GTSCaches E P) :=
  (some c)
    |>.bind (fun (c : GTSCaches E P) =>
      (tryStop c.account cfg.Account.SweepFreq).map (fun x => { c with account := x }))
    |>.bind (fun (c : GTSCaches E P) =>
      (tryStop c.accountNote cfg.AccountNote.SweepFreq).map (fun x => { c with accountNote := x }))
    |>.bind (fun (c : GTSCaches E P) =>
      (tryStop c.block cfg.Block.SweepFreq).map (fun x => { c with block := x }))
    |>.bind (fun (c : GTSCaches E P) =>
      (tryUntil "stopping block IDs cache" 5 (fun (p : Option (SliceCache String)) =>
        if cfg.BlockIDs.SweepFreq > 0 then viaPtr (fun x => x.Stop) p
        else some (p, true)) c.blockIDs).map (fun x => { c with blockIDs := x }))
    |>.bind (fun (c : GTSCaches E P) =>
      (tryStop c.emoji cfg.Emoji.SweepFreq).map (fun x => { c with emoji := x }))
    |>.bind (fun (c : GTSCaches E P) =>
      (tryStop c.emojiCategory cfg.EmojiCategory.SweepFreq).map (fun x => { c with emojiCategory := x }))
    |>.bind (fun (c : GTSCaches E P) =>
      (tryStop c.follow cfg.Follow.SweepFreq).map (fun x => { c with follow := x }))
    |>.bind (fun (c : GTSCaches E P) =>
      (tryUntil "stopping follow IDs cache" 5 (fun (p : Option (SliceCache String)) =>
        if cfg.FollowIDs.SweepFreq > 0 then viaPtr (fun x => x.Stop) p
        else some (p, true)) c.followIDs).map (fun x => { c with followIDs := x }))
    |>.bind (fun (c : GTSCaches E P) =>
      (tryStop c.followRequest cfg.FollowRequest.SweepFreq).map (fun x => { c with followRequest := x }))
    |>.bind (fun (c : GTSCaches E P) =>
      (tryUntil "stopping follow request IDs cache" 5 (fun (p : Option (SliceCache String)) =>
        if cfg.FollowRequestIDs.SweepFreq > 0 then viaPtr (fun x => x.Stop) p
        else some (p, true)) c.followRequestIDs).map (fun x => { c with followRequestIDs := x }))
    |>.bind (fun (c : GTSCaches E P) =>
      (tryStop c.instance_ cfg.Instance.SweepFreq).map (fun x => { c with instance_ := x }))
    |>.bind (fun (c : GTSCaches E P) =>
      (tryStop c.list cfg.List.SweepFreq).map (fun x => { c with list := x }))
    |>.bind (fun (c : GTSCaches E P) =>
      (tryStop c.listEntry cfg.ListEntry.SweepFreq).map (fun x => { c with listEntry := x }))
    |>.bind (fun (c : GTSCaches E P) =>
      (tryStop c.marker cfg.Marker.SweepFreq).map (fun x => { c with marker := x }))
    |>.bind (fun (c : GTSCaches E P) =>
      (tryStop c.media cfg.Media.SweepFreq).map (fun x => { c with media := x }))
    |>.bind (fun (c : GTSCaches E P) =>
      (tryStop c.mention cfg.Notification.SweepFreq).map (fun x => { c with mention := x }))
    |>.bind (fun (c : GTSCaches E P) =>
      (tryStop c.notification cfg.Notification.SweepFreq).map (fun x => { c with notification := x }))
    |>.bind (fun (c : GTSCaches E P) =>
      (tryStop c.report cfg.Report.SweepFreq).map (fun x => { c with report := x }))
    |>.bind (fun (c : GTSCaches E P) =>
      (tryStop c.status cfg.Status.SweepFreq).map (fun x => { c with status := x }))
    |>.bind (fun (c : GTSCaches E P) =>
      (tryStop c.statusFave cfg.StatusFave.SweepFreq).map (fun x => { c with statusFave := x }))
    |>.bind (fun (c : GTSCaches E P) =>
      (tryStop c.tag cfg.Tag.SweepFreq).map (fun x => { c with tag := x }))
    |>.bind (fun (c : GTSCaches E P) =>
      (tryStop c.tombstone cfg.Tombstone.SweepFreq).map (fun x => { c with tombstone := x }))
    |>.bind (fun (c : GTSCaches E P) =>
      (tryStop c.user cfg.User.SweepFreq).map (fun x => { c with user := x }))
    |>.bind (fun (c : GTSCaches E P) =>
      (tryUntil "stopping *gtsmodel.Webfinger cache" 5 (fun (p : Option (TTLCache String)) =>
        if cfg.Webfinger.SweepFreq > 0 then viaPtr (fun x => x.Stop) p
        else some (p, true)) c.webfinger).map (fun x => { c with webfinger := x }))

/-- `GTSCaches.Account`. -/
def GTSCaches.Account {E : Entity → Type} {P : Type} (c : GTSCaches E P) :
    Option (ResultCache (E Entity.account) P) :=
  c.account

/-- `GTSCaches.AccountNote`. -/
def GTSCaches.AccountNote {E : Entity → Type} {P : Type} (c : GTSCaches E P) :
    Option (ResultCache (E Entity.accountNote) P) :=
  c.accountNote

/-- `GTSCaches.Block`. -/
def GTSCaches.Block {E : Entity → Type} {P : Type} (c : GTSCaches E P) :
    Option (ResultCache (E Entity.block) P) :=
  c.block

/-- `GTSCaches.BlockIDs`. -/
def GTSCaches.BlockIDs {E : Entity → Type} {P : Type} (c : GTSCaches E P) :
    Option (SliceCache String) :=
  c.blockIDs

/-- `GTSCaches.DomainBlock`. -/
def GTSCaches.DomainBlock {E : Entity → Type} {P : Type} (c : GTSCaches E P) :
    Option BlockCache :=
  c.domainBlock

/-- `GTSCaches.Emoji`. -/
def GTSCaches.Emoji {E : Entity → Type} {P : Type} (c : GTSCaches E P) :
    Option (ResultCache (E Entity.emoji) P) :=
  c.emoji

/-- `GTSCaches.EmojiCategory`. -/
def GTSCaches.EmojiCategory {E : Entity → Type} {P : Type} (c : GTSCaches E P) :
    Option (ResultCache (E Entity.emojiCategory) P) :=
  c.emojiCategory

/-- `GTSCaches.Follow`. -/
def GTSCaches.Follow {E : Entity → Type} {P : Type} (c : GTSCaches E P) :
    Option (ResultCache (E Entity.follow) P) :=
  c.follow

/-- `GTSCaches.FollowIDs`. -/
def GTSCaches.FollowIDs {E : Entity → Type} {P : Type} (c : GTSCaches E P) :
    Option (SliceCache String) :=
  c.followIDs

/-- `GTSCaches.FollowRequest`. -/
def GTSCaches.FollowRequest {E : Entity → Type} {P : Type} (c : GTSCaches E P) :
    Option (ResultCache (E Entity.followRequest) P) :=
  c.followRequest

/-- `GTSCaches.FollowRequestIDs`. -/
def GTSCaches.FollowRequestIDs {E : Entity → Type} {P : Type} (c : GTSCaches E P) :
    Option (SliceCache String) :=
  c.followRequestIDs

/-- `GTSCaches.Instance`. -/
def GTSCaches.Instance {E : Entity → Type} {P : Type} (c : GTSCaches E P) :
    Option (ResultCache (E Entity.instance_) P) :=
  c.instance_

/-- `GTSCaches.List`. -/
def GTSCaches.List {E : Entity → Type} {P : Type} (c : GTSCaches E P) :
    Option (ResultCache (E Entity.list) P) :=
  c.list

/-- `GTSCaches.ListEntry`. -/
def GTSCaches.ListEntry {E : Entity → Type} {P : Type} (c : GTSCaches E P) :
    Option (ResultCache (E Entity.listEntry) P) :=
  c.listEntry

/-- `GTSCaches.Marker`. -/
def GTSCaches.Marker {E : Entity → Type} {P : Type} (c : GTSCaches E P) :
    Option (ResultCache (E Entity.marker) P) :=
  c.marker

/-- `GTSCaches.Media`. -/
def GTSCaches.Media {E : Entity → Type} {P : Type} (c : GTSCaches E P) :
    Option (ResultCache (E Entity.media) P) :=
  c.media

/-- `GTSCaches.Mention`. -/
def GTSCaches.Mention {E : Entity → Type} {P : Type} (c : GTSCaches E P) :
    Option (ResultCache (E Entity.mention) P) :=
  c.mention

/-- `GTSCaches.Notification`. -/
def GTSCaches.Notification {E : Entity → Type} {P : Type} (c : GTSCaches E P) :
    Option (ResultCache (E Entity.notification) P) :=
  c.notification

/-- `GTSCaches.Report`. -/
def GTSCaches.Report {E : Entity → Type} {P : Type} (c : GTSCaches E P) :
    Option (ResultCache (E Entity.report) P) :=
  c.report

/-- `GTSCaches.Status`. -/
def GTSCaches.Status {E : Entity → Type} {P : Type} (c : GTSCaches E P) :
    Option (ResultCache (E Entity.status) P) :=
  c.status

/-- `GTSCaches.StatusFave`. -/
def GTSCaches.StatusFave {E : Entity → Type} {P : Type} (c : GTSCaches E P) :
    Option (ResultCache (E Entity.statusFave) P) :=
  c.statusFave

/-- `GTSCaches.Tag`. -/
def GTSCaches.Tag {E : Entity → Type} {P : Type} (c : GTSCaches E P) :
    Option (ResultCache (E Entity.tag) P) :=
  c.tag

/-- `GTSCaches.Tombstone`. -/
def GTSCaches.Tombstone {E : Entity → Type} {P : Type} (c : GTSCaches E P) :
    Option (ResultCache (E Entity.tombstone) P) :=
  c.tombstone

/-- `GTSCaches.User`. -/
def GTSCaches.User {E : Entity → Type} {P : Type} (c : GTSCaches E P) :
    Option (ResultCache (E Entity.user) P) :=
  c.user

/-- `GTSCaches.Webfinger`. -/
def GTSCaches.Webfinger {E : Entity → Type} {P : Type} (c : GTSCaches E P) :
    Option (TTLCache String) :=
  c.webfinger

/-- The sweep frequency getter belonging to an entity type. -/
def Config.sweepOf (cfg : Config) : Entity → Int
  | Entity.account => cfg.Account.SweepFreq
  | Entity.accountNote => cfg.AccountNote.SweepFreq
  | Entity.block => cfg.Block.SweepFreq
  | Entity.emoji => cfg.Emoji.SweepFreq
  | Entity.emojiCategory => cfg.EmojiCategory.SweepFreq
  | Entity.follow => cfg.Follow.SweepFreq
  | Entity.followRequest => cfg.FollowRequest.SweepFreq
  | Entity.instance_ => cfg.Instance.SweepFreq
  | Entity.list => cfg.List.SweepFreq
  | Entity.listEntry => cfg.ListEntry.SweepFreq
  | Entity.marker => cfg.Marker.SweepFreq
  | Entity.media => cfg.Media.SweepFreq
  | Entity.mention => cfg.Mention.SweepFreq
  | Entity.notification => cfg.Notification.SweepFreq
  | Entity.report => cfg.Report.SweepFreq
  | Entity.status => cfg.Status.SweepFreq
  | Entity.statusFave => cfg.StatusFave.SweepFreq
  | Entity.tag => cfg.Tag.SweepFreq
  | Entity.tombstone => cfg.Tombstone.SweepFreq
  | Entity.user => cfg.User.SweepFreq

/-- The cache `tryStart` leaves behind when given a cache whose sweep loop is
not running: sweeping at `sweep` when `sweep > 0`, untouched otherwise. -/
def ResultCache.startedIf {T P : Type} (rc : ResultCache T P) (sweep : Int) : ResultCache T P :=
  if sweep > 0 then { rc with sweeping := some sweep } else rc

/-- The `ttl.Cache` left behind by a guarded start, as `ResultCache.startedIf`. -/
def TTLCache.startedIf {V : Type} (c : TTLCache V) (sweep : Int) : TTLCache V :=
  if sweep > 0 then { c with sweeping := some sweep } else c

/-- As `exConfig`, with notification sweeping disabled. -/
def exConfigMention : Config := { exConfig with Notification := ⟨100, 17, 0⟩ }

/-- As `exConfig`, with mention sweeping disabled. -/
def exConfigNotification : Config := { exConfig with Mention := ⟨100, 16, 0⟩ }

/-- As `exConfig`, with a negative sweep frequency for the block IDs cache. -/
def exConfigNegative : Config := { exConfig with BlockIDs := ⟨100, 4, -1⟩ }

/-- `Init`, `Start` and `Stop` in sequence on a zero-valued `GTSCaches`. -/
def startStop (cfg : Config) : Option (GTSCaches (gtsmodel Unit) Unit) :=
  ((GTSCaches.Init cfg () ({} : GTSCaches (gtsmodel Unit) Unit)).bind
    (GTSCaches.Start cfg)).bind (GTSCaches.Stop cfg)

/-! ## Keyset pagination of the accounts in a list -/

/-- A cursor link of the `Link` response header. -/
structure CursorLink where
  rel : String
  path : String
  limit : Nat
  cursor : String
  id : String
  deriving DecidableEq, Repr

/-- Modelled from the spec: the page of the keyset pagination protocol (the
handler `ListAccountsGETHandler` is not under src/, only its test is).
"`limit == 0` means unpaginated: return the entire list"; "otherwise, the
list is first bounded by `max_id` (exclude everything not strictly older than
`max_id`, when given), `since_id`/`min_id` (exclude everything not strictly
newer than the given ID), then truncated to at most `limit` items". IDs are
sortable strings compared character by character, an older ID being the
smaller one; the empty string is a parameter that is not given. -/
def paginate (ids : List String) (maxID sinceID minID : String) (limit : Nat) : List String :=
  if limit = 0 then ids
  else
    ((ids.filter (fun id => decide (maxID = "" ∨ id.toList < maxID.toList))).filter
      (fun id => decide ((sinceID = "" ∨ sinceID.toList < id.toList) ∧
        (minID = "" ∨ minID.toList < id.toList)))).take limit

/-- Modelled from the spec: the cursor links of a page. "Emit a next link
whose `max_id` equals the oldest ID in the page … and a prev link whose
`min_id` equals the newest ID in the page, both preserving the other query
parameters (notably `limit`)"; "no cursor links are emitted when the result
list is empty or the page is not artificially bounded (unpaginated case)".
As in pagination scenario A and in `TestGetListAccountsPaginatedDefaultLimit`,
a page shorter than the limit has both links. -/
def cursorLinks (path : String) (limit : Nat) (page : List String) : List CursorLink :=
  if limit = 0 then []
  else
    match page.head?, page.getLast? with
    | some newest, some oldest =>
      [⟨"next", path, limit, "max_id", oldest⟩, ⟨"prev", path, limit, "min_id", newest⟩]
    | _, _ => []

/-- Modelled from the spec: one link of the header, "a full URL reproducing
the endpoint path and all query parameters with the cursor field replaced",
in the form the tests expect. -/
def CursorLink.render (l : CursorLink) : String :=
  "<" ++ l.path ++ "?limit=" ++ toString l.limit ++ "&" ++ l.cursor ++ "=" ++ l.id
    ++ ">; rel=\"" ++ l.rel ++ "\""

/-- The response of the list accounts endpoint: the IDs of the page and the
`Link` header. -/
structure ListAccountsResponse where
  accounts : List String
  link : String
  deriving DecidableEq, Repr

/-- Modelled from the spec: the list accounts endpoint on the newest-first ID
list of a list's members: the page and "a link header listing zero, one, or
two cursor links". -/
def ListAccountsGET (path : String) (ids : List String) (maxID sinceID minID : String)
    (limit : Nat) : ListAccountsResponse :=
  { accounts := paginate ids maxID sinceID minID limit
    link := ", ".intercalate
      ((cursorLinks path limit (paginate ids maxID sinceID minID limit)).map CursorLink.render) }

/-- The endpoint path of the list used by the tests. -/
def testPath : String :=
  "http://localhost:8080/api/v1/lists/01H0G8E4Q2J3FE3JDWJVWEDCD1/accounts"

/-- The two members of that list, newest first. -/
def testIDs : List String :=
  ["01H0G8FFM1AGQDRNGBGGX8CYJQ", "01H0G89MWVQE0M58VD2HQYMQWH"]

/-! ## context.Context and go-pctx -/

/-- A Go dynamic type as far as `==` looks at it: its name and whether it is
comparable; slice, map and func types are not. -/
structure GoType where
  name : String
  comparable : Bool
  deriving DecidableEq, Repr

/-- A Go `any` value used as a context key: its dynamic type, its value, and
whether the value is a floating-point NaN (or contains one), which `==` never
finds equal to anything, itself included. -/
structure Key where
  typ : GoType
  val : String
  nan : Bool
  deriving DecidableEq, Repr

/-- A key of a comparable type that is not NaN, such as a string or a value
of a named string type. -/
def Key.of (typ val : String) : Key :=
  { typ := { name := typ, comparable := true }, val := val, nan := false }

/-- Go `a == b` on two interface values: false when the dynamic types differ,
the run-time panic `none` when the one dynamic type is not comparable, and
otherwise the comparison of the values, which fails on NaN. -/
def Key.eq (a b : Key) : Option Bool :=
  if a.typ = b.typ then
    if a.typ.comparable then some (decide (a.val = b.val) && !a.nan && !b.nan)
    else none
  else some false

mutual
/-- A Go `any` value as far as these packages inspect it: the nil interface,
a string, a `*PersistCtx` (its address together with the base context
embedded in it at allocation), or a value of some other type. -/
inductive Any where
  | nil : Any
  | str (s : String) : Any
  | persistCtx (addr : Nat) (base : Context) : Any
  | other (tag : Nat) : Any
/-- A `context.Context`: `context.Background()`, a `context.WithValue` layer,
or a `*PersistCtx` at `addr` whose embedded `Context` field is `base`. -/
inductive Context where
  | background : Context
  | withValue (parent : Context) (key : Key) (val : Any) : Context
  | persist (addr : Nat) (base : Context) : Context
end

/-- The `vs` field of every allocated `PersistCtx`, addressed by position. -/
abbrev PersistStore := List (List (Key × Any))

/-- `persistkey = ctxkey("ctx")`, of the package-private type `ctxkey`. -/
def persistkey : Key := Key.of "pctx.ctxkey" "ctx"

/-- A `*PersistCtx`: its address and its embedded base context. -/
structure PersistCtx where
  addr : Nat
  base : Context

/-- A `*PersistCtx` used as a `context.Context`. -/
def PersistCtx.toContext (p : PersistCtx) : Context :=
  Context.persist p.addr p.base

/-- The loop of `PersistCtx.Set` over `ctx.vs`, comparing `key == ctx.vs[i].k`:
the first pair whose key equals `key` gets the value. The outer `none` is the
panic of a comparison, `some none` the loop ending without such a pair. -/
def PersistCtx.setLoop (key : Key) (value : Any) :
    List (Key × Any) → Option (Option (List (Key × Any)))
  | [] => some none
  | (k, v) :: rest =>
    match key.eq k with
    | none => none
    | some true => some (some ((k, value) :: rest))
    | some false =>
      (PersistCtx.setLoop key value rest).map (fun r => r.map (fun l => (k, v) :: l))

/-- `PersistCtx.Set`: overwrite the value of an existing pair, else append a
new pair; `none` is the panic of a key comparison. -/
def PersistCtx.Set (st : PersistStore) (addr : Nat) (key : Key) (value : Any) :
    Option PersistStore :=
  match PersistCtx.setLoop key value (st.getD addr []) with
  | none => none
  | some (some vs) => some (st.set addr vs)
  | some none => some (st.set addr (st.getD addr [] ++ [(key, value)]))

/-- The loop of `PersistCtx.Value` over `ctx.vs`, comparing
`key == ctx.vs[i].k`: the value of the first pair whose key equals `key`. The
outer `none` is the panic of a comparison, `some none` no such pair. -/
def PersistCtx.valueLoop (key : Key) : List (Key × Any) → Option (Option Any)
  | [] => some none
  | (k, v) :: rest =>
    match key.eq k with
    | none => none
    | some true => some (some v)
    | some false => PersistCtx.valueLoop key rest

/-- `Value(key)` of a context: `nil` for the background context, the layer's
value (`c.key == key`) or the parent's for `context.WithValue`, and
`PersistCtx.Value` for a `*PersistCtx` (itself for `key == persistkey`, else
the persisted value, else the base context's); `none` is the panic of a key
comparison. -/
def Context.Value (st : PersistStore) : Context → Key → Option Any
  | Context.background, _ => some Any.nil
  | Context.withValue parent k v, key =>
    match k.eq key with
    | none => none
    | some true => some v
    | some false => parent.Value st key
  | Context.persist addr base, key =>
    match key.eq persistkey with
    | none => none
    | some true => some (Any.persistCtx addr base)
    | some false =>
      match PersistCtx.valueLoop key (st.getD addr []) with
      | none => none
      | some (some val) => some val
      | some none => base.Value st key

/-- `pctx.Get`: the existing `*PersistCtx` when `ctx.Value(persistkey)` is
one, else a newly allocated one wrapping `ctx`; a nil `ctx` stands for
`context.Background()`; `none` is a panic. -/
def pctx.Get (st : PersistStore) (ctx : Option Context) :
    Option (PersistStore × PersistCtx) :=
  let ctx := ctx.getD Context.background
  match ctx.Value st persistkey with
  | none => none
  | some (Any.persistCtx addr base) => some (st, ⟨addr, base⟩)
  | some _ => some (st ++ [[]], ⟨st.length, ctx⟩)

/-- `pctx.Persist`: stores the pair in the existing `*PersistCtx` and returns
`ctx`, or allocates one wrapping `ctx`, stores the pair in it and returns
it; `none` is a panic. -/
def pctx.Persist (st : PersistStore) (ctx : Option Context) (key : Key) (value : Any) :
    Option (PersistStore × Context) :=
  let ctx := ctx.getD Context.background
  match ctx.Value st persistkey with
  | none => none
  | some (Any.persistCtx addr _) =>
    (PersistCtx.Set st addr key value).map (fun st1 => (st1, ctx))
  | some _ =>
    (PersistCtx.Set (st ++ [[]]) st.length key value).map
      (fun st1 => (st1, Context.persist st.length ctx))

/-- The stack contains a `*PersistCtx`. -/
def Context.hasPersist : Context → Bool
  | Context.background => false
  | Context.withValue parent _ _ => parent.hasPersist
  | Context.persist _ _ => true

/-- A `context.WithValue` layer above the first `*PersistCtx` of the stack
holds a key that `==` finds equal to `key`. -/
def Context.shadows : Context → Key → Bool
  | Context.background, _ => false
  | Context.withValue parent k _, key =>
    parent.shadows key || (k.eq key == some true && parent.hasPersist)
  | Context.persist _ _, _ => false

/-- A context stack that Go code can build over a store: no
`context.WithValue` layer uses the package-private `persistkey`, and every
`*PersistCtx` on the stack is allocated. -/
def Context.WF (st : PersistStore) : Context → Prop
  | Context.background => True
  | Context.withValue parent k _ => k ≠ persistkey ∧ parent.WF st
  | Context.persist addr base => addr < st.length ∧ base.WF st

/-- A string key. -/
def exKey : Key := Key.of "string" "user"

/-- Another string key. -/
def exKey2 : Key := Key.of "string" "other"

/-- The key `math.NaN()`. -/
def nanKey : Key := { typ := { name := "float64", comparable := true }, val := "NaN", nan := true }

/-- The key `[]int{1}`, of a type that is not comparable. -/
def sliceKey : Key := { typ := { name := "[]int", comparable := false }, val := "[1]", nan := false }

/-- The key `[]int{2}`. -/
def sliceKey2 : Key := { typ := { name := "[]int", comparable := false }, val := "[2]", nan := false }

/-! ## net/http and gin -/

/-- An `http.Header`, a map from canonical header names to their values. -/
abbrev Header := List (String × List String)

/-- `http.Header.Get`: the first value under the canonical form of `key`, or
the empty string; `canon` is `textproto.CanonicalMIMEHeaderKey`. -/
def Header.Get (canon : String → String) (h : Header) (key : String) : String :=
  match h.lookup (canon key) with
  | some (v :: _) => v
  | _ => ""

/-- `http.Header.Del`. -/
def Header.Del (canon : String → String) (h : Header) (key : String) : Header :=
  h.filter (fun kv => kv.1 != canon key)

/-- `http.Header.Set`: the single value `value` under the canonical form of
`key`. -/
def Header.Set (canon : String → String) (h : Header) (key value : String) : Header :=
  (canon key, [value]) :: Header.Del canon h key

/-- An `*http.Request`: its header and its context (`none` is nil). -/
structure Request where
  Header : Header
  ctx : Option Context

/-- `Request.Context`: the request's context, the background context when
none is set. -/
def Request.Context (r : Request) : Context :=
  r.ctx.getD Context.background

/-- `Request.WithContext`: a shallow copy of the request with its context
replaced. -/
def Request.WithContext (r : Request) (ctx : GoToSocial.Context) : Request :=
  { r with ctx := some ctx }

/-- A `*gin.Context`: the request and the header of the response writer. -/
structure GinContext where
  Request : Request
  Writer : Header

/-- `gin.Context.GetHeader`: the value of the request header. -/
def GinContext.GetHeader (canon : String → String) (c : GinContext) (key : String) : String :=
  Header.Get canon c.Request.Header key

/-- `gin.Context.Header`: sets the response header, deleting it when the
value is empty. -/
def GinContext.Header (canon : String → String) (c : GinContext) (key value : String) :
    GinContext :=
  if value = "" then { c with Writer := Header.Del canon c.Writer key }
  else { c with Writer := Header.Set canon c.Writer key value }

/-! ## middleware -/

/-- `PersistContext`: replaces the request context with the `*PersistCtx`
that `pctx.Get` returns for it; the handlers run by `ctx.Next()` are not part
of the middleware; `none` is a panic. -/
def PersistContext (st : PersistStore) (ctx : GinContext) :
    Option (PersistStore × GinContext) :=
  let base := ctx.Request.Context
  (pctx.Get st (some base)).map (fun pCtx =>
    let r := ctx.Request.WithContext pCtx.2.toContext
    (pCtx.1, { ctx with Request := r }))

/-- `ridCtxKey`, the constant `"requestID"` of type `ridCtxType`. -/
def ridCtxKey : Key := Key.of "middleware.ridCtxType" "requestID"

/-- A `*rand.Rand`: the byte stream it produces and the read position. -/
structure Rand where
  stream : Nat → Nat
  pos : Nat

/-- `Rand.Read` into a 16-byte array. -/
def Rand.Read16 (r : Rand) : Rand × List Nat :=
  ({ r with pos := r.pos + 16 }, (List.range 16).map (fun i => r.stream (r.pos + i) % 256))

/-- The alphabet of `base64.RawURLEncoding`. -/
def base64URLAlphabet : List Char :=
  "ABCDEFGHIJKLMNOPQRSTUVWXYZabcdefghijklmnopqrstuvwxyz0123456789-_".toList

/-- One character of the URL alphabet. -/
def base64URLChar (n : Nat) : Char :=
  base64URLAlphabet.getD (n % 64) 'A'

/-- `base64.RawURLEncoding.EncodeToString` on bytes: three bytes give four
characters, a final group of one or two bytes gives two or three, without
padding. -/
def base64RawURLEncode : List Nat → List Char
  | [] => []
  | [a] => [base64URLChar (a / 4), base64URLChar (a % 4 * 16)]
  | [a, b] =>
    [base64URLChar (a / 4), base64URLChar (a % 4 * 16 + b / 16), base64URLChar (b % 16 * 4)]
  | a :: b :: c :: rest =>
    base64URLChar (a / 4) :: base64URLChar (a % 4 * 16 + b / 16) ::
      base64URLChar (b % 16 * 4 + c / 64) :: base64URLChar (c % 64) ::
      base64RawURLEncode rest

/-- `ridInitRandom`: the once-only seeding of `ridSrc`; `seeded` is the
generator `rand.New(rand.NewSource(rngSeed))` made from the crypto seed. -/
def ridInitRandom (seeded : Rand) (ridSrc : Option Rand) : Option Rand :=
  match ridSrc with
  | some r => some r
  | none => some seeded

/-- `ridGen`: 16 random bytes in raw URL base64. -/
def ridGen (seeded : Rand) (ridSrc : Option Rand) : Option Rand × String :=
  let src := (ridInitRandom seeded ridSrc).getD seeded
  let r := src.Read16
  (some r.1, String.mk (base64RawURLEncode r.2))

/-- `RequestID(header)`: takes the ID from the request header or generates
one and sets the request header, puts it in the request context under
`ridCtxKey`, and sets the response header. -/
def RequestID (canon : String → String) (seeded : Rand) (header : String)
    (ridSrc : Option Rand) (c : GinContext) : Option Rand × GinContext :=
  let rid := c.GetHeader canon header
  let g : Option Rand × String × GinContext :=
    if rid = "" then
      let gen := ridGen seeded ridSrc
      (gen.1, gen.2,
        { c with Request := { c.Request with
            Header := Header.Set canon c.Request.Header header gen.2 } })
    else (ridSrc, rid, c)
  let ctx := Context.withValue g.2.2.Request.Context ridCtxKey (Any.str g.2.1)
  let c1 := { g.2.2 with Request := g.2.2.Request.WithContext ctx }
  (g.1, c1.Header canon header g.2.1)

/-- `RequestIDFromCtx`: the string under `ridCtxKey`, or the empty string;
`none` is a panic. -/
def RequestIDFromCtx (st : PersistStore) (c : Context) : Option String :=
  match c.Value st ridCtxKey with
  | none => none
  | some (Any.str v) => some v
  | some _ => some ""

/-- A request context layered over a `*PersistCtx` at address 0. -/
def exCtx : Context :=
  Context.withValue (Context.persist 0 Context.background) exKey (Any.str "old")

/-- A byte stream for the request ID generator. -/
def exRand : Rand := { stream := fun i => 7 * i + 3, pos := 0 }

/-- A request carrying the header `X-Request-Id: abc`. -/
def exGin : GinContext :=
  { Request := { Header := [("X-Request-Id", ["abc"])], ctx := none }, Writer := [] }

/-! ## federatingdb: Update -/

/-- A `*url.URL` as far as `Update` looks at it: its `Host`, and the scheme
and path that `String()` puts around it. -/
structure URL where
  Scheme : String
  Host : String
  Path : String
  deriving DecidableEq, Repr

/-- `URL.String()`. -/
def URL.String (u : URL) : String :=
  u.Scheme ++ "://" ++ u.Host ++ u.Path

/-- The JSON-LD id property of an Accountable: nil, set to something that is
not an IRI, or an IRI. -/
inductive IdProp where
  | null : IdProp
  | notIRI : IdProp
  | iri (u : URL) : IdProp
  deriving DecidableEq, Repr

/-- A `vocab.Type` value as far as `Update` looks at it: its type name,
whether it implements `ap.Accountable`, and its id property. -/
structure VocabType where
  typeName : String
  accountable : Bool
  id : IdProp
  deriving DecidableEq, Repr

/-- A `*gtsmodel.Account` as far as `Update` looks at it. -/
structure Account where
  ID : String
  URI : String
  deriving DecidableEq, Repr

/-- Modelled from the spec: what `extractFromCtx` (not under src/) reads from
the context: the receiving account, the requesting account (`none` is nil)
and the internal mark. -/
structure UpdateCtx where
  receivingAccount : Option Account
  requestingAccount : Option Account
  internal : Bool
  deriving DecidableEq, Repr

/-- A `messages.FromFederator`. -/
structure FromFederator where
  APObjectType : String
  APActivityType : String
  GTSModel : Option Account
  APObjectModel : VocabType
  ReceivingAccount : Option Account
  deriving DecidableEq, Repr

/-- The actor type names `ap.ActorApplication`, `ap.ActorGroup`,
`ap.ActorOrganization`, `ap.ActorPerson` and `ap.ActorService`. -/
def actorTypeNames : List String :=
  ["Application", "Group", "Organization", "Person", "Service"]

/-- The environment of `Update`: the configured host, whether the log level
is at least DEBUG, and the error of `marshalItem` on a value (`none` when it
succeeds). -/
structure UpdateEnv where
  host : String
  debug : Bool
  marshalItem : VocabType → Option String

/-- `federatingDB.updateAccountable` on the federator queue: the returned
error (`none` is nil) and the queue; the outer `none` is the panic of
dereferencing a nil requesting account. -/
def updateAccountable (env : UpdateEnv) (queue : List FromFederator)
    (receivingAcct requestingAcct : Option Account) (asType : VocabType) :
    Option (Option String × List FromFederator) :=
  if asType.accountable = false then
    some (some "could not convert vocab.Type to Accountable", queue)
  else
    match asType.id with
    | IdProp.null => some (some "Accountable id prop was nil or not IRI", queue)
    | IdProp.notIRI => some (some "Accountable id prop was nil or not IRI", queue)
    | IdProp.iri updatedAcctURI =>
      if updatedAcctURI.Host = env.host then some (none, queue)
      else
        match requestingAcct with
        | none => none
        | some acct =>
          if acct.URI ≠ updatedAcctURI.String then
            some (some ("update for " ++ updatedAcctURI.String ++ " was requested by "
              ++ acct.URI ++ ", this is not valid"), queue)
          else
            some (none, queue ++ [{ APObjectType := "Profile", APActivityType := "Update",
                                    GTSModel := requestingAcct, APObjectModel := asType,
                                    ReceivingAccount := receivingAcct }])

/-- `federatingDB.Update`. -/
def Update (env : UpdateEnv) (queue : List FromFederator) (ctx : UpdateCtx)
    (asType : VocabType) : Option (Option String × List FromFederator) :=
  match (if env.debug then env.marshalItem asType else none) with
  | some err => some (some err, queue)
  | none =>
    if ctx.internal then some (none, queue)
    else if asType.typeName ∈ actorTypeNames then
      updateAccountable env queue ctx.receivingAccount ctx.requestingAccount asType
    else some (none, queue)

/-- The conditions under which `Update` enqueues: the context is not
internal, the type is an actor type, the value is an Accountable whose id is
an IRI with a host other than the local one, and the IRI string is the URI of
the requesting account. -/
def Update.enqueues (env : UpdateEnv) (ctx : UpdateCtx) (asType : VocabType) : Prop :=
  ctx.internal = false ∧ asType.typeName ∈ actorTypeNames ∧ asType.accountable = true ∧
  ∃ u, asType.id = IdProp.iri u ∧ u.Host ≠ env.host ∧
    ∃ acct, ctx.requestingAccount = some acct ∧ acct.URI = u.String

/-- The profile update message that `updateAccountable` enqueues. -/
def profileUpdate (ctx : UpdateCtx) (asType : VocabType) : FromFederator :=
  { APObjectType := "Profile", APActivityType := "Update",
    GTSModel := ctx.requestingAccount, APObjectModel := asType,
    ReceivingAccount := ctx.receivingAccount }

/-- An environment with local host `localhost:8080` and debug logging off. -/
def exEnv : UpdateEnv := { host := "localhost:8080", debug := false, marshalItem := fun _ => none }

/-- A remote account. -/
def exRemote : Account := { ID := "01R", URI := "https://example.org/users/tortoise" }

/-- A context carrying the remote account as requesting account. -/
def exUpdateCtx : UpdateCtx :=
  { receivingAccount := some { ID := "01L", URI := "http://localhost:8080/users/zork" }
    requestingAccount := some exRemote, internal := false }

/-- A Person whose id is the IRI of the remote account. -/
def exPerson : VocabType :=
  { typeName := "Person", accountable := true
    id := IdProp.iri { Scheme := "https", Host := "example.org", Path := "/users/tortoise" } }

/-! ## Memory lemmas -/

theorem Heap.getD_alloc_lt {T : Type} (h : Heap T) (x : List T) (a : Nat) (ha : a < h.length) :
    (h ++ [x]).getD a [] = h.getD a [] := by
  simp [List.getD_eq_getElem?_getD, List.getElem?_append_left ha]

theorem Heap.getD_alloc_eq {T : Type} (h : Heap T) (x : List T) :
    (h ++ [x]).getD h.length [] = x := by
  simp [List.getD_eq_getElem?_getD]

theorem Heap.getD_ge {T : Type} (h : Heap T) (a : Nat) (ha : h.length ≤ a) :
    h.getD a [] = [] := by
  simp [List.getD_eq_getElem?_getD, List.getElem?_eq_none ha]

theorem Slice.read_alloc_valid {T : Type} (h : Heap T) (x : List T) (d : Slice)
    (hd : d.Valid h) : d.read (h ++ [x]) = d.read h := by
  cases d with
  | nil => rfl
  | hdr a o n => simp only [Slice.read, Heap.getD_alloc_lt h x a hd]

theorem slicesClone_read {T : Type} (h : Heap T) (s : Slice) :
    (slicesClone h s).2.read (slicesClone h s).1 = s.read h := by
  cases s with
  | nil => rfl
  | hdr a o n =>
    simp only [slicesClone, Slice.read, Heap.getD_alloc_eq, List.drop_zero, List.take_length]

theorem slicesClone_prefix {T : Type} (h : Heap T) (s : Slice) :
    h <+: (slicesClone h s).1 := by
  cases s with
  | nil => exact List.prefix_refl h
  | hdr a o n => exact List.prefix_append h _

/-- Cloning a slice does not change what that slice itself denotes. -/
theorem slicesClone_read_source {T : Type} (h : Heap T) (s : Slice) :
    s.read (slicesClone h s).1 = s.read h := by
  cases s with
  | nil => rfl
  | hdr a o n =>
    rcases Nat.lt_trichotomy a h.length with hlt | heq | hgt
    · exact Slice.read_alloc_valid h _ _ hlt
    · subst heq
      have h0 : (Slice.hdr h.length o n).read h = [] := by
        simp [Slice.read, Heap.getD_ge h h.length (Nat.le_refl _)]
      simp only [slicesClone, h0]
      simp [Slice.read, Heap.getD_alloc_eq, Heap.getD_ge h h.length (Nat.le_refl _)]
    · have h1 : ∀ x : List T, (h ++ [x]).getD a [] = [] := fun x =>
        Heap.getD_ge _ a (by simp only [List.length_append, List.length_singleton]; omega)
      simp only [slicesClone, Slice.read, h1, Heap.getD_ge h a (Nat.le_of_lt hgt)]

theorem exReslice_pure : Reslice.Pure exReslice (List.drop 1) := by
  intro h s
  cases s with
  | nil => rfl
  | hdr a o n =>
    simp only [exReslice, Slice.sliceFrom, Slice.read, List.drop_take, List.drop_drop]

/-! ## ttl.Cache lemmas -/

theorem TTLCache.Get_Set_same {V : Type} (c : TTLCache V) (now : Int) (k : String) (v : V)
    (hT : 0 < c.TTL) : (c.Set now k v).Get now k = some v := by
  simp [TTLCache.Get, TTLCache.Set, List.find?, hT]

/-! ## SliceCache: the three paths of Load and LoadRange -/

theorem SliceCache.Load_of_hit {T ε : Type} (s : State T) (k : String) (load : Loader T ε)
    (d : Slice) (hit : s.cache.Get s.now k = some d) :
    SliceCache.Load s k load = s.returnClone d := by
  simp only [SliceCache.Load, hit]

theorem SliceCache.Load_of_miss_ok {T ε : Type} (s : State T) (k : String)
    (load : Loader T ε) (h1 : Heap T) (d : Slice)
    (miss : s.cache.Get s.now k = none) (hl : load s.heap = (h1, d, none)) :
    SliceCache.Load s k load =
      State.returnClone { s with heap := h1, loaderCalls := s.loaderCalls + 1,
                                 cache := s.cache.Set s.now k d } d := by
  simp only [SliceCache.Load, miss, State.callLoad, hl]

theorem SliceCache.Load_of_miss_err {T ε : Type} (s : State T) (k : String)
    (load : Loader T ε) (h1 : Heap T) (d : Slice) (e : ε)
    (miss : s.cache.Get s.now k = none) (hl : load s.heap = (h1, d, some e)) :
    SliceCache.Load s k load =
      ({ s with heap := h1, loaderCalls := s.loaderCalls + 1 }, Slice.nil, some e) := by
  simp only [SliceCache.Load, miss, State.callLoad, hl]

theorem SliceCache.LoadRange_of_hit {T ε : Type} (s : State T) (k : String)
    (load : Loader T ε) (w : Reslice T) (d : Slice) (hit : s.cache.Get s.now k = some d) :
    SliceCache.LoadRange s k load w =
      State.returnClone { s with resliceCalls := s.resliceCalls + 1 } (w s.heap d) := by
  simp only [SliceCache.LoadRange, hit, State.callReslice]

theorem SliceCache.LoadRange_of_miss_ok {T ε : Type} (s : State T) (k : String)
    (load : Loader T ε) (w : Reslice T) (h1 : Heap T) (d : Slice)
    (miss : s.cache.Get s.now k = none) (hl : load s.heap = (h1, d, none)) :
    SliceCache.LoadRange s k load w =
      State.returnClone { s with heap := h1, loaderCalls := s.loaderCalls + 1,
                                 cache := s.cache.Set s.now k d,
                                 resliceCalls := s.resliceCalls + 1 } (w h1 d) := by
  simp only [SliceCache.LoadRange, miss, State.callLoad, hl, State.callReslice]

theorem SliceCache.LoadRange_of_miss_err {T ε : Type} (s : State T) (k : String)
    (load : Loader T ε) (w : Reslice T) (h1 : Heap T) (d : Slice) (e : ε)
    (miss : s.cache.Get s.now k = none) (hl : load s.heap = (h1, d, some e)) :
    SliceCache.LoadRange s k load w =
      ({ s with heap := h1, loaderCalls := s.loaderCalls + 1 }, Slice.nil, some e) := by
  simp only [SliceCache.LoadRange, miss, State.callLoad, hl]

/-! ## Aliasing -/

theorem exState_WF : exState.WF := by
  intro e he
  simp only [exState, List.mem_singleton] at he
  subst he
  show 0 < 1
  decide

theorem exLoader_safe : Loader.Safe exLoader := by
  intro h
  simp [exLoader, Slice.Valid]

theorem TTLCache.Get_mem {V : Type} (c : TTLCache V) (t : Int) (k : String) (d : V)
    (h : c.Get t k = some d) : ∃ e ∈ c.entries, e.value = d := by
  unfold TTLCache.Get at h
  cases hf : c.entries.find? (fun e => e.key == k) with
  | none => rw [hf] at h; cases h
  | some e =>
    rw [hf] at h
    refine ⟨e, List.mem_of_find?_eq_some hf, ?_⟩
    by_cases ht : t < e.expiry
    · simpa [ht] using h
    · simp [ht] at h

theorem Slice.Valid_mono {T : Type} (h h1 : Heap T) (d : Slice) (hle : h.length ≤ h1.length)
    (hd : d.Valid h) : d.Valid h1 := by
  cases d with
  | nil => trivial
  | hdr a o n => exact Nat.lt_of_lt_of_le hd hle

/-- The clone returned from a well-formed state shares storage with no entry. -/
theorem State.returnClone_isolated {T ε : Type} (s : State T) (x : Slice) (hwf : s.WF) :
    (s.returnClone x (ε := ε)).1.Isolated (s.returnClone x (ε := ε)).2.1 := by
  intro e he
  have hv : e.value.Valid s.heap := hwf e he
  cases x with
  | nil => cases e.value <;> rfl
  | hdr a o n =>
    cases hev : e.value with
    | nil => rfl
    | hdr b p m =>
      rw [hev] at hv
      have hne : b ≠ s.heap.length := Nat.ne_of_lt hv
      simp [State.returnClone, slicesClone, Slice.aliases, hne]

theorem State.WF_after_load {T ε : Type} (s : State T) (k : String) (load : Loader T ε)
    (hwf : s.WF) (hsafe : Loader.Safe load) :
    State.WF { s with heap := (load s.heap).1, loaderCalls := s.loaderCalls + 1,
                      cache := s.cache.Set s.now k (load s.heap).2.1 } := by
  intro e he
  simp only [TTLCache.Set, List.mem_cons, List.mem_filter] at he
  rcases he with rfl | ⟨hmem, _⟩
  · exact (hsafe s.heap).2
  · exact Slice.Valid_mono s.heap _ _ (hsafe s.heap).1 (hwf e hmem)

theorem SliceCache.Load_isolated {T ε : Type} (s : State T) (k : String) (load : Loader T ε)
    (hwf : s.WF) (hsafe : Loader.Safe load) :
    (SliceCache.Load s k load).1.Isolated (SliceCache.Load s k load).2.1 := by
  cases hget : s.cache.Get s.now k with
  | some d =>
    rw [SliceCache.Load_of_hit s k load d hget]
    exact State.returnClone_isolated s d hwf
  | none =>
    have hwf1 := State.WF_after_load s k load hwf hsafe
    rcases hl : load s.heap with ⟨h1, d, oe⟩
    rw [hl] at hwf1
    cases oe with
    | some e =>
      rw [SliceCache.Load_of_miss_err s k load h1 d e hget hl]
      intro e' _
      cases e'.value <;> rfl
    | none =>
      rw [SliceCache.Load_of_miss_ok s k load h1 d hget hl]
      exact State.returnClone_isolated _ d hwf1

theorem SliceCache.LoadRange_isolated {T ε : Type} (s : State T) (k : String)
    (load : Loader T ε) (w : Reslice T) (hwf : s.WF) (hsafe : Loader.Safe load) :
    (SliceCache.LoadRange s k load w).1.Isolated (SliceCache.LoadRange s k load w).2.1 := by
  cases hget : s.cache.Get s.now k with
  | some d =>
    rw [SliceCache.LoadRange_of_hit s k load w d hget]
    exact State.returnClone_isolated _ _ hwf
  | none =>
    have hwf1 := State.WF_after_load s k load hwf hsafe
    rcases hl : load s.heap with ⟨h1, d, oe⟩
    rw [hl] at hwf1
    cases oe with
    | some e =>
      rw [SliceCache.LoadRange_of_miss_err s k load w h1 d e hget hl]
      intro e' _
      cases e'.value <;> rfl
    | none =>
      rw [SliceCache.LoadRange_of_miss_ok s k load w h1 d hget hl]
      exact State.returnClone_isolated _ _ hwf1

theorem aliasLoader_safe : Loader.Safe aliasLoader := by
  intro h
  by_cases hl : 1 < h.length
  · simp [aliasLoader, hl, Slice.Valid]
  · simp [aliasLoader, hl, Slice.Valid]

/-- Storing a slice that does not share storage with `out` keeps the cache
isolated from `out`. -/
theorem State.Isolated_after_Set {T : Type} (s : State T) (out : Slice) (k : String)
    (d : Slice) (c : TTLCache Slice) (hc : c = s.cache.Set s.now k d)
    (hiso : s.Isolated out) (hna : d.aliases out = false) :
    ∀ e ∈ c.entries, e.value.aliases out = false := by
  intro e he
  subst hc
  simp only [TTLCache.Set, List.mem_cons, List.mem_filter] at he
  rcases he with rfl | ⟨hmem, _⟩
  · exact hna
  · exact hiso e hmem

/-- A `Load` whose loader does not return a slice on the backing array of
`out` keeps the cache isolated from `out`. -/
theorem SliceCache.Load_preserves_isolated {T ε : Type} (s : State T) (out : Slice)
    (k : String) (load : Loader T ε) (hiso : s.Isolated out)
    (hna : (load s.heap).2.1.aliases out = false) :
    (SliceCache.Load s k load).1.Isolated out := by
  cases hget : s.cache.Get s.now k with
  | some d =>
    rw [SliceCache.Load_of_hit s k load d hget]
    exact hiso
  | none =>
    rcases hl : load s.heap with ⟨h1, d, oe⟩
    rw [hl] at hna
    cases oe with
    | some e =>
      rw [SliceCache.Load_of_miss_err s k load h1 d e hget hl]
      exact hiso
    | none =>
      rw [SliceCache.Load_of_miss_ok s k load h1 d hget hl]
      exact State.Isolated_after_Set s out k d _ rfl hiso hna

/-- A `LoadRange` whose loader does not return a slice on the backing array
of `out` keeps the cache isolated from `out`. -/
theorem SliceCache.LoadRange_preserves_isolated {T ε : Type} (s : State T) (out : Slice)
    (k : String) (load : Loader T ε) (w : Reslice T) (hiso : s.Isolated out)
    (hna : (load s.heap).2.1.aliases out = false) :
    (SliceCache.LoadRange s k load w).1.Isolated out := by
  cases hget : s.cache.Get s.now k with
  | some d =>
    rw [SliceCache.LoadRange_of_hit s k load w d hget]
    exact hiso
  | none =>
    rcases hl : load s.heap with ⟨h1, d, oe⟩
    rw [hl] at hna
    cases oe with
    | some e =>
      rw [SliceCache.LoadRange_of_miss_err s k load w h1 d e hget hl]
      exact hiso
    | none =>
      rw [SliceCache.LoadRange_of_miss_ok s k load w h1 d hget hl]
      exact State.Isolated_after_Set s out k d _ rfl hiso hna

/-- Writing through a slice leaves every slice on another array as it was. -/
theorem Slice.read_store_of_not_aliases {T : Type} (h h2 : Heap T) (out d : Slice)
    (i : Nat) (v : T) (hst : out.store h i v = some h2) (hna : d.aliases out = false) :
    d.read h2 = d.read h := by
  cases out with
  | nil => cases hst
  | hdr a o n =>
    cases d with
    | nil => rfl
    | hdr b p m =>
      have hne : a ≠ b := by
        intro hab
        simp [Slice.aliases, hab] at hna
      unfold Slice.store at hst
      by_cases hi : i < n
      · simp only [hi, if_true, Option.some.injEq] at hst
        subst hst
        simp only [Slice.read, List.getD_eq_getElem?_getD, List.getElem?_set_ne hne]
      · simp [hi] at hst

/-- After an overwrite through a slice no entry aliases, a later `Load` and a
later `LoadRange` served from the cache return what they would have returned
without the overwrite. -/
theorem SliceCache.later_hit_unchanged {T ε : Type} (st : State T) (out : Slice)
    (hiso : st.Isolated out) (i : Nat) (v : T) (h2 : Heap T)
    (hst : out.store st.heap i v = some h2)
    (t : Int) (k : String) (d : Slice) (load : Loader T ε)
    (hit : st.cache.Get t k = some d) :
    (SliceCache.Load { st with heap := h2, now := t } k load).2.1.read
        (SliceCache.Load { st with heap := h2, now := t } k load).1.heap
      = (SliceCache.Load { st with now := t } k load).2.1.read
          (SliceCache.Load { st with now := t } k load).1.heap ∧
    ∀ (w : Reslice T) (f : List T → List T), Reslice.Pure w f →
      (SliceCache.LoadRange { st with heap := h2, now := t } k load w).2.1.read
          (SliceCache.LoadRange { st with heap := h2, now := t } k load w).1.heap
        = (SliceCache.LoadRange { st with now := t } k load w).2.1.read
            (SliceCache.LoadRange { st with now := t } k load w).1.heap := by
  have hd : d.read h2 = d.read st.heap := by
    obtain ⟨e, he, hev⟩ := TTLCache.Get_mem st.cache t k d hit
    exact Slice.read_store_of_not_aliases st.heap h2 out d i v hst (hev ▸ hiso e he)
  constructor
  · rw [SliceCache.Load_of_hit { st with heap := h2, now := t } k load d hit,
      SliceCache.Load_of_hit { st with now := t } k load d hit]
    show (slicesClone h2 d).2.read (slicesClone h2 d).1
      = (slicesClone st.heap d).2.read (slicesClone st.heap d).1
    rw [slicesClone_read, slicesClone_read, hd]
  · intro w f hw
    rw [SliceCache.LoadRange_of_hit { st with heap := h2, now := t } k load w d hit,
      SliceCache.LoadRange_of_hit { st with now := t } k load w d hit]
    show (slicesClone h2 (w h2 d)).2.read (slicesClone h2 (w h2 d)).1
      = (slicesClone st.heap (w st.heap d)).2.read (slicesClone st.heap (w st.heap d)).1
    rw [slicesClone_read, slicesClone_read, hw h2 d, hw st.heap d, hd]

/-! ## Object lemmas -/

theorem Objects.getElem?_mid {T : Type} (h1 : Objects T) (v : T) (h2 h3 : Objects T) :
    (h1 ++ v :: h2 ++ h3)[h1.length]? = some v := by
  rw [List.append_assoc, List.getElem?_append_right (Nat.le_refl _)]
  simp

/-- The closure `x2 := new(T); *x2 = *x1; return x2` returns a newly allocated
object holding the value of the argument. -/
theorem Objects.copy_fresh {T : Type} [Inhabited T] (h1 : Objects T) (v : T) (h2 : Objects T) :
    (do let (h, x2) := Objects.new (h1 ++ v :: h2)
        let h ← h.assign x2 (some h1.length)
        pure (h, x2) : Option (Objects T × Ptr))
      = some (h1 ++ v :: h2 ++ [v], some (h1.length + 1 + h2.length)) := by
  have hlen : (h1 ++ v :: h2).length = h1.length + 1 + h2.length := by
    simp only [List.length_append, List.length_cons]; omega
  have hget : (h1 ++ v :: h2 ++ [default])[h1.length]? = some v :=
    Objects.getElem?_mid h1 v h2 [default]
  have hset : (h1 ++ v :: h2 ++ [default]).set (h1.length + 1 + h2.length) v
      = h1 ++ v :: h2 ++ [v] := by
    rw [← hlen, List.set_append_right _ _ (Nat.le_refl _)]
    simp
  simp only [Objects.new, Objects.assign, Objects.deref, Option.bind_eq_bind, Option.some_bind,
    Option.pure_def, hget, hlen, List.length_append, List.length_singleton,
    Nat.lt_succ_self, if_true, hset]

/-- The closure `x2 := new(T); *x2 = *x1; return x1` returns its argument. -/
theorem Objects.copy_same {T : Type} [Inhabited T] (h1 : Objects T) (v : T) (h2 : Objects T) :
    (do let (h, x2) := Objects.new (h1 ++ v :: h2)
        let h ← h.assign x2 (some h1.length)
        pure (h, (some h1.length : Ptr)) : Option (Objects T × Ptr))
      = some (h1 ++ v :: h2 ++ [v], some h1.length) := by
  have h := Objects.copy_fresh h1 v h2
  simp only [Objects.new, Option.bind_eq_bind, Option.pure_def] at h ⊢
  cases hx : Objects.assign (h1 ++ v :: h2 ++ [default]) (some (h1 ++ v :: h2).length)
      (some h1.length) with
  | none => rw [hx] at h; cases h
  | some y =>
    rw [hx] at h
    simp only [Option.some_bind, Option.some.injEq, Prod.mk.injEq] at h ⊢
    exact ⟨h.1, trivial⟩

/-- Overwriting a newly allocated copy leaves the original object as it was. -/
theorem Objects.store_copy_deref {T : Type} (h1 : Objects T) (v : T) (h2 : Objects T)
    (v2 : T) :
    (Objects.store (h1 ++ v :: h2 ++ [v]) (some (h1.length + 1 + h2.length)) v2).bind
      (fun h => Objects.deref h (some h1.length)) = some v := by
  have hlt : h1.length + 1 + h2.length < (h1 ++ v :: h2 ++ [v]).length := by
    simp only [List.length_append, List.length_cons, List.length_singleton, List.length_nil]
    omega
  have hne : h1.length + 1 + h2.length ≠ h1.length := by omega
  simp only [Objects.store, Option.bind_eq_bind, Option.some_bind, hlt, if_true,
    Objects.deref, List.getElem?_set_ne hne]
  exact Objects.getElem?_mid h1 v h2 [v]

/-! ## SliceCache: load, range and copy properties -/

/-- C1: on a hit (key `k` holds the unexpired slice `d`) `Load` returns a
list equal element for element to the cached one with a nil error, does not
invoke the loader, and leaves the cache and every allocated backing array
unchanged. -/
theorem SliceCache.Load_hit {T ε : Type} (s : State T) (k : String) (load : Loader T ε)
    (d : Slice) (hit : s.cache.Get s.now k = some d) :
    (SliceCache.Load s k load).2.1.read (SliceCache.Load s k load).1.heap = d.read s.heap ∧
    (SliceCache.Load s k load).2.2 = none ∧
    (SliceCache.Load s k load).1.loaderCalls = s.loaderCalls ∧
    (SliceCache.Load s k load).1.cache = s.cache ∧
    s.heap <+: (SliceCache.Load s k load).1.heap := by
  rw [SliceCache.Load_of_hit s k load d hit]
  exact ⟨slicesClone_read s.heap d, rfl, rfl, rfl, slicesClone_prefix s.heap d⟩

theorem SliceCache.Load_hit_witness :
    exState.cache.Get exState.now "a" = some (Slice.hdr 0 0 2) ∧
    (SliceCache.Load exState "a" exLoader).2.1.read
      (SliceCache.Load exState "a" exLoader).1.heap = [1, 2] ∧
    (SliceCache.Load exState "a" exLoader).1.loaderCalls = 0 :=
  ⟨by decide,
   (SliceCache.Load_hit exState "a" exLoader (Slice.hdr 0 0 2) (by decide)).1.trans (by decide),
   (SliceCache.Load_hit exState "a" exLoader (Slice.hdr 0 0 2) (by decide)).2.2.1⟩

/-- C2: on a miss with a loader returning `(d, nil)`, `Load` invokes the
loader exactly once, returns a list equal to the loaded one with a nil
error, and afterwards `k` is an entry of the cache holding `d`, whatever `d`
is (the empty and the nil slice included); with a positive TTL an immediately
following lookup of `k` finds `d` and a following `Load` does not invoke its
loader. -/
theorem SliceCache.Load_miss {T ε : Type} (s : State T) (k : String) (load : Loader T ε)
    (h1 : Heap T) (d : Slice)
    (miss : s.cache.Get s.now k = none) (hl : load s.heap = (h1, d, none)) :
    (SliceCache.Load s k load).2.1.read (SliceCache.Load s k load).1.heap = d.read h1 ∧
    (SliceCache.Load s k load).2.2 = none ∧
    (SliceCache.Load s k load).1.loaderCalls = s.loaderCalls + 1 ∧
    (∃ e ∈ (SliceCache.Load s k load).1.cache.entries, e.key = k ∧ e.value = d) ∧
    (0 < s.cache.TTL →
      (SliceCache.Load s k load).1.cache.Get (SliceCache.Load s k load).1.now k = some d ∧
      ∀ load2 : Loader T ε,
        (SliceCache.Load (SliceCache.Load s k load).1 k load2).1.loaderCalls
          = s.loaderCalls + 1) := by
  rw [SliceCache.Load_of_miss_ok s k load h1 d miss hl]
  refine ⟨slicesClone_read h1 d, rfl, rfl, ⟨⟨k, d, s.now + s.cache.TTL⟩, ?_, rfl, rfl⟩, ?_⟩
  · simp [State.returnClone, TTLCache.Set]
  · intro hT
    have hget : (s.cache.Set s.now k d).Get s.now k = some d :=
      TTLCache.Get_Set_same s.cache s.now k d hT
    refine ⟨hget, fun load2 => ?_⟩
    rw [SliceCache.Load_of_hit _ k load2 d hget]
    rfl

theorem SliceCache.Load_miss_witness :
    exState.cache.Get exState.now "b" = none ∧
    exLoader exState.heap = ([[1, 2], [7, 8, 9]], Slice.hdr 1 0 3, none) ∧
    (SliceCache.Load exState "b" exLoader).2.1.read
      (SliceCache.Load exState "b" exLoader).1.heap = [7, 8, 9] ∧
    (SliceCache.Load exState "b" exLoader).1.loaderCalls = 1 :=
  ⟨by decide, by decide,
   (SliceCache.Load_miss exState "b" exLoader [[1, 2], [7, 8, 9]] (Slice.hdr 1 0 3)
      (by decide) (by decide)).1.trans (by decide),
   (SliceCache.Load_miss exState "b" exLoader [[1, 2], [7, 8, 9]] (Slice.hdr 1 0 3)
      (by decide) (by decide)).2.2.1⟩

/-- C3: when `k` is not cached and the loader returns the error `e`, both
`Load` and `LoadRange` return the nil slice together with exactly `e`, leave
the cache as it was (no entry is created), and `LoadRange` does not apply its
reslice function. -/
theorem SliceCache.loader_failure_atomic {T ε : Type} (s : State T) (k : String)
    (load : Loader T ε) (w : Reslice T) (h1 : Heap T) (d : Slice) (e : ε)
    (miss : s.cache.Get s.now k = none) (hl : load s.heap = (h1, d, some e)) :
    ((SliceCache.Load s k load).2.1 = Slice.nil ∧
     (SliceCache.Load s k load).2.2 = some e ∧
     (SliceCache.Load s k load).1.cache = s.cache ∧
     (SliceCache.Load s k load).1.cache.Get (SliceCache.Load s k load).1.now k = none) ∧
    ((SliceCache.LoadRange s k load w).2.1 = Slice.nil ∧
     (SliceCache.LoadRange s k load w).2.2 = some e ∧
     (SliceCache.LoadRange s k load w).1.cache = s.cache ∧
     (SliceCache.LoadRange s k load w).1.cache.Get
        (SliceCache.LoadRange s k load w).1.now k = none ∧
     (SliceCache.LoadRange s k load w).1.resliceCalls = s.resliceCalls) := by
  rw [SliceCache.Load_of_miss_err s k load h1 d e miss hl,
    SliceCache.LoadRange_of_miss_err s k load w h1 d e miss hl]
  exact ⟨⟨rfl, rfl, rfl, miss⟩, rfl, rfl, rfl, miss, rfl⟩

theorem SliceCache.loader_failure_atomic_witness :
    exState.cache.Get exState.now "b" = none ∧
    failLoader exState.heap = ([[1, 2]], Slice.nil, some "db closed") ∧
    (SliceCache.Load exState "b" failLoader).2.2 = some "db closed" ∧
    (SliceCache.LoadRange exState "b" failLoader exReslice).1.cache = exState.cache :=
  ⟨by decide, by decide,
   (SliceCache.loader_failure_atomic exState "b" failLoader exReslice [[1, 2]] Slice.nil
      "db closed" (by decide) (by decide)).1.2.1,
   (SliceCache.loader_failure_atomic exState "b" failLoader exReslice [[1, 2]] Slice.nil
      "db closed" (by decide) (by decide)).2.2.2.1⟩

/-- C4 as stated fails: with a loader that fails on its first call nothing
is cached, so the second `Load` invokes the loader again (two invocations in
total) and the two calls return different lists. -/
theorem SliceCache.Load_twice_counterexample :
    exState.cache.Get exState.now "b" = none ∧
    (SliceCache.Load (SliceCache.Load exState "b" flakyLoader).1 "b" flakyLoader).1.loaderCalls
      = exState.loaderCalls + 2 ∧
    (SliceCache.Load exState "b" flakyLoader).2.1.read
      (SliceCache.Load exState "b" flakyLoader).1.heap = [] ∧
    (SliceCache.Load (SliceCache.Load exState "b" flakyLoader).1 "b" flakyLoader).2.1.read
      (SliceCache.Load (SliceCache.Load exState "b" flakyLoader).1 "b" flakyLoader).1.heap
      = [7] := by
  decide

/-- C4 (amended): when the first `Load(k, loader)` returns a nil error, a
second `Load(k, loader)` issued at the same time, the TTL being positive,
leaves the total number of loader invocations at no more than one, returns a
nil error, and returns a list equal by value to the first. -/
theorem SliceCache.Load_idempotent {T ε : Type} (s : State T) (k : String)
    (load : Loader T ε) (hT : 0 < s.cache.TTL)
    (hok : (SliceCache.Load s k load).2.2 = none) :
    (SliceCache.Load (SliceCache.Load s k load).1 k load).1.loaderCalls ≤ s.loaderCalls + 1 ∧
    (SliceCache.Load (SliceCache.Load s k load).1 k load).2.2 = none ∧
    (SliceCache.Load (SliceCache.Load s k load).1 k load).2.1.read
        (SliceCache.Load (SliceCache.Load s k load).1 k load).1.heap
      = (SliceCache.Load s k load).2.1.read (SliceCache.Load s k load).1.heap := by
  cases hget : s.cache.Get s.now k with
  | some d =>
    have h2 : (s.returnClone d (ε := ε)).1.cache.Get (s.returnClone d (ε := ε)).1.now k
        = some d := hget
    rw [SliceCache.Load_of_hit s k load d hget, SliceCache.Load_of_hit _ k load d h2]
    refine ⟨Nat.le_succ _, rfl, ?_⟩
    show (slicesClone (slicesClone s.heap d).1 d).2.read (slicesClone (slicesClone s.heap d).1 d).1
      = (slicesClone s.heap d).2.read (slicesClone s.heap d).1
    rw [slicesClone_read, slicesClone_read]
    exact slicesClone_read_source s.heap d
  | none =>
    rcases hl : load s.heap with ⟨h1, d, oe⟩
    cases oe with
    | some e =>
      rw [SliceCache.Load_of_miss_err s k load h1 d e hget hl] at hok
      cases hok
    | none =>
      have hset : (s.cache.Set s.now k d).Get s.now k = some d :=
        TTLCache.Get_Set_same s.cache s.now k d hT
      rw [SliceCache.Load_of_miss_ok s k load h1 d hget hl,
        SliceCache.Load_of_hit _ k load d hset]
      refine ⟨Nat.le_refl _, rfl, ?_⟩
      show (slicesClone (slicesClone h1 d).1 d).2.read (slicesClone (slicesClone h1 d).1 d).1
        = (slicesClone h1 d).2.read (slicesClone h1 d).1
      rw [slicesClone_read, slicesClone_read]
      exact slicesClone_read_source h1 d

theorem SliceCache.Load_idempotent_witness :
    0 < exState.cache.TTL ∧ (SliceCache.Load exState "b" exLoader).2.2 = none ∧
    (SliceCache.Load (SliceCache.Load exState "b" exLoader).1 "b" exLoader).1.loaderCalls
      ≤ exState.loaderCalls + 1 :=
  ⟨by decide, by decide,
   (SliceCache.Load_idempotent exState "b" exLoader (by decide) (by decide)).1⟩

/-- C5: for a pure reslice function `w` (its result's elements are `f` of its
argument's elements), `LoadRange(k, load, w)` has the same error outcome and
the same number of loader invocations as `Load(k, load)` from the same state
and leaves the cache exactly as `Load` leaves it; without error it returns
`f` of the list `Load` returns, with an error both return nil; and on a miss
the entry stored under `k` is the loaded slice itself, not its window. -/
theorem SliceCache.LoadRange_refines_Load {T ε : Type} (s : State T) (k : String)
    (load : Loader T ε) (w : Reslice T) (f : List T → List T) (hw : Reslice.Pure w f) :
    (SliceCache.LoadRange s k load w).2.2 = (SliceCache.Load s k load).2.2 ∧
    (SliceCache.LoadRange s k load w).1.loaderCalls = (SliceCache.Load s k load).1.loaderCalls ∧
    (SliceCache.LoadRange s k load w).1.cache = (SliceCache.Load s k load).1.cache ∧
    ((SliceCache.Load s k load).2.2 = none →
      (SliceCache.LoadRange s k load w).2.1.read (SliceCache.LoadRange s k load w).1.heap
        = f ((SliceCache.Load s k load).2.1.read (SliceCache.Load s k load).1.heap)) ∧
    ((SliceCache.Load s k load).2.2 ≠ none →
      (SliceCache.LoadRange s k load w).2.1 = Slice.nil ∧
      (SliceCache.Load s k load).2.1 = Slice.nil) ∧
    (s.cache.Get s.now k = none → (load s.heap).2.2 = none →
      ∃ e ∈ (SliceCache.LoadRange s k load w).1.cache.entries,
        e.key = k ∧ e.value = (load s.heap).2.1) := by
  cases hget : s.cache.Get s.now k with
  | some d =>
    rw [SliceCache.LoadRange_of_hit s k load w d hget, SliceCache.Load_of_hit s k load d hget]
    refine ⟨rfl, rfl, rfl, fun _ => ?_, fun h => absurd rfl h, fun h => ?_⟩
    on_goal 2 => cases h
    show (slicesClone s.heap (w s.heap d)).2.read (slicesClone s.heap (w s.heap d)).1
      = f ((slicesClone s.heap d).2.read (slicesClone s.heap d).1)
    rw [slicesClone_read, slicesClone_read]
    exact hw s.heap d
  | none =>
    rcases hl : load s.heap with ⟨h1, d, oe⟩
    cases oe with
    | some e =>
      rw [SliceCache.LoadRange_of_miss_err s k load w h1 d e hget hl,
        SliceCache.Load_of_miss_err s k load h1 d e hget hl]
      refine ⟨rfl, rfl, rfl, fun h => ?_, fun _ => ⟨rfl, rfl⟩, fun _ h => ?_⟩
      · cases h
      · cases h
    | none =>
      rw [SliceCache.LoadRange_of_miss_ok s k load w h1 d hget hl,
        SliceCache.Load_of_miss_ok s k load h1 d hget hl]
      refine ⟨rfl, rfl, rfl, fun _ => ?_, fun h => absurd rfl h, fun _ _ => ?_⟩
      · show (slicesClone h1 (w h1 d)).2.read (slicesClone h1 (w h1 d)).1
          = f ((slicesClone h1 d).2.read (slicesClone h1 d).1)
        rw [slicesClone_read, slicesClone_read]
        exact hw h1 d
      · exact ⟨⟨k, d, s.now + s.cache.TTL⟩, by simp [State.returnClone, TTLCache.Set], rfl, rfl⟩

theorem SliceCache.LoadRange_refines_Load_witness :
    Reslice.Pure exReslice (List.drop 1) ∧
    (SliceCache.LoadRange exState "a" exLoader exReslice).2.1.read
      (SliceCache.LoadRange exState "a" exLoader exReslice).1.heap = [2] ∧
    (SliceCache.LoadRange exState "b" exLoader exReslice).1.cache
      = (SliceCache.Load exState "b" exLoader).1.cache :=
  ⟨exReslice_pure,
   ((SliceCache.LoadRange_refines_Load exState "a" exLoader exReslice (List.drop 1)
      exReslice_pure).2.2.2.1 (by decide)).trans (by decide),
   (SliceCache.LoadRange_refines_Load exState "b" exLoader exReslice (List.drop 1)
      exReslice_pure).2.2.1⟩

/-- C6 as stated fails: the cache stores the slice a loader returns without
cloning it. With `out` the slice returned by `Load("a")`, a later `Load("b")`
whose loader returns `out` stores `out` itself under `"b"`, so the stored
list and the returned list share a backing array (`LoadRange` stores the
same); overwriting `out[0]` with 99 then changes what a later `Load("b")`
served from the cache returns from `[1, 2]` to `[99, 2]`. -/
theorem SliceCache.defensive_copy_counterexample :
    exState.WF ∧ Loader.Safe exLoader ∧ Loader.Safe aliasLoader ∧
    (SliceCache.Load exState "a" exLoader).2.1 = Slice.hdr 1 0 2 ∧
    exAliased.cache.Get exAliased.now "b" = some (Slice.hdr 1 0 2) ∧
    (SliceCache.LoadRange (SliceCache.Load exState "a" exLoader).1 "b" aliasLoader
        exReslice).1.cache = exAliased.cache ∧
    (Slice.hdr 1 0 2).aliases (SliceCache.Load exState "a" exLoader).2.1 = true ∧
    (SliceCache.Load exAliased "b" exLoader).2.1.read
      (SliceCache.Load exAliased "b" exLoader).1.heap = [1, 2] ∧
    (SliceCache.Load exState "a" exLoader).2.1.store exAliased.heap 0 99
      = some [[1, 2], [99, 2], [1, 2]] ∧
    (SliceCache.Load { exAliased with heap := [[1, 2], [99, 2], [1, 2]] } "b" exLoader).2.1.read
      (SliceCache.Load { exAliased with heap := [[1, 2], [99, 2], [1, 2]] } "b"
        exLoader).1.heap = [99, 2] := by
  refine ⟨exState_WF, exLoader_safe, aliasLoader_safe, ?_, ?_, ?_, ?_, ?_, ?_, ?_⟩ <;> decide

/-- C6 (amended): in a state whose cached slices point at allocated memory
and with a memory-safe loader, the slice returned by `Load` or by `LoadRange`
is a fresh clone that shares backing storage with no slice stored in the
cache when the call returns. The cache stores a loader's slice itself, so
this separation lasts, whatever is written to memory and however the clock
moves, through every later `Load` and `LoadRange` whose loader does not
return a slice on the backing array of the returned slice; and in every state
in which it holds, after overwriting any element of the returned slice the
list stored under every key is unchanged, and every `Load` or `LoadRange`
(with a pure reslice function) served from the cache, at any later time,
returns the same list as it would have returned without the overwrite. -/
theorem SliceCache.defensive_copy {T ε : Type} (s : State T) (k : String)
    (load : Loader T ε) (w : Reslice T) (hwf : s.WF) (hsafe : Loader.Safe load)
    (r : State T × Slice × Option ε)
    (hr : r = SliceCache.Load s k load ∨ r = SliceCache.LoadRange s k load w) :
    r.1.Isolated r.2.1 ∧
    ∀ (st : State T), st.Isolated r.2.1 →
      (∀ (h : Heap T) (t : Int), State.Isolated { st with heap := h, now := t } r.2.1) ∧
      (∀ (k2 : String) (load2 : Loader T ε) (w2 : Reslice T),
        (load2 st.heap).2.1.aliases r.2.1 = false →
        (SliceCache.Load st k2 load2).1.Isolated r.2.1 ∧
        (SliceCache.LoadRange st k2 load2 w2).1.Isolated r.2.1) ∧
      ∀ (i : Nat) (v : T) (h2 : Heap T), r.2.1.store st.heap i v = some h2 →
        (∀ e ∈ st.cache.entries, e.value.read h2 = e.value.read st.heap) ∧
        ∀ (t : Int) (k2 : String) (d : Slice) (load2 : Loader T ε),
          st.cache.Get t k2 = some d →
          (SliceCache.Load { st with heap := h2, now := t } k2 load2).2.1.read
              (SliceCache.Load { st with heap := h2, now := t } k2 load2).1.heap
            = (SliceCache.Load { st with now := t } k2 load2).2.1.read
                (SliceCache.Load { st with now := t } k2 load2).1.heap ∧
          ∀ (w2 : Reslice T) (f : List T → List T), Reslice.Pure w2 f →
            (SliceCache.LoadRange { st with heap := h2, now := t } k2 load2 w2).2.1.read
                (SliceCache.LoadRange { st with heap := h2, now := t } k2 load2 w2).1.heap
              = (SliceCache.LoadRange { st with now := t } k2 load2 w2).2.1.read
                  (SliceCache.LoadRange { st with now := t } k2 load2 w2).1.heap := by
  have hiso : r.1.Isolated r.2.1 := by
    rcases hr with rfl | rfl
    · exact SliceCache.Load_isolated s k load hwf hsafe
    · exact SliceCache.LoadRange_isolated s k load w hwf hsafe
  refine ⟨hiso, fun st hst => ⟨fun _ _ => hst, fun k2 load2 w2 hna => ?_,
    fun i v h2 hw => ⟨fun e he => ?_, fun t k2 d load2 hit => ?_⟩⟩⟩
  · exact ⟨SliceCache.Load_preserves_isolated st r.2.1 k2 load2 hst hna,
      SliceCache.LoadRange_preserves_isolated st r.2.1 k2 load2 w2 hst hna⟩
  · exact Slice.read_store_of_not_aliases st.heap h2 r.2.1 e.value i v hw (hst e he)
  · exact SliceCache.later_hit_unchanged st r.2.1 hst i v h2 hw t k2 d load2 hit

theorem SliceCache.defensive_copy_witness :
    exState.WF ∧ Loader.Safe exLoader ∧
    (SliceCache.Load exState "a" exLoader).2.1 = Slice.hdr 1 0 2 ∧
    (SliceCache.Load exState "a" exLoader).2.1.store
      (SliceCache.Load exState "a" exLoader).1.heap 0 99 = some [[1, 2], [99, 2]] ∧
    (SliceCache.Load { (SliceCache.Load exState "a" exLoader).1 with
        heap := [[1, 2], [99, 2]], now := 3 } "a" exLoader).2.1.read
      (SliceCache.Load { (SliceCache.Load exState "a" exLoader).1 with
        heap := [[1, 2], [99, 2]], now := 3 } "a" exLoader).1.heap = [1, 2] ∧
    (SliceCache.Load (SliceCache.Load exState "a" exLoader).1 "b" exLoader).1.Isolated
      (SliceCache.Load exState "a" exLoader).2.1 :=
  ⟨exState_WF, exLoader_safe, by decide, by decide,
   (((((SliceCache.defensive_copy exState "a" exLoader exReslice exState_WF exLoader_safe
      (SliceCache.Load exState "a" exLoader) (Or.inl rfl)).2
        (SliceCache.Load exState "a" exLoader).1
        (SliceCache.defensive_copy exState "a" exLoader exReslice exState_WF exLoader_safe
          (SliceCache.Load exState "a" exLoader) (Or.inl rfl)).1).2.2
      0 99 [[1, 2], [99, 2]] (by decide)).2 3 "a" (Slice.hdr 0 0 2) exLoader
      (by decide)).1.trans (by decide)),
   (((SliceCache.defensive_copy exState "a" exLoader exReslice exState_WF exLoader_safe
      (SliceCache.Load exState "a" exLoader) (Or.inl rfl)).2
        (SliceCache.Load exState "a" exLoader).1
        (SliceCache.defensive_copy exState "a" exLoader exReslice exState_WF exLoader_safe
          (SliceCache.Load exState "a" exLoader) (Or.inl rfl)).1).2.1
      "b" exLoader exReslice (by decide)).1⟩

/-! ## GTSCaches: what Init configures -/

/-- C7: the TTLs that `Init` sets, where every result cache should have the
TTL configured for its own entity type. For every configuration `Init`
succeeds and leaves the list cache with the ListEntry TTL, the status cache
with the StatusFave TTL, and the listEntry and statusFave caches with no TTL
set at all; each of the other sixteen result caches has its own TTL. -/
theorem GTSCaches.Init_sets_sibling_ttl {E : Entity → Type} {P : Type}
    [∀ e, Inhabited (E e)] (cfg : Config) (ignoreErrors : P) :
    ∃ c, GTSCaches.Init cfg ignoreErrors ({} : GTSCaches E P) = some c ∧
      c.list.map (fun rc => rc.ttl) = some (some cfg.ListEntry.TTL) ∧
      c.listEntry.map (fun rc => rc.ttl) = some none ∧
      c.status.map (fun rc => rc.ttl) = some (some cfg.StatusFave.TTL) ∧
      c.statusFave.map (fun rc => rc.ttl) = some none ∧
      ∀ e, e ∈ [Entity.list, Entity.listEntry, Entity.status, Entity.statusFave] ∨
        (c.resultCache e).map (fun rc => rc.ttl) = some (some (cfg.ttlOf e)) := by
  refine ⟨_, rfl, rfl, rfl, rfl, rfl, fun e => ?_⟩
  cases e
  case list => exact Or.inl (by decide)
  case listEntry => exact Or.inl (by decide)
  case status => exact Or.inl (by decide)
  case statusFave => exact Or.inl (by decide)
  all_goals exact Or.inr rfl

/-- C8: the caches on which `Init` installs `ignoreErrors`, where every
initializer should install it on the cache it allocates and on no other.
After `Init` the follow,
followRequest, instance, listEntry and statusFave caches have no predicate
installed (the other fifteen have `ignoreErrors`), and `initInstance`,
`initListEntry` and `initStatusFave` install it on the emojiCategory, list
and status cache instead of their own. -/
theorem GTSCaches.Init_installs_ignoreErrors_on_sibling {E : Entity → Type} {P : Type}
    [∀ e, Inhabited (E e)] (cfg : Config) (ignoreErrors : P) :
    (∃ c, GTSCaches.Init cfg ignoreErrors ({} : GTSCaches E P) = some c ∧
      ∀ e, (c.resultCache e).map (fun rc => rc.ignore) =
        some (if e ∈ [Entity.follow, Entity.followRequest, Entity.instance_,
                      Entity.listEntry, Entity.statusFave]
              then none else some ignoreErrors)) ∧
    (∀ ec : ResultCache (E Entity.emojiCategory) P,
      (GTSCaches.initInstance cfg ignoreErrors
          ({ emojiCategory := some ec } : GTSCaches E P)).map
        (fun c => (c.instance_.map (fun rc => rc.ignore),
                   c.emojiCategory.map (fun rc => rc.ignore)))
        = some (some none, some (some ignoreErrors))) ∧
    (∀ lc : ResultCache (E Entity.list) P,
      (GTSCaches.initListEntry cfg ignoreErrors
          ({ list := some lc } : GTSCaches E P)).map
        (fun c => (c.listEntry.map (fun rc => rc.ignore),
                   c.list.map (fun rc => rc.ignore)))
        = some (some none, some (some ignoreErrors))) ∧
    (∀ sc : ResultCache (E Entity.status) P,
      (GTSCaches.initStatusFave cfg ignoreErrors
          ({ status := some sc } : GTSCaches E P)).map
        (fun c => (c.statusFave.map (fun rc => rc.ignore),
                   c.status.map (fun rc => rc.ignore)))
        = some (some none, some (some ignoreErrors))) := by
  refine ⟨⟨_, rfl, fun e => ?_⟩, fun _ => rfl, fun _ => rfl, fun _ => rfl⟩
  cases e <;> rfl

/-- C9: the object a copy function returns, which should never be its
argument. After `Init` the copy function of the instance cache allocates a
copy and then returns the pointer it was given (every other result cache
returns the address of the new object). -/
theorem GTSCaches.instance_copy_returns_argument {E : Entity → Type} {P : Type}
    [∀ e, Inhabited (E e)] (cfg : Config) (ignoreErrors : P) :
    ∃ c, GTSCaches.Init cfg ignoreErrors ({} : GTSCaches E P) = some c ∧
      (∃ ic, c.instance_ = some ic ∧
        ∀ (h1 : Objects (E Entity.instance_)) (v : E Entity.instance_)
          (h2 : Objects (E Entity.instance_)),
          ic.copy (h1 ++ v :: h2) (some h1.length)
            = some (h1 ++ v :: h2 ++ [v], some h1.length)) ∧
      ∀ e, e = Entity.instance_ ∨ ∃ rc, c.resultCache e = some rc ∧
        ∀ (h1 : Objects (E e)) (v : E e) (h2 : Objects (E e)),
          rc.copy (h1 ++ v :: h2) (some h1.length)
            = some (h1 ++ v :: h2 ++ [v], some (h1.length + 1 + h2.length)) := by
  refine ⟨_, rfl, ⟨_, rfl, fun h1 v h2 => Objects.copy_same h1 v h2⟩, fun e => ?_⟩
  cases e
  case instance_ => exact Or.inl rfl
  all_goals exact Or.inr ⟨_, rfl, fun h1 v h2 => Objects.copy_fresh h1 v h2⟩

/-- C10 as stated fails: the copy the accountNote cache makes of a note
whose `Account` and `TargetAccount` pointers are set is a new object (address
1, the note being at address 0) whose `Account` and `TargetAccount` are the
very pointers of the original. -/
theorem GTSCaches.accountNote_copy_shares_accounts :
    ((GTSCaches.Init exConfig () ({} : GTSCaches (gtsmodel Unit) Unit)).bind
        (fun c => c.accountNote)).bind (fun nc => nc.copy [exNote] (some 0))
      = some ([exNote, exNote], some 1) ∧
    exNote.Account = some 3 ∧ exNote.TargetAccount = some 4 ∧
    (Objects.deref [exNote, exNote] (some 1)).map (fun n => (n.Account, n.TargetAccount))
      = (Objects.deref [exNote, exNote] (some 0)).map (fun n => (n.Account, n.TargetAccount)) := by
  refine ⟨rfl, rfl, rfl, rfl⟩

/-- C10 (amended): the copy is shallow. After `Init`, the copy function of
every result cache other than the instance cache returns a newly allocated
object holding the struct value of its argument, pointer fields included, so
that overwriting the returned object leaves the argument as it was; for an
`AccountNote` the copy's `Account` and `TargetAccount` are the argument's own
pointers. -/
theorem GTSCaches.copy_is_shallow {X P : Type} [Inhabited X]
    (cfg : Config) (ignoreErrors : P) :
    ∃ c, GTSCaches.Init cfg ignoreErrors ({} : GTSCaches (gtsmodel X) P) = some c ∧
      (∀ e, e = Entity.instance_ ∨ ∃ rc, c.resultCache e = some rc ∧
        ∀ (h1 : Objects (gtsmodel X e)) (v : gtsmodel X e) (h2 : Objects (gtsmodel X e)),
          rc.copy (h1 ++ v :: h2) (some h1.length)
            = some (h1 ++ v :: h2 ++ [v], some (h1.length + 1 + h2.length)) ∧
          ∀ v2 : gtsmodel X e,
            ((rc.copy (h1 ++ v :: h2) (some h1.length)).bind
              (fun r => Objects.store r.1 r.2 v2)).bind
              (fun h => Objects.deref h (some h1.length)) = some v) ∧
      ∃ nc, c.accountNote = some nc ∧
        ∀ (h1 : Objects GoToSocial.AccountNote) (v : GoToSocial.AccountNote)
          (h2 : Objects GoToSocial.AccountNote),
          ((nc.copy (h1 ++ v :: h2) (some h1.length)).bind
            (fun r => Objects.deref r.1 r.2)).map
            (fun (n : GoToSocial.AccountNote) => (n.Account, n.TargetAccount))
            = some (v.Account, v.TargetAccount) := by
  refine ⟨_, rfl, fun e => ?_, _, rfl, fun h1 v h2 => ?_⟩
  · cases e
    case instance_ => exact Or.inl rfl
    all_goals
      refine Or.inr ⟨_, rfl, fun h1 v h2 => ⟨Objects.copy_fresh h1 v h2, fun v2 => ?_⟩⟩
      rw [show ResultCache.copy _ (h1 ++ v :: h2) (some h1.length)
          = some (h1 ++ v :: h2 ++ [v], some (h1.length + 1 + h2.length))
          from Objects.copy_fresh h1 v h2]
      exact Objects.store_copy_deref h1 v h2 v2
  · rw [show ResultCache.copy _ (h1 ++ v :: h2) (some h1.length)
        = some (h1 ++ v :: h2 ++ [v], some (h1.length + 1 + h2.length))
        from Objects.copy_fresh h1 v h2]
    have hd : Objects.deref (h1 ++ v :: h2 ++ [v]) (some (h1.length + 1 + h2.length))
        = some v := by
      have hlen : h1.length + 1 + h2.length = (h1 ++ v :: h2).length := by
        simp only [List.length_append, List.length_cons]; omega
      rw [hlen]
      show (h1 ++ v :: h2 ++ [v])[(h1 ++ v :: h2).length]? = some v
      rw [List.getElem?_append_right (Nat.le_refl _)]
      simp
    simp only [Option.some_bind, hd, Option.map_some']

/-! ## Start and Stop lemmas -/

theorem ResultCache.startedIf_sweeping {T P : Type} (rc : ResultCache T P) (sweep : Int)
    (h : rc.sweeping = none) :
    (rc.startedIf sweep).sweeping = if sweep > 0 then some sweep else none := by
  unfold ResultCache.startedIf
  split
  · rfl
  · exact h

theorem TTLCache.startedIf_sweeping_ttl {V : Type} (c : TTLCache V) (sweep : Int)
    (h : c.sweeping = none) :
    (c.startedIf sweep).sweeping = if sweep > 0 then some sweep else none := by
  unfold TTLCache.startedIf
  split
  · rfl
  · exact h

theorem tryStart_idle {T P : Type} (rc : ResultCache T P) (sweep : Int)
    (h : rc.sweeping = none) :
    tryStart (some rc) sweep = some (some (rc.startedIf sweep)) := by
  unfold tryStart ResultCache.startedIf
  split
  · simp [tryUntil, viaPtr, ResultCache.Start, h]
  · rfl

theorem tryUntil_start_slice {T : Type} (msg : String) (sc : SliceCache T) (sweep : Int)
    (h : sc.Cache.sweeping = none) :
    tryUntil msg 5 (fun (p : Option (SliceCache T)) =>
        if sweep > 0 then viaPtr (fun x => x.Start sweep) p else some (p, true)) (some sc)
      = some (some { Cache := sc.Cache.startedIf sweep }) := by
  unfold TTLCache.startedIf
  split
  · simp [tryUntil, viaPtr, SliceCache.Start, TTLCache.Start, h, *]
  · simp [tryUntil, *]

theorem tryUntil_start_ttl {V : Type} (msg : String) (c : TTLCache V) (sweep : Int)
    (h : c.sweeping = none) :
    tryUntil msg 5 (fun (p : Option (TTLCache V)) =>
        if sweep > 0 then viaPtr (fun x => x.Start sweep) p else some (p, true)) (some c)
      = some (some (c.startedIf sweep)) := by
  unfold TTLCache.startedIf
  split
  · simp [tryUntil, viaPtr, TTLCache.Start, h, *]
  · simp [tryUntil, *]

/-- On a registry whose caches are all allocated with no sweep loop running,
`Start` succeeds and starts exactly the caches whose frequency is positive. -/
theorem GTSCaches.Start_of_idle {E : Entity → Type} {P : Type} (cfg : Config)
    (a_account : ResultCache (E Entity.account) P)
    (a_accountNote : ResultCache (E Entity.accountNote) P)
    (a_block : ResultCache (E Entity.block) P)
    (a_blockIDs : SliceCache String)
    (a_domainBlock : Option BlockCache)
    (a_emoji : ResultCache (E Entity.emoji) P)
    (a_emojiCategory : ResultCache (E Entity.emojiCategory) P)
    (a_follow : ResultCache (E Entity.follow) P)
    (a_followIDs : SliceCache String)
    (a_followRequest : ResultCache (E Entity.followRequest) P)
    (a_followRequestIDs : SliceCache String)
    (a_instance_ : ResultCache (E Entity.instance_) P)
    (a_list : ResultCache (E Entity.list) P)
    (a_listEntry : ResultCache (E Entity.listEntry) P)
    (a_marker : ResultCache (E Entity.marker) P)
    (a_media : ResultCache (E Entity.media) P)
    (a_mention : ResultCache (E Entity.mention) P)
    (a_notification : ResultCache (E Entity.notification) P)
    (a_report : ResultCache (E Entity.report) P)
    (a_status : ResultCache (E Entity.status) P)
    (a_statusFave : ResultCache (E Entity.statusFave) P)
    (a_tag : ResultCache (E Entity.tag) P)
    (a_tombstone : ResultCache (E Entity.tombstone) P)
    (a_user : ResultCache (E Entity.user) P)
    (a_webfinger : TTLCache String)
    (h_account : a_account.sweeping = none)
    (h_accountNote : a_accountNote.sweeping = none)
    (h_block : a_block.sweeping = none)
    (h_blockIDs : a_blockIDs.Cache.sweeping = none)
    (h_emoji : a_emoji.sweeping = none)
    (h_emojiCategory : a_emojiCategory.sweeping = none)
    (h_follow : a_follow.sweeping = none)
    (h_followIDs : a_followIDs.Cache.sweeping = none)
    (h_followRequest : a_followRequest.sweeping = none)
    (h_followRequestIDs : a_followRequestIDs.Cache.sweeping = none)
    (h_instance_ : a_instance_.sweeping = none)
    (h_list : a_list.sweeping = none)
    (h_listEntry : a_listEntry.sweeping = none)
    (h_marker : a_marker.sweeping = none)
    (h_media : a_media.sweeping = none)
    (h_mention : a_mention.sweeping = none)
    (h_notification : a_notification.sweeping = none)
    (h_report : a_report.sweeping = none)
    (h_status : a_status.sweeping = none)
    (h_statusFave : a_statusFave.sweeping = none)
    (h_tag : a_tag.sweeping = none)
    (h_tombstone : a_tombstone.sweeping = none)
    (h_user : a_user.sweeping = none)
    (h_webfinger : a_webfinger.sweeping = none) :
    GTSCaches.Start cfg
      ({ account := some a_account,
         accountNote := some a_accountNote,
         block := some a_block,
         blockIDs := some a_blockIDs,
         domainBlock := a_domainBlock,
         emoji := some a_emoji,
         emojiCategory := some a_emojiCategory,
         follow := some a_follow,
         followIDs := some a_followIDs,
         followRequest := some a_followRequest,
         followRequestIDs := some a_followRequestIDs,
         instance_ := some a_instance_,
         list := some a_list,
         listEntry := some a_listEntry,
         marker := some a_marker,
         media := some a_media,
         mention := some a_mention,
         notification := some a_notification,
         report := some a_report,
         status := some a_status,
         statusFave := some a_statusFave,
         tag := some a_tag,
         tombstone := some a_tombstone,
         user := some a_user,
         webfinger := some a_webfinger } : GTSCaches E P)
      = some { account := some (a_account.startedIf cfg.Account.SweepFreq),
               accountNote := some (a_accountNote.startedIf cfg.AccountNote.SweepFreq),
               block := some (a_block.startedIf cfg.Block.SweepFreq),
               blockIDs := some { Cache := a_blockIDs.Cache.startedIf cfg.BlockIDs.SweepFreq },
               domainBlock := a_domainBlock,
               emoji := some (a_emoji.startedIf cfg.Emoji.SweepFreq),
               emojiCategory := some (a_emojiCategory.startedIf cfg.EmojiCategory.SweepFreq),
               follow := some (a_follow.startedIf cfg.Follow.SweepFreq),
               followIDs := some { Cache := a_followIDs.Cache.startedIf cfg.FollowIDs.SweepFreq },
               followRequest := some (a_followRequest.startedIf cfg.FollowRequest.SweepFreq),
               followRequestIDs := some { Cache := a_followRequestIDs.Cache.startedIf cfg.FollowRequestIDs.SweepFreq },
               instance_ := some (a_instance_.startedIf cfg.Instance.SweepFreq),
               list := some (a_list.startedIf cfg.List.SweepFreq),
               listEntry := some (a_listEntry.startedIf cfg.ListEntry.SweepFreq),
               marker := some (a_marker.startedIf cfg.Marker.SweepFreq),
               media := some (a_media.startedIf cfg.Media.SweepFreq),
               mention := some (a_mention.startedIf cfg.Mention.SweepFreq),
               notification := some (a_notification.startedIf cfg.Notification.SweepFreq),
               report := some (a_report.startedIf cfg.Report.SweepFreq),
               status := some (a_status.startedIf cfg.Status.SweepFreq),
               statusFave := some (a_statusFave.startedIf cfg.StatusFave.SweepFreq),
               tag := some (a_tag.startedIf cfg.Tag.SweepFreq),
               tombstone := some (a_tombstone.startedIf cfg.Tombstone.SweepFreq),
               user := some (a_user.startedIf cfg.User.SweepFreq),
               webfinger := some (a_webfinger.startedIf cfg.Webfinger.SweepFreq) } := by
  simp only [GTSCaches.Start, Option.some_bind, Option.map_some',
    tryStart_idle a_account cfg.Account.SweepFreq h_account,
    tryStart_idle a_accountNote cfg.AccountNote.SweepFreq h_accountNote,
    tryStart_idle a_block cfg.Block.SweepFreq h_block,
    tryUntil_start_slice "starting block IDs cache" a_blockIDs cfg.BlockIDs.SweepFreq h_blockIDs,
    tryStart_idle a_emoji cfg.Emoji.SweepFreq h_emoji,
    tryStart_idle a_emojiCategory cfg.EmojiCategory.SweepFreq h_emojiCategory,
    tryStart_idle a_follow cfg.Follow.SweepFreq h_follow,
    tryUntil_start_slice "starting follow IDs cache" a_followIDs cfg.FollowIDs.SweepFreq h_followIDs,
    tryStart_idle a_followRequest cfg.FollowRequest.SweepFreq h_followRequest,
    tryUntil_start_slice "starting follow request IDs cache" a_followRequestIDs cfg.FollowRequestIDs.SweepFreq h_followRequestIDs,
    tryStart_idle a_instance_ cfg.Instance.SweepFreq h_instance_,
    tryStart_idle a_list cfg.List.SweepFreq h_list,
    tryStart_idle a_listEntry cfg.ListEntry.SweepFreq h_listEntry,
    tryStart_idle a_marker cfg.Marker.SweepFreq h_marker,
    tryStart_idle a_media cfg.Media.SweepFreq h_media,
    tryStart_idle a_mention cfg.Mention.SweepFreq h_mention,
    tryStart_idle a_notification cfg.Notification.SweepFreq h_notification,
    tryStart_idle a_report cfg.Report.SweepFreq h_report,
    tryStart_idle a_status cfg.Status.SweepFreq h_status,
    tryStart_idle a_statusFave cfg.StatusFave.SweepFreq h_statusFave,
    tryStart_idle a_tag cfg.Tag.SweepFreq h_tag,
    tryStart_idle a_tombstone cfg.Tombstone.SweepFreq h_tombstone,
    tryStart_idle a_user cfg.User.SweepFreq h_user,
    tryUntil_start_ttl "starting *gtsmodel.Webfinger cache" a_webfinger cfg.Webfinger.SweepFreq h_webfinger]

/-! ## GTSCaches: Start, Stop and allocation -/

/-- C11: the sweep loops `Stop` stops, which should be those `Start` started.
`Stop` consults the notification frequency for the mention cache: with
mention sweeping enabled and notification sweeping disabled, `Start` starts
the mention sweep loop and `Stop` returns leaving it running; with mention
sweeping disabled and notification sweeping enabled, `Stop` panics on the
mention cache that was never started; with equal frequencies every loop is
stopped. -/
theorem GTSCaches.Stop_leaves_mention_sweeping :
    exConfigMention.Mention.SweepFreq = 10 ∧ exConfigMention.Notification.SweepFreq = 0 ∧
    (((GTSCaches.Init exConfigMention () ({} : GTSCaches (gtsmodel Unit) Unit)).bind
        (GTSCaches.Start exConfigMention)).bind (fun c => c.mention)).map
        (fun rc => rc.sweeping) = some (some 10) ∧
    ((startStop exConfigMention).bind (fun c => c.mention)).map
        (fun rc => rc.sweeping) = some (some 10) ∧
    exConfigNotification.Mention.SweepFreq = 0 ∧
    exConfigNotification.Notification.SweepFreq = 10 ∧
    ((GTSCaches.Init exConfigNotification () ({} : GTSCaches (gtsmodel Unit) Unit)).bind
        (GTSCaches.Start exConfigNotification)).isSome = true ∧
    startStop exConfigNotification = none ∧
    ((startStop exConfig).bind (fun c => c.mention)).map
        (fun rc => rc.sweeping) = some none ∧
    ((startStop exConfig).bind (fun c => c.notification)).map
        (fun rc => rc.sweeping) = some none := by
  exact ⟨rfl, rfl, rfl, rfl, rfl, rfl, rfl, rfl, rfl, rfl⟩

/-- C12 as stated fails: with the negative sweep frequency -1 configured for
the block IDs cache, which is non-zero, `Start` succeeds and does not start
the sweep loop of that cache, while the caches with frequency 10 sweep. -/
theorem GTSCaches.Start_skips_negative_frequency :
    exConfigNegative.BlockIDs.SweepFreq = -1 ∧
    (((GTSCaches.Init exConfigNegative () ({} : GTSCaches (gtsmodel Unit) Unit)).bind
        (GTSCaches.Start exConfigNegative)).bind (fun c => c.blockIDs)).map
        (fun sc => sc.Cache.sweeping) = some none ∧
    (((GTSCaches.Init exConfigNegative () ({} : GTSCaches (gtsmodel Unit) Unit)).bind
        (GTSCaches.Start exConfigNegative)).bind (fun c => c.followIDs)).map
        (fun sc => sc.Cache.sweeping) = some (some 10) := by
  refine ⟨rfl, rfl, rfl⟩

/-- C12 (amended): after `Init`, `Start` succeeds for every configuration and
leaves each cache sweeping at its own configured frequency when that
frequency is greater than zero, and with no sweep loop when it is zero or
negative; this holds for the twenty result caches, the three ID-list caches
and the webfinger cache. -/
theorem GTSCaches.Start_starts_positive_frequencies {E : Entity → Type} {P : Type}
    [∀ e, Inhabited (E e)] (cfg : Config) (ignoreErrors : P) :
    ∃ c1 c2, GTSCaches.Init cfg ignoreErrors ({} : GTSCaches E P) = some c1 ∧
      GTSCaches.Start cfg c1 = some c2 ∧
      (∀ e, (c2.resultCache e).map (fun rc => rc.sweeping) =
        some (if cfg.sweepOf e > 0 then some (cfg.sweepOf e) else none)) ∧
      c2.blockIDs.map (fun sc => sc.Cache.sweeping) =
        some (if cfg.BlockIDs.SweepFreq > 0 then some cfg.BlockIDs.SweepFreq else none) ∧
      c2.followIDs.map (fun sc => sc.Cache.sweeping) =
        some (if cfg.FollowIDs.SweepFreq > 0 then some cfg.FollowIDs.SweepFreq else none) ∧
      c2.followRequestIDs.map (fun sc => sc.Cache.sweeping) =
        some (if cfg.FollowRequestIDs.SweepFreq > 0
              then some cfg.FollowRequestIDs.SweepFreq else none) ∧
      c2.webfinger.map (fun wc => wc.sweeping) =
        some (if cfg.Webfinger.SweepFreq > 0 then some cfg.Webfinger.SweepFreq else none) := by
  refine ⟨_, _, rfl,
    GTSCaches.Start_of_idle cfg _ _ _ _ _ _ _ _ _ _ _ _ _ _ _ _ _ _ _ _ _ _ _ _ _
      rfl rfl rfl rfl rfl rfl rfl rfl rfl rfl rfl rfl rfl rfl rfl rfl rfl rfl rfl rfl rfl rfl rfl rfl, fun e => ?_,
    congrArg some (TTLCache.startedIf_sweeping_ttl _ _ rfl),
    congrArg some (TTLCache.startedIf_sweeping_ttl _ _ rfl),
    congrArg some (TTLCache.startedIf_sweeping_ttl _ _ rfl),
    congrArg some (TTLCache.startedIf_sweeping_ttl _ _ rfl)⟩
  cases e <;> exact congrArg some (ResultCache.startedIf_sweeping _ _ rfl)

/-- C13: from a zero-valued `GTSCaches`, `Init` runs to completion for every
configuration, no initializer calling a method on a nil cache, and afterwards
every accessor returns an allocated cache. -/
theorem GTSCaches.Init_allocates_every_cache {E : Entity → Type} {P : Type}
    [∀ e, Inhabited (E e)] (cfg : Config) (ignoreErrors : P) :
    ∃ c, GTSCaches.Init cfg ignoreErrors ({} : GTSCaches E P) = some c ∧
      c.Account.isSome = true ∧ c.AccountNote.isSome = true ∧ c.Block.isSome = true ∧
      c.BlockIDs.isSome = true ∧ c.DomainBlock.isSome = true ∧ c.Emoji.isSome = true ∧
      c.EmojiCategory.isSome = true ∧ c.Follow.isSome = true ∧ c.FollowIDs.isSome = true ∧
      c.FollowRequest.isSome = true ∧ c.FollowRequestIDs.isSome = true ∧
      c.Instance.isSome = true ∧ c.List.isSome = true ∧ c.ListEntry.isSome = true ∧
      c.Marker.isSome = true ∧ c.Media.isSome = true ∧ c.Mention.isSome = true ∧
      c.Notification.isSome = true ∧ c.Report.isSome = true ∧ c.Status.isSome = true ∧
      c.StatusFave.isSome = true ∧ c.Tag.isSome = true ∧ c.Tombstone.isSome = true ∧
      c.User.isSome = true ∧ c.Webfinger.isSome = true := by
  exact ⟨_, rfl, rfl, rfl, rfl, rfl, rfl, rfl, rfl, rfl, rfl, rfl, rfl, rfl, rfl, rfl, rfl, rfl, rfl, rfl, rfl, rfl, rfl, rfl, rfl, rfl, rfl⟩

/-! ## Pagination lemmas -/

set_option maxRecDepth 100000 in
/-- The model reproduces the responses that the tests of the list accounts
endpoint expect: the default limit, the two pages at limit 1, and limit 0. -/
theorem ListAccountsGET_matches_tests :
    ListAccountsGET testPath testIDs "" "" "" 40 =
      { accounts := testIDs
        link := "<http://localhost:8080/api/v1/lists/01H0G8E4Q2J3FE3JDWJVWEDCD1/accounts?limit=40&max_id=01H0G89MWVQE0M58VD2HQYMQWH>; rel=\"next\", <http://localhost:8080/api/v1/lists/01H0G8E4Q2J3FE3JDWJVWEDCD1/accounts?limit=40&min_id=01H0G8FFM1AGQDRNGBGGX8CYJQ>; rel=\"prev\"" } ∧
    ListAccountsGET testPath testIDs "" "" "" 1 =
      { accounts := ["01H0G8FFM1AGQDRNGBGGX8CYJQ"]
        link := "<http://localhost:8080/api/v1/lists/01H0G8E4Q2J3FE3JDWJVWEDCD1/accounts?limit=1&max_id=01H0G8FFM1AGQDRNGBGGX8CYJQ>; rel=\"next\", <http://localhost:8080/api/v1/lists/01H0G8E4Q2J3FE3JDWJVWEDCD1/accounts?limit=1&min_id=01H0G8FFM1AGQDRNGBGGX8CYJQ>; rel=\"prev\"" } ∧
    ListAccountsGET testPath testIDs "01H0G8FFM1AGQDRNGBGGX8CYJQ" "" "" 1 =
      { accounts := ["01H0G89MWVQE0M58VD2HQYMQWH"]
        link := "<http://localhost:8080/api/v1/lists/01H0G8E4Q2J3FE3JDWJVWEDCD1/accounts?limit=1&max_id=01H0G89MWVQE0M58VD2HQYMQWH>; rel=\"next\", <http://localhost:8080/api/v1/lists/01H0G8E4Q2J3FE3JDWJVWEDCD1/accounts?limit=1&min_id=01H0G89MWVQE0M58VD2HQYMQWH>; rel=\"prev\"" } ∧
    ListAccountsGET testPath testIDs "" "" "" 0 = { accounts := testIDs, link := "" } := by
  refine ⟨?_, ?_, ?_, ?_⟩ <;> decide

theorem paginate_of_pos (ids : List String) (maxID sinceID minID : String) (limit : Nat)
    (h : 0 < limit) :
    paginate ids maxID sinceID minID limit =
      ((ids.filter (fun id => decide (maxID = "" ∨ id.toList < maxID.toList))).filter
        (fun id => decide ((sinceID = "" ∨ sinceID.toList < id.toList) ∧
          (minID = "" ∨ minID.toList < id.toList)))).take limit := by
  simp [paginate, Nat.ne_of_gt h]

theorem paginate_mem (ids : List String) (maxID sinceID minID : String) (limit : Nat)
    (h : 0 < limit) (id : String) (hid : id ∈ paginate ids maxID sinceID minID limit) :
    id ∈ ids ∧ (maxID = "" ∨ id.toList < maxID.toList) ∧
      (sinceID = "" ∨ sinceID.toList < id.toList) ∧
      (minID = "" ∨ minID.toList < id.toList) := by
  rw [paginate_of_pos ids maxID sinceID minID limit h] at hid
  have h1 := List.mem_of_mem_take hid
  simp only [List.mem_filter, decide_eq_true_eq] at h1
  exact ⟨h1.1.1, h1.1.2, h1.2.1, h1.2.2⟩

/-! ## Keyset pagination -/

/-- C14: for a paginated request (limit greater than zero) whose page is not
empty, the cursor links are a next link whose `max_id` is the last (oldest)
ID of the page and a prev link whose `min_id` is the first (newest) ID of the
page, each with the endpoint path and the request's limit, and the `Link`
header is the two rendered links. -/
theorem cursorLinks_of_page (path : String) (ids : List String)
    (maxID sinceID minID : String) (limit : Nat) (hl : 0 < limit)
    (hne : paginate ids maxID sinceID minID limit ≠ []) :
    ∃ newest oldest,
      (paginate ids maxID sinceID minID limit).head? = some newest ∧
      (paginate ids maxID sinceID minID limit).getLast? = some oldest ∧
      cursorLinks path limit (paginate ids maxID sinceID minID limit) =
        [⟨"next", path, limit, "max_id", oldest⟩, ⟨"prev", path, limit, "min_id", newest⟩] ∧
      (ListAccountsGET path ids maxID sinceID minID limit).link =
        "<" ++ path ++ "?limit=" ++ toString limit ++ "&max_id=" ++ oldest
            ++ ">; rel=\"next\""
          ++ ", "
          ++ ("<" ++ path ++ "?limit=" ++ toString limit ++ "&min_id=" ++ newest
            ++ ">; rel=\"prev\"") := by
  cases hp : paginate ids maxID sinceID minID limit with
  | nil => exact absurd hp hne
  | cons x xs =>
    have hlast : (x :: xs).getLast? = some ((x :: xs).getLast (List.cons_ne_nil x xs)) :=
      List.getLast?_eq_getLast _ _
    have hlinks : cursorLinks path limit (x :: xs) =
        [⟨"next", path, limit, "max_id", (x :: xs).getLast (List.cons_ne_nil x xs)⟩,
         ⟨"prev", path, limit, "min_id", x⟩] := by
      simp only [cursorLinks, Nat.ne_of_gt hl, if_false, List.head?_cons, hlast]
    refine ⟨x, (x :: xs).getLast (List.cons_ne_nil x xs), rfl, hlast, hlinks, ?_⟩
    simp only [ListAccountsGET, hp, hlinks, List.map_cons, List.map_nil, CursorLink.render,
      String.intercalate, String.intercalate.go]
    simp [String.append_assoc]

theorem cursorLinks_of_page_witness :
    0 < 40 ∧ paginate testIDs "" "" "" 40 ≠ [] ∧
    0 < 1 ∧ paginate testIDs "" "" "" 1 ≠ [] ∧
    (∃ newest oldest,
      (paginate testIDs "" "" "" 40).head? = some newest ∧
      (paginate testIDs "" "" "" 40).getLast? = some oldest ∧
      cursorLinks testPath 40 (paginate testIDs "" "" "" 40) =
        [⟨"next", testPath, 40, "max_id", oldest⟩, ⟨"prev", testPath, 40, "min_id", newest⟩] ∧
      (ListAccountsGET testPath testIDs "" "" "" 40).link =
        "<" ++ testPath ++ "?limit=" ++ toString 40 ++ "&max_id=" ++ oldest
            ++ ">; rel=\"next\""
          ++ ", "
          ++ ("<" ++ testPath ++ "?limit=" ++ toString 40 ++ "&min_id=" ++ newest
            ++ ">; rel=\"prev\"")) ∧
    cursorLinks testPath 40 (paginate testIDs "" "" "" 40) =
      [⟨"next", testPath, 40, "max_id", "01H0G89MWVQE0M58VD2HQYMQWH"⟩,
       ⟨"prev", testPath, 40, "min_id", "01H0G8FFM1AGQDRNGBGGX8CYJQ"⟩] ∧
    cursorLinks testPath 1 (paginate testIDs "" "" "" 1) =
      [⟨"next", testPath, 1, "max_id", "01H0G8FFM1AGQDRNGBGGX8CYJQ"⟩,
       ⟨"prev", testPath, 1, "min_id", "01H0G8FFM1AGQDRNGBGGX8CYJQ"⟩] :=
  ⟨by decide, by decide, by decide, by decide,
   cursorLinks_of_page testPath testIDs "" "" "" 40 (by decide) (by decide),
   by decide, by decide⟩

/-- C15: for a paginated request (limit greater than zero) the page is what
remains of the list, in list order and at most `limit` long, after the
bounds: with `max_id` given the page is made of IDs strictly older than it
and never contains it, and without `since_id` and `min_id` it is exactly the
first `limit` such IDs; with `since_id` or `min_id` given every ID of the
page is strictly newer than it and the page never contains it. -/
theorem paginate_bounds_exclusive (ids : List String) (maxID sinceID minID : String)
    (limit : Nat) (hl : 0 < limit) :
    (paginate ids maxID sinceID minID limit).Sublist ids ∧
    (paginate ids maxID sinceID minID limit).length ≤ limit ∧
    (maxID ≠ "" →
      maxID ∉ paginate ids maxID sinceID minID limit ∧
      (∀ id ∈ paginate ids maxID sinceID minID limit, id.toList < maxID.toList) ∧
      paginate ids maxID "" "" limit
        = (ids.filter (fun id => decide (id.toList < maxID.toList))).take limit) ∧
    (sinceID ≠ "" →
      sinceID ∉ paginate ids maxID sinceID minID limit ∧
      ∀ id ∈ paginate ids maxID sinceID minID limit, sinceID.toList < id.toList) ∧
    (minID ≠ "" →
      minID ∉ paginate ids maxID sinceID minID limit ∧
      ∀ id ∈ paginate ids maxID sinceID minID limit, minID.toList < id.toList) := by
  have hmem := paginate_mem ids maxID sinceID minID limit hl
  refine ⟨?_, ?_, fun hx => ⟨fun hin => ?_, fun id hid => ?_, ?_⟩,
    fun hy => ⟨fun hin => ?_, fun id hid => ?_⟩, fun hy => ⟨fun hin => ?_, fun id hid => ?_⟩⟩
  · rw [paginate_of_pos ids maxID sinceID minID limit hl]
    exact (List.take_sublist _ _).trans ((List.filter_sublist _).trans (List.filter_sublist _))
  · rw [paginate_of_pos ids maxID sinceID minID limit hl]
    exact List.length_take_le _ _
  · rcases (hmem maxID hin).2.1 with h | h
    · exact hx h
    · exact lt_irrefl _ h
  · rcases (hmem id hid).2.1 with h | h
    · exact absurd h hx
    · exact h
  · rw [paginate_of_pos ids maxID "" "" limit hl]
    simp [hx]
  · rcases (hmem sinceID hin).2.2.1 with h | h
    · exact hy h
    · exact lt_irrefl _ h
  · rcases (hmem id hid).2.2.1 with h | h
    · exact absurd h hy
    · exact h
  · rcases (hmem minID hin).2.2.2 with h | h
    · exact hy h
    · exact lt_irrefl _ h
  · rcases (hmem id hid).2.2.2 with h | h
    · exact absurd h hy
    · exact h

theorem paginate_bounds_exclusive_witness :
    0 < 1 ∧
    paginate testIDs "01H0G8FFM1AGQDRNGBGGX8CYJQ" "" "" 1 = ["01H0G89MWVQE0M58VD2HQYMQWH"] ∧
    "01H0G8FFM1AGQDRNGBGGX8CYJQ" ∉ paginate testIDs "01H0G8FFM1AGQDRNGBGGX8CYJQ" "" "" 1 :=
  ⟨by decide, by decide,
   ((paginate_bounds_exclusive testIDs "01H0G8FFM1AGQDRNGBGGX8CYJQ" "" "" 1
      (by decide)).2.2.1 (by decide)).1⟩

/-- C16: a request with limit 0 returns the whole ID list, in order, whatever
the cursor parameters, and its `Link` header is empty. -/
theorem ListAccountsGET_unpaginated (path : String) (ids : List String)
    (maxID sinceID minID : String) :
    (ListAccountsGET path ids maxID sinceID minID 0).accounts = ids ∧
    cursorLinks path 0 (paginate ids maxID sinceID minID 0) = [] ∧
    (ListAccountsGET path ids maxID sinceID minID 0).link = "" := by
  refine ⟨?_, ?_, ?_⟩
  · simp [ListAccountsGET, paginate]
  · simp [cursorLinks]
  · simp [ListAccountsGET, cursorLinks]
    rfl

/-! ## go-pctx lemmas -/

theorem Key.eq_ne_none_left (a b : Key) (h : a.typ.comparable = true) : a.eq b ≠ none := by
  unfold Key.eq
  split_ifs <;> simp_all

theorem Key.eq_ne_none_right (a b : Key) (h : b.typ.comparable = true) : a.eq b ≠ none := by
  unfold Key.eq
  split_ifs with h1 h2
  · simp
  · rw [h1] at h2
    exact absurd h h2
  · simp

theorem Key.eq_true_iff (a b : Key) :
    a.eq b = some true ↔ a = b ∧ a.typ.comparable = true ∧ a.nan = false := by
  obtain ⟨at1, av, an⟩ := a
  obtain ⟨bt, bv, bn⟩ := b
  unfold Key.eq
  constructor
  · intro h
    split_ifs at h with h1 h2
    · simp only [Option.some.injEq, Bool.and_eq_true, decide_eq_true_eq, Bool.not_eq_true'] at h
      simp only at h1 h2
      obtain ⟨⟨hv, ha⟩, hb⟩ := h
      subst h1 hv ha hb
      exact ⟨rfl, h2, rfl⟩
    · simp at h
  · rintro ⟨he, hc, hn⟩
    simp only [Key.mk.injEq] at he
    obtain ⟨rfl, rfl, rfl⟩ := he
    simp only at hc hn
    simp [hc, hn]

theorem Key.eq_of_true (a b : Key) (h : a.eq b = some true) : a = b :=
  ((Key.eq_true_iff a b).1 h).1

theorem Key.comparable_of_self (k : Key) (h : k.eq k = some true) : k.typ.comparable = true :=
  ((Key.eq_true_iff k k).1 h).2.1

/-- A key that `==` finds equal to itself is found equal to exactly itself,
on the left. -/
theorem Key.eq_left_of_self (k k1 : Key) (h : k.eq k = some true) :
    k.eq k1 = some (decide (k = k1)) := by
  have hc := Key.comparable_of_self k h
  cases hr : k.eq k1 with
  | none => exact absurd hr (Key.eq_ne_none_left k k1 hc)
  | some b =>
    cases b with
    | true => simp [Key.eq_of_true k k1 hr]
    | false =>
      have hne : k ≠ k1 := by
        intro e
        rw [← e, h] at hr
        cases hr
      simp [hne]

/-- A key that `==` finds equal to itself is found equal to exactly itself,
on the right. -/
theorem Key.eq_right_of_self (k k1 : Key) (h : k.eq k = some true) :
    k1.eq k = some (decide (k1 = k)) := by
  have hc := Key.comparable_of_self k h
  cases hr : k1.eq k with
  | none => exact absurd hr (Key.eq_ne_none_right k1 k hc)
  | some b =>
    cases b with
    | true => simp [Key.eq_of_true k1 k hr]
    | false =>
      have hne : k1 ≠ k := by
        intro e
        rw [e, h] at hr
        cases hr
      simp [hne]

theorem persistkey_eq_self : persistkey.eq persistkey = some true := by
  decide

theorem ridCtxKey_eq_self : ridCtxKey.eq ridCtxKey = some true := by
  decide

/-- The loop of `Set` does not panic on a key of a comparable type. -/
theorem PersistCtx.setLoop_ne_none (key : Key) (value : Any) (hc : key.typ.comparable = true) :
    ∀ (vs : List (Key × Any)), PersistCtx.setLoop key value vs ≠ none
  | [] => by simp [PersistCtx.setLoop]
  | (k, v) :: rest => by
    have ih := PersistCtx.setLoop_ne_none key value hc rest
    unfold PersistCtx.setLoop
    cases hr : key.eq k with
    | none => exact absurd hr (Key.eq_ne_none_left key k hc)
    | some b =>
      cases b with
      | true => simp
      | false =>
        simp only [ne_eq, Option.map_eq_none']
        exact ih

/-- The loop of `Value` does not panic on a key of a comparable type. -/
theorem PersistCtx.valueLoop_ne_none (key : Key) (hc : key.typ.comparable = true) :
    ∀ (vs : List (Key × Any)), PersistCtx.valueLoop key vs ≠ none
  | [] => by simp [PersistCtx.valueLoop]
  | (k, v) :: rest => by
    have ih := PersistCtx.valueLoop_ne_none key hc rest
    unfold PersistCtx.valueLoop
    cases hr : key.eq k with
    | none => exact absurd hr (Key.eq_ne_none_left key k hc)
    | some b =>
      cases b with
      | true => simp
      | false => exact ih

/-- `Value` does not panic on a key of a comparable type. -/
theorem Context.Value_ne_none (st : PersistStore) (key : Key)
    (hc : key.typ.comparable = true) :
    ∀ (ctx : Context), ctx.Value st key ≠ none
  | Context.background => by simp [Context.Value]
  | Context.withValue parent k v => by
    have ih := Context.Value_ne_none st key hc parent
    unfold Context.Value
    cases hr : k.eq key with
    | none => exact absurd hr (Key.eq_ne_none_right k key hc)
    | some b =>
      cases b with
      | true => simp
      | false => exact ih
  | Context.persist addr base => by
    have ih := Context.Value_ne_none st key hc base
    unfold Context.Value
    cases hr : key.eq persistkey with
    | none => exact absurd hr (Key.eq_ne_none_left key persistkey hc)
    | some b =>
      cases b with
      | true => simp
      | false =>
        cases hl : PersistCtx.valueLoop key (st.getD addr []) with
        | none => exact absurd hl (PersistCtx.valueLoop_ne_none key hc _)
        | some o =>
          cases o with
          | none => exact ih
          | some val => simp

theorem PersistCtx.valueLoop_setLoop (key : Key) (value : Any) :
    ∀ (vs vs1 : List (Key × Any)), PersistCtx.setLoop key value vs = some (some vs1) →
      PersistCtx.valueLoop key vs1 = some (some value)
  | [], _, h => by simp [PersistCtx.setLoop] at h
  | (k, v) :: rest, vs1, h => by
    unfold PersistCtx.setLoop at h
    cases hr : key.eq k with
    | none => simp [hr] at h
    | some b =>
      cases b with
      | true =>
        simp only [hr, Option.some.injEq] at h
        subst h
        simp [PersistCtx.valueLoop, hr]
      | false =>
        simp only [hr] at h
        cases hs : PersistCtx.setLoop key value rest with
        | none => simp [hs] at h
        | some o =>
          cases o with
          | none => simp [hs] at h
          | some r =>
            simp only [hs, Option.map_some', Option.some.injEq] at h
            subst h
            simp only [PersistCtx.valueLoop, hr]
            exact PersistCtx.valueLoop_setLoop key value rest r hs

theorem PersistCtx.valueLoop_append (key : Key) (value : Any) (hk : key.eq key = some true) :
    ∀ (vs : List (Key × Any)), PersistCtx.setLoop key value vs = some none →
      PersistCtx.valueLoop key (vs ++ [(key, value)]) = some (some value)
  | [], _ => by simp [PersistCtx.valueLoop, hk]
  | (k, v) :: rest, h => by
    unfold PersistCtx.setLoop at h
    cases hr : key.eq k with
    | none => simp [hr] at h
    | some b =>
      cases b with
      | true => simp [hr] at h
      | false =>
        simp only [hr] at h
        have hs : PersistCtx.setLoop key value rest = some none := by
          cases hs : PersistCtx.setLoop key value rest with
          | none => simp [hs] at h
          | some o =>
            cases o with
            | none => rfl
            | some r => simp [hs] at h
        simp only [List.cons_append, PersistCtx.valueLoop, hr]
        exact PersistCtx.valueLoop_append key value hk rest hs

theorem PersistStore.getD_set (st : PersistStore) (addr : Nat) (vs : List (Key × Any))
    (h : addr < st.length) : (st.set addr vs).getD addr [] = vs := by
  simp [List.getD_eq_getElem?_getD, List.getElem?_set, h]

theorem PersistStore.getD_set_any (st : PersistStore) (addr : Nat) (vs : List (Key × Any)) :
    (st.set addr vs).getD addr [] = if addr < st.length then vs else [] := by
  by_cases h : addr < st.length
  · simp [List.getD_eq_getElem?_getD, List.getElem?_set, h]
  · have h2 : st.length ≤ addr := Nat.le_of_not_lt h
    simp [List.getD_eq_getElem?_getD, List.getElem?_set, h, List.getElem?_eq_none h2]

/-- `Set` with a key of a comparable type does not panic: it overwrites the
pairs of the one `PersistCtx`, with the list the loop returns or with the old
list and the new pair appended. -/
theorem PersistCtx.Set_eq_some (st : PersistStore) (addr : Nat) (key : Key) (value : Any)
    (hc : key.typ.comparable = true) :
    ∃ vs1, PersistCtx.Set st addr key value = some (st.set addr vs1) ∧
      (PersistCtx.setLoop key value (st.getD addr []) = some (some vs1) ∨
        (PersistCtx.setLoop key value (st.getD addr []) = some none ∧
          vs1 = st.getD addr [] ++ [(key, value)])) := by
  unfold PersistCtx.Set
  cases hs : PersistCtx.setLoop key value (st.getD addr []) with
  | none => exact absurd hs (PersistCtx.setLoop_ne_none key value hc _)
  | some o =>
    cases o with
    | none => exact ⟨_, rfl, Or.inr ⟨rfl, rfl⟩⟩
    | some vs => exact ⟨vs, rfl, Or.inl rfl⟩

/-- After `Set(k, v)` with a key that `==` finds equal to itself, the loop of
`Value` finds `v` under `k`. -/
theorem PersistCtx.valueLoop_Set (st : PersistStore) (addr : Nat) (key : Key) (value : Any)
    (h : addr < st.length) (hk : key.eq key = some true) :
    ∃ st1, PersistCtx.Set st addr key value = some st1 ∧ st1.length = st.length ∧
      PersistCtx.valueLoop key (st1.getD addr []) = some (some value) := by
  obtain ⟨vs1, hset, hcase⟩ :=
    PersistCtx.Set_eq_some st addr key value (Key.comparable_of_self key hk)
  refine ⟨_, hset, by simp, ?_⟩
  rw [PersistStore.getD_set st addr _ h]
  rcases hcase with hs | ⟨hs, rfl⟩
  · exact PersistCtx.valueLoop_setLoop key value _ vs1 hs
  · exact PersistCtx.valueLoop_append key value hk _ hs

theorem Context.hasPersist_of_found (st : PersistStore) (a : Nat) (b : Context) :
    ∀ (ctx : Context), ctx.WF st → ctx.Value st persistkey = some (Any.persistCtx a b) →
      ctx.hasPersist = true
  | Context.background, _, h => by simp [Context.Value] at h
  | Context.withValue parent k _, hwf, h => by
    have hk : k.eq persistkey = some false := by
      rw [Key.eq_right_of_self persistkey k persistkey_eq_self]
      simp [hwf.1]
    simp only [Context.Value, hk] at h
    exact Context.hasPersist_of_found st a b parent hwf.2 h
  | Context.persist _ _, _, _ => rfl

theorem Context.found_of_hasPersist (st : PersistStore) :
    ∀ (ctx : Context), ctx.WF st → ctx.hasPersist = true →
      ∃ a b, ctx.Value st persistkey = some (Any.persistCtx a b)
  | Context.background, _, h => by cases h
  | Context.withValue parent k _, hwf, h => by
    have hk : k.eq persistkey = some false := by
      rw [Key.eq_right_of_self persistkey k persistkey_eq_self]
      simp [hwf.1]
    simp only [Context.Value, hk]
    exact Context.found_of_hasPersist st parent hwf.2 h
  | Context.persist addr base, _, _ => ⟨addr, base, by simp [Context.Value, persistkey_eq_self]⟩

theorem Context.found_addr_lt (st : PersistStore) (a : Nat) (b : Context) :
    ∀ (ctx : Context), ctx.WF st → ctx.Value st persistkey = some (Any.persistCtx a b) →
      a < st.length
  | Context.background, _, h => by simp [Context.Value] at h
  | Context.withValue parent k _, hwf, h => by
    have hk : k.eq persistkey = some false := by
      rw [Key.eq_right_of_self persistkey k persistkey_eq_self]
      simp [hwf.1]
    simp only [Context.Value, hk] at h
    exact Context.found_addr_lt st a b parent hwf.2 h
  | Context.persist addr base, hwf, h => by
    simp only [Context.Value, persistkey_eq_self, Option.some.injEq, Any.persistCtx.injEq] at h
    rw [← h.1]
    exact hwf.1

/-- The value of a `*PersistCtx` for a key other than the persist key that
`==` finds equal to itself, once the loop of `Value` finds the key. -/
theorem Context.Value_persist_of_loop (st : PersistStore) (addr : Nat) (base : Context)
    (k : Key) (v : Any) (hk : k.eq k = some true) (hne : k ≠ persistkey)
    (hl : PersistCtx.valueLoop k (st.getD addr []) = some (some v)) :
    (Context.persist addr base).Value st k = some v := by
  have hp : k.eq persistkey = some false := by
    rw [Key.eq_left_of_self k persistkey hk]
    simp [hne]
  simp only [Context.Value, hp, hl]

/-- Storing a pair in the `*PersistCtx` found on the stack makes it visible
from the top of the stack unless a layer above shadows the key. -/
theorem Context.Value_Set_found (st st1 : PersistStore) (a : Nat) (b : Context)
    (k : Key) (v : Any) (hk : k.eq k = some true) (hne : k ≠ persistkey)
    (hl : PersistCtx.valueLoop k (st1.getD a []) = some (some v)) :
    ∀ (ctx : Context), ctx.WF st → ctx.shadows k = false →
      ctx.Value st persistkey = some (Any.persistCtx a b) →
      ctx.Value st1 k = some v
  | Context.background, _, _, h => by simp [Context.Value] at h
  | Context.withValue parent k1 v1, hwf, hs, h => by
    have hpk : k1.eq persistkey = some false := by
      rw [Key.eq_right_of_self persistkey k1 persistkey_eq_self]
      simp [hwf.1]
    simp only [Context.Value, hpk] at h
    have hp : parent.hasPersist = true := Context.hasPersist_of_found st a b parent hwf.2 h
    simp only [Context.shadows, hp, Bool.and_true, Bool.or_eq_false_iff] at hs
    have hk1 : k1.eq k = some false := by
      have h1 := Key.eq_right_of_self k k1 hk
      by_cases he : k1 = k
      · rw [h1] at hs
        simp [he] at hs
      · rw [h1]
        simp [he]
    simp only [Context.Value, hk1]
    exact Context.Value_Set_found st st1 a b k v hk hne hl parent hwf.2 hs.1 h
  | Context.persist addr base, _, _, h => by
    simp only [Context.Value, persistkey_eq_self, Option.some.injEq, Any.persistCtx.injEq] at h
    obtain ⟨rfl, rfl⟩ := h
    exact Context.Value_persist_of_loop st1 addr base k v hk hne hl

theorem PersistCtx.valueLoop_setLoop_ne (k k2 : Key) (v : Any) (hne : k2.eq k ≠ some true) :
    ∀ (vs vs1 : List (Key × Any)), PersistCtx.setLoop k v vs = some (some vs1) →
      PersistCtx.valueLoop k2 vs1 = PersistCtx.valueLoop k2 vs
  | [], _, h => by simp [PersistCtx.setLoop] at h
  | (k1, v1) :: rest, vs1, h => by
    unfold PersistCtx.setLoop at h
    cases hr : k.eq k1 with
    | none => simp [hr] at h
    | some b =>
      cases b with
      | true =>
        simp only [hr, Option.some.injEq] at h
        subst h
        have hkk : k = k1 := Key.eq_of_true k k1 hr
        have h2 : k2.eq k1 ≠ some true := by
          rw [← hkk]
          exact hne
        cases hq : k2.eq k1 with
        | none => simp [PersistCtx.valueLoop, hq]
        | some c =>
          cases c with
          | true => exact absurd hq h2
          | false => simp [PersistCtx.valueLoop, hq]
      | false =>
        simp only [hr] at h
        cases hs : PersistCtx.setLoop k v rest with
        | none => simp [hs] at h
        | some o =>
          cases o with
          | none => simp [hs] at h
          | some r =>
            simp only [hs, Option.map_some', Option.some.injEq] at h
            subst h
            simp only [PersistCtx.valueLoop,
              PersistCtx.valueLoop_setLoop_ne k k2 v hne rest r hs]

theorem PersistCtx.valueLoop_append_ne (k k2 : Key) (v : Any)
    (hc : k.typ.comparable = true) (hne : k2.eq k ≠ some true) :
    ∀ (vs : List (Key × Any)),
      PersistCtx.valueLoop k2 (vs ++ [(k, v)]) = PersistCtx.valueLoop k2 vs
  | [] => by
    cases hq : k2.eq k with
    | none => exact absurd hq (Key.eq_ne_none_right k2 k hc)
    | some c =>
      cases c with
      | true => exact absurd hq hne
      | false => simp [PersistCtx.valueLoop, hq]
  | (k1, v1) :: rest => by
    have ih := PersistCtx.valueLoop_append_ne k k2 v hc hne rest
    show PersistCtx.valueLoop k2 ((k1, v1) :: (rest ++ [(k, v)])) = _
    simp only [PersistCtx.valueLoop, ih]

theorem PersistCtx.setLoop_keys (k : Key) (v : Any) :
    ∀ (vs vs1 : List (Key × Any)), PersistCtx.setLoop k v vs = some (some vs1) →
      vs1.map Prod.fst = vs.map Prod.fst
  | [], _, h => by simp [PersistCtx.setLoop] at h
  | (k1, v1) :: rest, vs1, h => by
    unfold PersistCtx.setLoop at h
    cases hr : k.eq k1 with
    | none => simp [hr] at h
    | some b =>
      cases b with
      | true =>
        simp only [hr, Option.some.injEq] at h
        subst h
        rfl
      | false =>
        simp only [hr] at h
        cases hs : PersistCtx.setLoop k v rest with
        | none => simp [hs] at h
        | some o =>
          cases o with
          | none => simp [hs] at h
          | some r =>
            simp only [hs, Option.map_some', Option.some.injEq] at h
            subst h
            simp only [List.map_cons, PersistCtx.setLoop_keys k v rest r hs]

theorem PersistCtx.setLoop_isSome_of_mem (k : Key) (v : Any) (hk : k.eq k = some true) :
    ∀ (vs : List (Key × Any)), k ∈ vs.map Prod.fst →
      ∃ vs1, PersistCtx.setLoop k v vs = some (some vs1)
  | [], h => by simp at h
  | (k1, v1) :: rest, h => by
    unfold PersistCtx.setLoop
    rw [Key.eq_left_of_self k k1 hk]
    by_cases he : k = k1
    · simp [he]
    · have hm : k ∈ rest.map Prod.fst := by
        simp only [List.map_cons, List.mem_cons] at h
        rcases h with h | h
        · exact absurd h he
        · exact h
      obtain ⟨r, hr⟩ := PersistCtx.setLoop_isSome_of_mem k v hk rest hm
      simp [he, hr]

theorem PersistCtx.valueLoop_Set_ne (st st1 : PersistStore) (addr addr2 : Nat) (k k2 : Key)
    (v : Any) (hc : k.typ.comparable = true) (hne : k2.eq k ≠ some true)
    (hset : PersistCtx.Set st addr k v = some st1) :
    PersistCtx.valueLoop k2 (st1.getD addr2 []) = PersistCtx.valueLoop k2 (st.getD addr2 []) := by
  obtain ⟨vs1, hset1, hcase⟩ := PersistCtx.Set_eq_some st addr k v hc
  rw [hset1] at hset
  simp only [Option.some.injEq] at hset
  subst hset
  by_cases he : addr = addr2
  · subst he
    by_cases ha : addr < st.length
    · rw [PersistStore.getD_set st addr _ ha]
      rcases hcase with hs | ⟨_, rfl⟩
      · exact PersistCtx.valueLoop_setLoop_ne k k2 v hne _ vs1 hs
      · exact PersistCtx.valueLoop_append_ne k k2 v hc hne _
    · have h0 : st.getD addr [] = [] := by
        simp [List.getD_eq_getElem?_getD, List.getElem?_eq_none (Nat.le_of_not_lt ha)]
      simp only [PersistStore.getD_set_any, ha, if_false, h0]
  · simp only [List.getD_eq_getElem?_getD, List.getElem?_set_ne he]

/-- `Set(k, v)` with a key of a comparable type on one `PersistCtx` leaves
`Value` of every key that `==` does not find equal to `k` as it was, on every
context. -/
theorem Context.Value_Set_ne (st st1 : PersistStore) (addr : Nat) (k k2 : Key) (v : Any)
    (hc : k.typ.comparable = true) (hne : k2.eq k ≠ some true)
    (hset : PersistCtx.Set st addr k v = some st1) :
    ∀ (ctx : Context), ctx.Value st1 k2 = ctx.Value st k2
  | Context.background => rfl
  | Context.withValue parent k1 v1 => by
    simp only [Context.Value, Context.Value_Set_ne st st1 addr k k2 v hc hne hset parent]
  | Context.persist addr2 base => by
    simp only [Context.Value, PersistCtx.valueLoop_Set_ne st st1 addr addr2 k k2 v hc hne hset,
      Context.Value_Set_ne st st1 addr k k2 v hc hne hset base]

theorem Header.Get_Set (canon : String → String) (h : Header) (key value : String) :
    Header.Get canon (Header.Set canon h key value) key = value := by
  simp [Header.Get, Header.Set, List.lookup]

theorem ridGen_length (seeded : Rand) (ridSrc : Option Rand) :
    (ridGen seeded ridSrc).2.length = 22 := by
  rfl

theorem ridGen_ne_empty (seeded : Rand) (ridSrc : Option Rand) :
    (ridGen seeded ridSrc).2 ≠ "" := by
  intro h
  have h1 := ridGen_length seeded ridSrc
  rw [h] at h1
  cases h1


/-! ## go-pctx and the request ID middleware -/

/-- C17 as stated fails: when a `context.WithValue` layer above the existing
`*PersistCtx` already holds the key, `Persist` stores the pair in that
`*PersistCtx` and returns `ctx`, whose `Value(k)` is still the layer's old
value; for the persist key itself `Value` returns the `*PersistCtx`, not the
value; for the key `math.NaN()`, which `==` never finds, `Value` falls through
to the base context and returns nil; and for a key of a type that is not
comparable, such as `[]int{1}`, `Value` on the returned context panics. -/
theorem pctx.Persist_shadowed_counterexample :
    pctx.Persist [[]] (some exCtx) exKey (Any.str "new")
      = some ([[(exKey, Any.str "new")]], exCtx) ∧
    exCtx.Value [[(exKey, Any.str "new")]] exKey = some (Any.str "old") ∧
    Any.str "old" ≠ Any.str "new" ∧
    pctx.Persist [] none persistkey (Any.str "new")
      = some ([[(persistkey, Any.str "new")]], Context.persist 0 Context.background) ∧
    (Context.persist 0 Context.background).Value [[(persistkey, Any.str "new")]] persistkey
      = some (Any.persistCtx 0 Context.background) ∧
    pctx.Persist [] none nanKey (Any.str "new")
      = some ([[(nanKey, Any.str "new")]], Context.persist 0 Context.background) ∧
    (Context.persist 0 Context.background).Value [[(nanKey, Any.str "new")]] nanKey
      = some Any.nil ∧
    pctx.Persist [] none sliceKey (Any.str "new")
      = some ([[(sliceKey, Any.str "new")]], Context.persist 0 Context.background) ∧
    (Context.persist 0 Context.background).Value [[(sliceKey, Any.str "new")]] sliceKey
      = none := by
  refine ⟨rfl, rfl, fun h => ?_, rfl, rfl, rfl, rfl, rfl, rfl⟩
  injection h with h
  exact absurd h (by decide)

/-- C17 (amended): for every context stack that Go code can build (nil
included), every key that `==` finds equal to itself (which leaves out NaN
and keys of a type that is not comparable) other than the persist key, that
no `context.WithValue` layer above an existing `*PersistCtx` holds, and every
value, `Persist` returns without a panic and the context it returns yields
the value for the key; when the stack contains a `*PersistCtx` the context
itself is returned and nothing is allocated, otherwise the returned context
is a new `*PersistCtx` wrapping it. -/
theorem pctx.Persist_visible (st : PersistStore) (ctx : Option Context) (k : Key) (v : Any)
    (hwf : (ctx.getD Context.background).WF st) (hself : k.eq k = some true)
    (hk : k ≠ persistkey) (hs : (ctx.getD Context.background).shadows k = false) :
    ∃ st1 ctx1, pctx.Persist st ctx k v = some (st1, ctx1) ∧
      ctx1.Value st1 k = some v ∧
      ((ctx.getD Context.background).hasPersist = true →
        ctx1 = ctx.getD Context.background ∧ st1.length = st.length) ∧
      ((ctx.getD Context.background).hasPersist = false →
        ctx1 = Context.persist st.length (ctx.getD Context.background) ∧
        st1.length = st.length + 1) := by
  cases hp : (ctx.getD Context.background).hasPersist with
  | true =>
    obtain ⟨a, b, hf⟩ := Context.found_of_hasPersist st _ hwf hp
    have ha : a < st.length := by
      have hwf2 := hwf
      clear hs hp
      revert hf hwf2
      generalize ctx.getD Context.background = c
      intro hf hwf2
      exact Context.found_addr_lt st a b c hwf2 hf
    obtain ⟨st1, hset, hlen, hl⟩ := PersistCtx.valueLoop_Set st a k v ha hself
    refine ⟨st1, ctx.getD Context.background, ?_,
      Context.Value_Set_found st st1 a b k v hself hk hl _ hwf hs hf,
      fun _ => ⟨rfl, hlen⟩, fun h => (by cases h)⟩
    simp only [pctx.Persist, hf, hset, Option.map_some']
  | false =>
    have hlt : st.length < (st ++ [[]]).length := by simp
    obtain ⟨st1, hset, hlen, hl⟩ := PersistCtx.valueLoop_Set (st ++ [[]]) st.length k v hlt hself
    refine ⟨st1, Context.persist st.length (ctx.getD Context.background), ?_,
      Context.Value_persist_of_loop st1 _ _ k v hself hk hl,
      fun h => (by cases h), fun _ => ⟨rfl, ?_⟩⟩
    · cases hv : (ctx.getD Context.background).Value st persistkey with
      | none => exact absurd hv (Context.Value_ne_none st persistkey (by decide) _)
      | some x =>
        cases x with
        | persistCtx a b =>
          rw [Context.hasPersist_of_found st a b _ hwf hv] at hp
          cases hp
        | nil => simp only [pctx.Persist, hv, hset, Option.map_some']
        | str s => simp only [pctx.Persist, hv, hset, Option.map_some']
        | other n => simp only [pctx.Persist, hv, hset, Option.map_some']
    · rw [hlen]
      simp

theorem pctx.Persist_visible_witness :
    (Context.persist 0 Context.background).WF [[]] ∧
    exKey.eq exKey = some true ∧
    exKey ≠ persistkey ∧
    (Context.persist 0 Context.background).shadows exKey = false ∧
    ∃ st1 ctx1,
      pctx.Persist [[]] (some (Context.persist 0 Context.background)) exKey (Any.str "new")
        = some (st1, ctx1) ∧
      ctx1.Value st1 exKey = some (Any.str "new") :=
  ⟨⟨by decide, trivial⟩, by decide, by decide, rfl,
   (pctx.Persist_visible [[]] (some (Context.persist 0 Context.background))
      exKey (Any.str "new") ⟨by decide, trivial⟩ (by decide) (by decide) rfl).imp
     (fun _ h => h.imp (fun _ h1 => ⟨h1.1, h1.2.1⟩))⟩

/-- C18 as stated fails: after `Set(k, v)` with the key `math.NaN()`, which
`==` never finds, `Value(k)` returns the base context's value, here nil, and
not `v`; and after `Set(k, v)` with a key of a type that is not comparable,
such as `[]int{1}`, `Value(k)` panics when it compares `k` with the stored
key. Neither key is the persist key. -/
theorem PersistCtx.Value_after_Set_counterexample :
    nanKey ≠ persistkey ∧
    PersistCtx.Set [[]] 0 nanKey (Any.str "v") = some [[(nanKey, Any.str "v")]] ∧
    (Context.persist 0 Context.background).Value [[(nanKey, Any.str "v")]] nanKey
      = some Any.nil ∧
    some Any.nil ≠ some (Any.str "v") ∧
    sliceKey ≠ persistkey ∧
    PersistCtx.Set [[]] 0 sliceKey (Any.str "v") = some [[(sliceKey, Any.str "v")]] ∧
    (Context.persist 0 Context.background).Value [[(sliceKey, Any.str "v")]] sliceKey
      = none := by
  refine ⟨by decide, rfl, rfl, fun h => ?_, by decide, rfl, rfl⟩
  cases h

/-- C18 (amended): for every allocated `PersistCtx`, every key that `==`
finds equal to itself (which leaves out NaN and keys of a type that is not
comparable) other than the persist key, and every value, `Set(k, v)` returns
without a panic and `Value(k)` after it returns `v`, whatever was persisted
under `k` before and whatever the base context holds for `k`. -/
theorem PersistCtx.Value_after_Set (st : PersistStore) (addr : Nat) (base : Context)
    (k : Key) (v : Any) (halloc : addr < st.length) (hself : k.eq k = some true)
    (hk : k ≠ persistkey) :
    ∃ st1, PersistCtx.Set st addr k v = some st1 ∧
      (Context.persist addr base).Value st1 k = some v := by
  obtain ⟨st1, hset, _, hl⟩ := PersistCtx.valueLoop_Set st addr k v halloc hself
  refine ⟨st1, hset, ?_⟩
  exact Context.Value_persist_of_loop st1 addr base k v hself hk hl

theorem PersistCtx.Value_after_Set_witness :
    (0 : Nat) < ([[(exKey, Any.str "first")]] : PersistStore).length ∧
    exKey.eq exKey = some true ∧
    exKey ≠ persistkey ∧
    PersistCtx.Set [[(exKey, Any.str "first")]] 0 exKey (Any.str "second")
      = some [[(exKey, Any.str "second")]] ∧
    ∃ st1, PersistCtx.Set [[(exKey, Any.str "first")]] 0 exKey (Any.str "second") = some st1 ∧
      (Context.persist 0 (Context.withValue Context.background exKey (Any.str "base"))).Value
        st1 exKey = some (Any.str "second") :=
  ⟨by decide, by decide, by decide, rfl,
   PersistCtx.Value_after_Set [[(exKey, Any.str "first")]] 0
     (Context.withValue Context.background exKey (Any.str "base"))
     exKey (Any.str "second") (by decide) (by decide) (by decide)⟩

/-- C19: `Get` returns the `*PersistCtx` that `ctx.Value(persistkey)` finds
and allocates nothing; when none is found it returns a newly allocated
`PersistCtx` with no persisted pairs whose base is the given context, the
background context for nil; `Get` never panics, `Get` of the result of `Get`
is that same result and allocates nothing; and `PersistContext` run on a
request it has already processed leaves the request and the store as they
are. -/
theorem pctx.Get_existing_or_new (st : PersistStore) (ctx : Option Context) :
    (∀ a b, (ctx.getD Context.background).Value st persistkey = some (Any.persistCtx a b) →
      pctx.Get st ctx = some (st, ⟨a, b⟩)) ∧
    ((∀ a b, (ctx.getD Context.background).Value st persistkey ≠ some (Any.persistCtx a b)) →
      pctx.Get st ctx = some (st ++ [[]], ⟨st.length, ctx.getD Context.background⟩) ∧
      (st ++ [[]]).getD st.length [(persistkey, Any.nil)] = []) ∧
    (∃ r, pctx.Get st ctx = some r ∧
      pctx.Get r.1 (some r.2.toContext) = some r) ∧
    ∀ c : GinContext, ∃ r, PersistContext st c = some r ∧
      PersistContext r.1 r.2 = some r := by
  have hget : ∀ (s : PersistStore) (x : Option Context), ∃ r, pctx.Get s x = some r ∧
      pctx.Get r.1 (some r.2.toContext) = some r := by
    intro s x
    cases hv : (x.getD Context.background).Value s persistkey with
    | none => exact absurd hv (Context.Value_ne_none s persistkey (by decide) _)
    | some y =>
      cases y with
      | persistCtx a b =>
        exact ⟨(s, ⟨a, b⟩), by simp only [pctx.Get, hv],
          by simp [pctx.Get, PersistCtx.toContext, Context.Value, persistkey_eq_self]⟩
      | nil =>
        exact ⟨(s ++ [[]], ⟨s.length, x.getD Context.background⟩), by simp only [pctx.Get, hv],
          by simp [pctx.Get, PersistCtx.toContext, Context.Value, persistkey_eq_self]⟩
      | str t =>
        exact ⟨(s ++ [[]], ⟨s.length, x.getD Context.background⟩), by simp only [pctx.Get, hv],
          by simp [pctx.Get, PersistCtx.toContext, Context.Value, persistkey_eq_self]⟩
      | other n =>
        exact ⟨(s ++ [[]], ⟨s.length, x.getD Context.background⟩), by simp only [pctx.Get, hv],
          by simp [pctx.Get, PersistCtx.toContext, Context.Value, persistkey_eq_self]⟩
  refine ⟨fun a b h => ?_, fun h => ?_, hget st ctx, fun c => ?_⟩
  · simp only [pctx.Get, h]
  · refine ⟨?_, by simp [List.getD_eq_getElem?_getD]⟩
    cases hv : (ctx.getD Context.background).Value st persistkey with
    | none => exact absurd hv (Context.Value_ne_none st persistkey (by decide) _)
    | some y =>
      cases y with
      | persistCtx a b => exact absurd hv (h a b)
      | nil => simp only [pctx.Get, hv]
      | str s => simp only [pctx.Get, hv]
      | other n => simp only [pctx.Get, hv]
  · obtain ⟨r, hr, _⟩ := hget st (some c.Request.Context)
    refine ⟨(r.1, { c with Request := c.Request.WithContext r.2.toContext }), ?_, ?_⟩
    · simp only [PersistContext, hr, Option.map_some']
    · simp [PersistContext, pctx.Get, PersistCtx.toContext, Context.Value, Request.Context,
        Request.WithContext, persistkey_eq_self]

/-- C20: after `RequestID(header)` has run, `RequestIDFromCtx` of the request
context, the request header and the response header all hold one string,
which is not empty; it is the incoming header value when that was not empty,
the generator then being left untouched, and a generated 22-character ID
otherwise; and `RequestIDFromCtx` is empty for a context whose value under
the request ID key is not a string, the background context among them. -/
theorem RequestID_consistent (canon : String → String) (seeded : Rand) (header : String)
    (ridSrc : Option Rand) (c : GinContext) (st : PersistStore) :
    (∃ rid, rid ≠ "" ∧
      RequestIDFromCtx st (RequestID canon seeded header ridSrc c).2.Request.Context
        = some rid ∧
      Header.Get canon (RequestID canon seeded header ridSrc c).2.Request.Header header = rid ∧
      Header.Get canon (RequestID canon seeded header ridSrc c).2.Writer header = rid ∧
      (c.GetHeader canon header ≠ "" →
        rid = c.GetHeader canon header ∧
        (RequestID canon seeded header ridSrc c).1 = ridSrc) ∧
      (c.GetHeader canon header = "" →
        rid = (ridGen seeded ridSrc).2 ∧ rid.length = 22)) ∧
    (∀ ctx : Context, (∀ s, ctx.Value st ridCtxKey ≠ some (Any.str s)) →
      RequestIDFromCtx st ctx = some "") ∧
    RequestIDFromCtx st Context.background = some "" := by
  refine ⟨?_, fun ctx h => ?_, rfl⟩
  · by_cases hin : c.GetHeader canon header = ""
    · have hne := ridGen_ne_empty seeded ridSrc
      refine ⟨(ridGen seeded ridSrc).2, hne, ?_, ?_, ?_, fun h => absurd hin h,
        fun _ => ⟨rfl, ridGen_length seeded ridSrc⟩⟩
      · simp [RequestID, hin, RequestIDFromCtx, Request.Context, Request.WithContext,
          Context.Value, GinContext.Header, hne, ridCtxKey_eq_self]
      · simp [RequestID, hin, Request.WithContext, GinContext.Header, hne, Header.Get_Set]
      · simp [RequestID, hin, Request.WithContext, GinContext.Header, hne, Header.Get_Set]
    · refine ⟨c.GetHeader canon header, hin, ?_, ?_, ?_, fun _ => ⟨rfl, ?_⟩,
        fun h => absurd h hin⟩
      · simp [RequestID, hin, RequestIDFromCtx, Request.Context, Request.WithContext,
          Context.Value, GinContext.Header, ridCtxKey_eq_self]
      · simp [RequestID, hin, Request.WithContext, GinContext.Header]
        rfl
      · simp [RequestID, hin, Request.WithContext, GinContext.Header, Header.Get_Set]
      · simp [RequestID, hin]
  · unfold RequestIDFromCtx
    cases hv : ctx.Value st ridCtxKey with
    | none => exact absurd hv (Context.Value_ne_none st ridCtxKey (by decide) ctx)
    | some y =>
      cases y with
      | str s => exact absurd hv (h s)
      | nil => rfl
      | persistCtx a b => rfl
      | other n => rfl


/-! ## federatingdb: Update -/

theorem Update_of_quiet (env : UpdateEnv) (queue : List FromFederator) (ctx : UpdateCtx)
    (asType : VocabType) (hm : env.debug = false ∨ env.marshalItem asType = none) :
    Update env queue ctx asType =
      if ctx.internal then some (none, queue)
      else if asType.typeName ∈ actorTypeNames then
        updateAccountable env queue ctx.receivingAccount ctx.requestingAccount asType
      else some (none, queue) := by
  have h : (if env.debug then env.marshalItem asType else none) = none := by
    rcases hm with h | h
    · simp [h]
    · simp [h]
  simp only [Update, h]

/-- C21: when the debug-level marshalling of the item does not fail, `Update`
enqueues the profile update message, returning nil, if and only if the
context is not internal, the type name is an actor type, the value is an
Accountable whose id is an IRI with a host other than the configured one, and
the IRI string equals the requesting account's URI; otherwise whatever it
returns leaves the queue as it was. When all but the last condition hold and
the requesting account's URI differs from the IRI an error is returned; for
an internal context, a type that is not an actor type, or a local account,
nil is returned; nothing is enqueued in these cases. -/
theorem Update_enqueues_iff (env : UpdateEnv) (queue : List FromFederator) (ctx : UpdateCtx)
    (asType : VocabType) (hm : env.debug = false ∨ env.marshalItem asType = none) :
    (Update.enqueues env ctx asType ↔
      Update env queue ctx asType = some (none, queue ++ [profileUpdate ctx asType])) ∧
    (¬ Update.enqueues env ctx asType →
      ∀ r, Update env queue ctx asType = some r → r.2 = queue) ∧
    (∀ u acct, ctx.internal = false → asType.typeName ∈ actorTypeNames →
      asType.accountable = true → asType.id = IdProp.iri u → u.Host ≠ env.host →
      ctx.requestingAccount = some acct → acct.URI ≠ u.String →
      ∃ msg, Update env queue ctx asType = some (some msg, queue)) ∧
    (ctx.internal = true → Update env queue ctx asType = some (none, queue)) ∧
    (asType.typeName ∉ actorTypeNames → Update env queue ctx asType = some (none, queue)) ∧
    (∀ u, ctx.internal = false → asType.typeName ∈ actorTypeNames →
      asType.accountable = true → asType.id = IdProp.iri u → u.Host = env.host →
      Update env queue ctx asType = some (none, queue)) := by
  rw [Update_of_quiet env queue ctx asType hm]
  have hne : ∀ (q : List FromFederator) (m : FromFederator), q ≠ q ++ [m] := by
    intro q m h
    have := congrArg List.length h
    simp at this
  refine ⟨⟨?_, ?_⟩, ?_, ?_, ?_, ?_, ?_⟩
  · rintro ⟨hi, ht, ha, u, hid, hh, acct, hr, hu⟩
    simp [hi, ht, updateAccountable, ha, hid, hh, hr, hu, profileUpdate]
  · intro h
    by_cases hi : ctx.internal = true
    · simp [hi] at h
    · by_cases ht : asType.typeName ∈ actorTypeNames
      · simp only [hi, ht, if_true, Bool.false_eq_true, if_false] at h
        unfold updateAccountable at h
        by_cases ha : asType.accountable = false
        · simp [ha] at h
        · simp only [ha, if_false] at h
          cases hid : asType.id with
          | null => simp [hid] at h
          | notIRI => simp [hid] at h
          | iri u =>
            simp only [hid] at h
            by_cases hh : u.Host = env.host
            · simp [hh] at h
            · simp only [hh, if_false] at h
              cases hr : ctx.requestingAccount with
              | none => simp [hr] at h
              | some acct =>
                simp only [hr] at h
                by_cases hu : acct.URI = u.String
                · exact ⟨by simpa using hi, ht, by simpa using ha, u, hid, hh, acct, hr, hu⟩
                · simp [hu] at h
      · simp [hi, ht] at h
  · intro hnot r hr
    by_cases hi : ctx.internal = true
    · simp [hi] at hr
      rw [← hr]
    · by_cases ht : asType.typeName ∈ actorTypeNames
      · simp only [hi, ht, if_true, Bool.false_eq_true, if_false] at hr
        unfold updateAccountable at hr
        by_cases ha : asType.accountable = false
        · simp [ha] at hr
          rw [← hr]
        · simp only [ha, if_false] at hr
          cases hid : asType.id with
          | null => simp [hid] at hr; rw [← hr]
          | notIRI => simp [hid] at hr; rw [← hr]
          | iri u =>
            simp only [hid] at hr
            by_cases hh : u.Host = env.host
            · simp [hh] at hr
              rw [← hr]
            · simp only [hh, if_false] at hr
              cases hq : ctx.requestingAccount with
              | none => simp [hq] at hr
              | some acct =>
                simp only [hq] at hr
                by_cases hu : acct.URI = u.String
                · exact absurd
                    ⟨by simpa using hi, ht, by simpa using ha, u, hid, hh, acct, hq, hu⟩ hnot
                · simp [hu] at hr
                  rw [← hr]
      · simp [hi, ht] at hr
        rw [← hr]
  · intro u acct hi ht ha hid hh hr hu
    simp [hi, ht, updateAccountable, ha, hid, hh, hr, hu]
  · intro hi
    simp [hi]
  · intro ht
    simp [ht]
  · intro u hi ht ha hid hh
    simp [hi, ht, updateAccountable, ha, hid, hh]

theorem Update_enqueues_iff_witness :
    (exEnv.debug = false ∨ exEnv.marshalItem exPerson = none) ∧
    Update.enqueues exEnv exUpdateCtx exPerson ∧
    Update exEnv [] exUpdateCtx exPerson = some (none, [profileUpdate exUpdateCtx exPerson]) ∧
    Update exEnv [] { exUpdateCtx with internal := true } exPerson = some (none, []) :=
  ⟨Or.inl rfl,
   ⟨rfl, by decide, rfl, _, rfl, by decide, exRemote, rfl, by decide⟩,
   (Update_enqueues_iff exEnv [] exUpdateCtx exPerson (Or.inl rfl)).1.1
     ⟨rfl, by decide, rfl, _, rfl, by decide, exRemote, rfl, by decide⟩,
   (Update_enqueues_iff exEnv [] { exUpdateCtx with internal := true } exPerson
     (Or.inl rfl)).2.2.2.1 rfl⟩

/-! ## go-pctx: Set changes one key only -/

/-- C22 as stated fails: `Set` of the key `math.NaN()`, which `==` never
finds, on a `PersistCtx` that already holds a pair for it adds a second pair
instead of replacing the value in place; `Set` of a key of a type that is not
comparable, such as `[]int{1}`, makes `Value` of the other key `[]int{2}`
panic where it returned nil before; and a second `Set` of `[]int{1}` panics
itself. -/
theorem PersistCtx.Set_second_pair_counterexample :
    nanKey ∈ ([(nanKey, Any.str "a")] : List (Key × Any)).map Prod.fst ∧
    PersistCtx.Set [[(nanKey, Any.str "a")]] 0 nanKey (Any.str "b")
      = some [[(nanKey, Any.str "a"), (nanKey, Any.str "b")]] ∧
    sliceKey2 ≠ sliceKey ∧
    (Context.persist 0 Context.background).Value [[]] sliceKey2 = some Any.nil ∧
    PersistCtx.Set [[]] 0 sliceKey (Any.str "v") = some [[(sliceKey, Any.str "v")]] ∧
    (Context.persist 0 Context.background).Value [[(sliceKey, Any.str "v")]] sliceKey2 = none ∧
    PersistCtx.Set [[(sliceKey, Any.str "v")]] 0 sliceKey (Any.str "w") = none := by
  refine ⟨by decide, rfl, by decide, rfl, rfl, rfl, rfl⟩

/-- C22 (amended): for every `PersistCtx`, every key `k` of a comparable
type, every key `k2` that `==` does not find equal to `k`, and every value,
`Set(k, v)` returns without a panic and `Value(k2)` is the same after it as
before, on the `PersistCtx` itself and on every context; and when `k` is
found equal to itself by `==` (it is not NaN) and is already present, the
pairs keep their keys and their order, so that no second pair for `k` is
added, the first pair for `k` then holding `v`. -/
theorem PersistCtx.Set_changes_one_key (st : PersistStore) (addr : Nat) (base : Context)
    (k k2 : Key) (v : Any) (hc : k.typ.comparable = true) (hne : k2.eq k = some false) :
    ∃ st1, PersistCtx.Set st addr k v = some st1 ∧
      (Context.persist addr base).Value st1 k2 = (Context.persist addr base).Value st k2 ∧
      (∀ ctx : Context, ctx.Value st1 k2 = ctx.Value st k2) ∧
      (k.eq k = some true → k ∈ (st.getD addr []).map Prod.fst →
        (st1.getD addr []).map Prod.fst = (st.getD addr []).map Prod.fst ∧
        (st1.getD addr []).length = (st.getD addr []).length ∧
        PersistCtx.valueLoop k (st1.getD addr []) = some (some v)) := by
  obtain ⟨vs1, hset, hcase⟩ := PersistCtx.Set_eq_some st addr k v hc
  have hne2 : k2.eq k ≠ some true := by
    rw [hne]
    simp
  refine ⟨_, hset, Context.Value_Set_ne st _ addr k k2 v hc hne2 hset _,
    Context.Value_Set_ne st _ addr k k2 v hc hne2 hset, fun hself hmem => ?_⟩
  have ha : addr < st.length := by
    by_contra hcon
    have h0 : st.getD addr [] = [] := by
      simp [List.getD_eq_getElem?_getD, List.getElem?_eq_none (Nat.le_of_not_lt hcon)]
    rw [h0] at hmem
    simp at hmem
  obtain ⟨vs2, hs⟩ := PersistCtx.setLoop_isSome_of_mem k v hself _ hmem
  have hvs : vs1 = vs2 := by
    rcases hcase with h1 | ⟨h1, _⟩
    · rw [hs] at h1
      simp only [Option.some.injEq] at h1
      exact h1.symm
    · rw [hs] at h1
      simp at h1
  subst hvs
  rw [PersistStore.getD_set st addr _ ha]
  have hkeys := PersistCtx.setLoop_keys k v _ vs1 hs
  refine ⟨hkeys, ?_, PersistCtx.valueLoop_setLoop k v _ vs1 hs⟩
  have hlen := congrArg List.length hkeys
  simpa using hlen

theorem PersistCtx.Set_changes_one_key_witness :
    exKey.typ.comparable = true ∧
    exKey2.eq exKey = some false ∧
    PersistCtx.Set [[(exKey, Any.str "a"), (exKey2, Any.str "b")]] 0 exKey (Any.str "c")
      = some [[(exKey, Any.str "c"), (exKey2, Any.str "b")]] ∧
    (Context.persist 0 Context.background).Value
      [[(exKey, Any.str "a"), (exKey2, Any.str "b")]] exKey2 = some (Any.str "b") ∧
    ∃ st1,
      PersistCtx.Set [[(exKey, Any.str "a"), (exKey2, Any.str "b")]] 0 exKey (Any.str "c")
        = some st1 ∧
      (Context.persist 0 Context.background).Value st1 exKey2
        = (Context.persist 0 Context.background).Value
            [[(exKey, Any.str "a"), (exKey2, Any.str "b")]] exKey2 :=
  ⟨rfl, by decide, rfl, rfl,
   (PersistCtx.Set_changes_one_key [[(exKey, Any.str "a"), (exKey2, Any.str "b")]] 0
      Context.background exKey exKey2 (Any.str "c") rfl (by decide)).imp
     (fun _ h => ⟨h.1, h.2.1⟩)⟩


end GoToSocial
